import Mathlib

/-!
# solo-cli: the interactive view-model of the terminal dashboard

A shallow embedding of `tui/app.go` (the bubbletea model: `NewModel`,
`NewDemoModel`, `Init`, `Update`, `checkLoadingDone`, `getMaxCursor`, the
fetch commands and `deleteSelectedExpense`) together with the payload types
and demo constructors of package `client`.

Conventions of the embedding:

* Go `int` values are `Int`.  Every value the reducer computes on
  (`cursor`, `viewportOffset`, tab numbers) is bounded by a slice length, by
  the constant `viewportSize = 10` or by `5`, so no 64-bit operation wraps.
  `%` is Go's truncated remainder, `Int.tmod`.
* A Go pointer that may be `nil` is an `Option`; an `error` value is
  `Option GoError`, `none` being the `nil` error.
* `float64` amounts are only stored and printed, never computed with; they
  are carried as exact decimals (`Rat`).
* The remote service behind `client.Client` is an environment `Provider`
  giving the answer of each client method.  Running a command yields the
  list of provider calls it made and the message it posts.
* `tea.Cmd` values are data: a constructor per closure or method value the
  program builds, holding the receiver copy the closure captured.
-/

/-- A non-nil Go `error`, identified by its message. -/
structure GoError where
  text : String
  deriving DecidableEq, Repr

namespace client

/-- Go `client.Currency`. -/
structure Currency where
  Id : Int
  Code : String
  Name : String
  ShortName : String
  IsDefault : Bool
  deriving DecidableEq, Repr

/-- Go `client.Summary`. -/
structure Summary where
  Year : Int
  DisplayCurrency : String
  TotalRevenues : Rat
  TotalDeductibleExpenses : Rat
  HasTaxes : Bool
  Taxes : Rat
  RevenuesAwaitingReview : Int
  ExpensesAwaitingReview : Int
  deriving DecidableEq, Repr

/-- Go `client.CompanyInfo`. -/
structure CompanyInfo where
  Name : String
  Code1 : String
  Code2 : String
  Address : String
  InvoiceMentions : String
  deriving DecidableEq, Repr

/-- Go `client.LocalAmount`. -/
structure LocalAmount where
  Amount : Rat
  VAT : Rat
  Total : Rat
  Currency : Currency
  ExchangeRate : Option Rat
  deriving DecidableEq, Repr

/-- Go `client.InvoiceStatus`. -/
structure InvoiceStatus where
  Code : String
  Name : String
  IsCancelled : Bool
  deriving DecidableEq, Repr

/-- Go `client.EInvoiceStatus`. -/
structure EInvoiceStatus where
  Code : String
  Name : String
  IsEligible : Bool
  EnableCloudFormation : Bool
  deriving DecidableEq, Repr

/-- Go `client.Revenue`. -/
structure Revenue where
  UniqueCode : String := ""
  SerialCode : String := ""
  ClientName : String := ""
  IssueDate : String := ""
  PaymentDate : String := ""
  IsPaid : Bool := false
  Total : Rat := 0
  Currency : Currency := ⟨0, "", "", "", false⟩
  InvoiceLocalAmount : Option LocalAmount := none
  IsExternalDocument : Bool := false
  Status : Option InvoiceStatus := none
  EInvoiceStatus : Option EInvoiceStatus := none
  deriving DecidableEq, Repr

/-- Go `client.RevenueListResponse`. -/
structure RevenueListResponse where
  Items : List Revenue
  TotalResults : Option Int
  deriving DecidableEq, Repr

/-- Go `client.ExpenseLocalAmount`. -/
structure ExpenseLocalAmount where
  Total : Rat
  Currency : Currency
  deriving DecidableEq, Repr

/-- Go `client.Expense`. -/
structure Expense where
  UniqueCode : String := ""
  DocumentCode : Option String := none
  DocumentMimeType : Option String := none
  SupplierName : String := ""
  PurchaseDate : String := ""
  Category : String := ""
  PrimaryCategory : String := ""
  CategoryCount : Int := 0
  Total : Rat := 0
  Deductibility : String := ""
  Currency : Currency := ⟨0, "", "", "", false⟩
  ExpenseLocalAmount : Option ExpenseLocalAmount := none
  deriving DecidableEq, Repr

/-- Go `client.ExpenseListResponse`. -/
structure ExpenseListResponse where
  Items : List Expense
  TotalResults : Option Int
  deriving DecidableEq, Repr

/-- Go `client.QueuedExpense`. -/
structure QueuedExpense where
  Id : Int := 0
  DocumentCode : String := ""
  DocumentName : String := ""
  DocumentMimeType : String := ""
  CreatedOn : String := ""
  DaysPassed : Int := 0
  ProcessingDeadline : String := ""
  IsOverdue : Bool := false
  deriving DecidableEq, Repr

/-- Go `client.QueuedExpenseResponse`. -/
structure QueuedExpenseResponse where
  Items : List QueuedExpense
  TotalResults : Option Int
  deriving DecidableEq, Repr

/-- Go `client.EFactura`. -/
structure EFactura where
  SerialCode : String := ""
  TotalAmount : Rat := 0
  CurrencyCode : String := ""
  InvoiceDate : String := ""
  PartyCode1 : String := ""
  PartyName : String := ""
  deriving DecidableEq, Repr

/-- Go `client.EFacturaListResponse`. -/
structure EFacturaListResponse where
  Items : List EFactura
  TotalResults : Option Int
  deriving DecidableEq, Repr

/-- Go `client.Client`: the handle held by the model.  Its `httpClient` is the
connection to the remote service, whose answers are the `Provider`. -/
structure Client where
  userAgent : String
  deriving DecidableEq, Repr

end client

namespace client

/-- Go `usdCurrency` (demo.go). -/
def usdCurrency : Currency :=
  { Id := 3, Code := "USD", Name := "US Dollar", ShortName := "USD", IsDefault := false }

/-- Go `GetDemoSummary`; `year` stands for `time.Now().Year()`. -/
def GetDemoSummary (year : Int) : Summary :=
  { Year := year
    DisplayCurrency := "RON"
    TotalRevenues := 125840.50
    TotalDeductibleExpenses := 42350.75
    HasTaxes := true
    Taxes := 8349.88
    RevenuesAwaitingReview := 0
    ExpensesAwaitingReview := 3 }

/-- Go `GetDemoCompany`. -/
def GetDemoCompany : CompanyInfo :=
  { Name := "Demo PFA"
    Code1 := "RO12345678"
    Code2 := "J40/1234/2020"
    Address := "Str. Tehnologiei 42, București, Sector 1"
    InvoiceMentions := "Operator de date cu caracter personal" }

/-- Go `GetDemoRevenues`. -/
def GetDemoRevenues : RevenueListResponse :=
  let ronCurrency : Currency :=
    { Id := 1, Code := "RON", Name := "Romanian Leu", ShortName := "RON", IsDefault := true }
  let eurCurrency : Currency :=
    { Id := 2, Code := "EUR", Name := "Euro", ShortName := "EUR", IsDefault := false }
  let usdCurrency : Currency :=
    { Id := 3, Code := "USD", Name := "US Dollar", ShortName := "USD", IsDefault := false }
  let items : List Revenue := [
    { UniqueCode := "inv-001", SerialCode := "ACME-2025-001", ClientName := "Cloud Services Inc", IssueDate := "2025-01-05", PaymentDate := "2025-01-10", IsPaid := true, Total := 15000.00, Currency := eurCurrency },
    { UniqueCode := "inv-002", SerialCode := "ACME-2025-002", ClientName := "DevTools Pro SRL", IssueDate := "2025-01-08", PaymentDate := "", IsPaid := false, Total := 8500.00, Currency := ronCurrency },
    { UniqueCode := "inv-003", SerialCode := "ACME-2025-003", ClientName := "TechStart Solutions", IssueDate := "2025-01-12", PaymentDate := "2025-01-15", IsPaid := true, Total := 22400.00, Currency := ronCurrency },
    { UniqueCode := "inv-004", SerialCode := "ACME-2025-004", ClientName := "Nordic Systems AB", IssueDate := "2025-01-15", PaymentDate := "2025-01-20", IsPaid := true, Total := 5200.00, Currency := eurCurrency },
    { UniqueCode := "inv-005", SerialCode := "ACME-2025-005", ClientName := "DataFlow Analytics", IssueDate := "2025-01-18", PaymentDate := "", IsPaid := false, Total := 12750.00, Currency := usdCurrency },
    { UniqueCode := "inv-006", SerialCode := "ACME-2025-006", ClientName := "InnovateTech GmbH", IssueDate := "2025-01-22", PaymentDate := "2025-01-25", IsPaid := true, Total := 18900.00, Currency := eurCurrency },
    { UniqueCode := "inv-007", SerialCode := "ACME-2025-007", ClientName := "Quantum Labs SRL", IssueDate := "2025-01-25", PaymentDate := "", IsPaid := false, Total := 6300.00, Currency := ronCurrency },
    { UniqueCode := "inv-008", SerialCode := "ACME-2025-008", ClientName := "ByteForge Studios", IssueDate := "2025-01-28", PaymentDate := "2025-02-01", IsPaid := true, Total := 31500.00, Currency := ronCurrency } ]
  let total : Int := items.length
  { Items := items, TotalResults := some total }

/-- Go `GetDemoExpenses`. -/
def GetDemoExpenses : ExpenseListResponse :=
  let ronCurrency : Currency :=
    { Id := 1, Code := "RON", Name := "Romanian Leu", ShortName := "RON", IsDefault := true }
  let eurCurrency : Currency :=
    { Id := 2, Code := "EUR", Name := "Euro", ShortName := "EUR", IsDefault := false }
  let items : List Expense := [
    { UniqueCode := "exp-001", SupplierName := "Adobe Systems", PurchaseDate := "2025-01-03", Category := "Software & Subscriptions", PrimaryCategory := "Operating", Total := 450.00, Currency := eurCurrency, Deductibility := "100%" },
    { UniqueCode := "exp-002", SupplierName := "DigitalOcean", PurchaseDate := "2025-01-05", Category := "Cloud Hosting", PrimaryCategory := "Operating", Total := 1250.00, Currency := ronCurrency, Deductibility := "100%" },
    { UniqueCode := "exp-003", SupplierName := "Petrom", PurchaseDate := "2025-01-08", Category := "Cheltuieli auto - Nedeductibilă", PrimaryCategory := "Transport", Total := 380.50, Currency := ronCurrency, Deductibility := "0%" },
    { UniqueCode := "exp-004", SupplierName := "eMAG", PurchaseDate := "2025-01-10", Category := "Office Equipment", PrimaryCategory := "Equipment", Total := 2890.00, Currency := ronCurrency, Deductibility := "100%" },
    { UniqueCode := "exp-005", SupplierName := "GitHub Enterprise", PurchaseDate := "2025-01-12", Category := "Software & Subscriptions", PrimaryCategory := "Operating", Total := 210.00, Currency := client.usdCurrency },
    { UniqueCode := "exp-006", SupplierName := "Restaurant La Mama", PurchaseDate := "2025-01-15", Category := "Cheltuieli protocol - Nedeductibilă", PrimaryCategory := "Entertainment", Total := 520.00, Currency := ronCurrency, Deductibility := "0%" },
    { UniqueCode := "exp-007", SupplierName := "Telekom Romania", PurchaseDate := "2025-01-18", Category := "Telecommunications", PrimaryCategory := "Operating", Total := 189.00, Currency := ronCurrency, Deductibility := "100%" },
    { UniqueCode := "exp-008", SupplierName := "JetBrains", PurchaseDate := "2025-01-20", Category := "Software & Subscriptions", PrimaryCategory := "Operating", Total := 649.00, Currency := eurCurrency, Deductibility := "100%" } ]
  let total : Int := items.length
  { Items := items, TotalResults := some total }

/-- Go `GetDemoQueue`. -/
def GetDemoQueue : QueuedExpenseResponse :=
  let items : List QueuedExpense := [
    { Id := 1, DocumentCode := "doc-001", DocumentName := "factura_orange_ian2025.pdf", DocumentMimeType := "application/pdf", CreatedOn := "2025-01-20", DaysPassed := 5, ProcessingDeadline := "2025-02-04", IsOverdue := false },
    { Id := 2, DocumentCode := "doc-002", DocumentName := "bon_fiscal_carburant.jpg", DocumentMimeType := "image/jpeg", CreatedOn := "2025-01-18", DaysPassed := 7, ProcessingDeadline := "2025-02-02", IsOverdue := false },
    { Id := 3, DocumentCode := "doc-003", DocumentName := "chitanta_curier_dec2024.pdf", DocumentMimeType := "application/pdf", CreatedOn := "2024-12-28", DaysPassed := 28, ProcessingDeadline := "2025-01-12", IsOverdue := true } ]
  let total : Int := items.length
  { Items := items, TotalResults := some total }

/-- Go `GetDemoEFactura`. -/
def GetDemoEFactura : EFacturaListResponse :=
  let items : List EFactura := [
    { SerialCode := "EF-2025-00142", TotalAmount := 1890.50, CurrencyCode := "RON", InvoiceDate := "2025-01-22", PartyCode1 := "RO9876543", PartyName := "Supplier Alpha SRL" },
    { SerialCode := "EF-2025-00138", TotalAmount := 4250.00, CurrencyCode := "RON", InvoiceDate := "2025-01-20", PartyCode1 := "RO1122334", PartyName := "Tech Imports SA" },
    { SerialCode := "EF-2025-00125", TotalAmount := 780.00, CurrencyCode := "EUR", InvoiceDate := "2025-01-18", PartyCode1 := "RO5544332", PartyName := "Office Supplies Pro" },
    { SerialCode := "EF-2025-00119", TotalAmount := 2340.75, CurrencyCode := "RON", InvoiceDate := "2025-01-15", PartyCode1 := "RO6677889", PartyName := "Logistics Express SRL" },
    { SerialCode := "EF-2025-00108", TotalAmount := 560.00, CurrencyCode := "RON", InvoiceDate := "2025-01-12", PartyCode1 := "RO3344556", PartyName := "Cleaning Services Pro" } ]
  let total : Int := items.length
  { Items := items, TotalResults := some total }

end client

namespace spinner

/-- The state of the bubbles spinner (an external library, not part of the
repository): the current animation frame and the identity used to match
ticks with their spinner. -/
structure Model where
  frame : Int
  id : Int
  tag : Int
  deriving DecidableEq, Repr

/-- The tick message of the bubbles spinner. -/
structure TickMsg where
  ID : Int
  tag : Int
  deriving DecidableEq, Repr

/-- Number of frames of the `spinner.Dot` animation. -/
def dotFrames : Int := 8

/-- The spinner built by `spinner.New()` with `Spinner = Dot`: the program
creates a single spinner, which receives the first identifier. -/
def New : Model := { frame := 0, id := 1, tag := 0 }

/-- The library reducer of the spinner on a tick: a tick addressed to another
spinner, or an outdated one, is ignored; otherwise the frame advances
cyclically and the next tick `(id, tag)` is scheduled. -/
def Model.Update (m : Model) (msg : TickMsg) : Model × Option (Int × Int) :=
  if msg.ID > 0 ∧ msg.ID ≠ m.id then (m, none)
  else if msg.tag > 0 ∧ msg.tag ≠ m.tag then (m, none)
  else
    let frame := if m.frame + 1 ≥ dotFrames then 0 else m.frame + 1
    let m1 : Model := { m with frame := frame, tag := m.tag + 1 }
    (m1, some (m1.id, m1.tag))

end spinner

namespace tui

/-- Go `type Tab int`. -/
abbrev Tab := Int

/-- Go `TabDashboard` (iota 0). -/
def TabDashboard : Tab := 0
/-- Go `TabRevenues` (iota 1). -/
def TabRevenues : Tab := 1
/-- Go `TabExpenses` (iota 2). -/
def TabExpenses : Tab := 2
/-- Go `TabEFactura` (iota 3). -/
def TabEFactura : Tab := 3
/-- Go `TabQueue` (iota 4). -/
def TabQueue : Tab := 4

/-- Go `tui.Model`, field for field (the lipgloss style of the spinner is
presentation only and is not carried).  `activeTab` has Go type `Tab`, that
is `int`. -/
structure Model where
  activeTab : Int
  width : Int
  height : Int
  summary : Option client.Summary
  company : Option client.CompanyInfo
  revenues : Option client.RevenueListResponse
  expenses : Option client.ExpenseListResponse
  queue : Option client.QueuedExpenseResponse
  efactura : Option client.EFacturaListResponse
  companyID : String
  loading : Bool
  err : Option GoError
  spinner : spinner.Model
  cursor : Int
  viewportOffset : Int
  viewportSize : Int
  demoMode : Bool
  revenueOffset : Int
  expenseOffset : Int
  queueOffset : Int
  pageSize : Int
  client : Option client.Client
  deriving DecidableEq, Repr

/-- The messages `Update` switches on.  `KeyMsg` carries `msg.String()`;
`other` is any `tea.Msg` of a type that no case of the switch matches. -/
inductive Msg where
  | KeyMsg (key : String)
  | WindowSizeMsg (Width Height : Int)
  | summaryMsg (p : Option client.Summary)
  | companyMsg (p : Option client.CompanyInfo)
  | revenuesMsg (p : Option client.RevenueListResponse)
  | expensesMsg (p : Option client.ExpenseListResponse)
  | queueMsg (p : Option client.QueuedExpenseResponse)
  | efacturaMsg (p : Option client.EFacturaListResponse)
  | errMsg (e : GoError)
  | deleteSuccessMsg
  | spinnerTickMsg (t : spinner.TickMsg)
  | other
  deriving DecidableEq, Repr

/-- The `tea.Cmd` values the program builds.  A method value such as
`m.fetchQueue` holds the copy of `m` taken when it is evaluated; the closure
returned by `deleteSelectedExpense` holds `m` and the identifier `id`. -/
inductive Cmd where
  | Quit
  | spinnerTick (id tag : Int)
  | fetchSummary (m : Model)
  | fetchCompany (m : Model)
  | fetchRevenues (m : Model)
  | fetchExpenses (m : Model)
  | fetchQueue (m : Model)
  | fetchEFactura (m : Model)
  | deleteExpense (m : Model) (id : Int)
  | Batch (cmds : List Cmd)
  deriving Repr

/-- The answers of the remote service to the methods of `client.Client` used
by the TUI, each a Go result pair `(value, error)`. -/
structure Provider where
  GetSummary : Option client.Summary × Option GoError
  GetCompanyInfo : String → Option client.CompanyInfo × Option GoError
  ListRevenues : Int → Int → Option client.RevenueListResponse × Option GoError
  ListExpenses : Int → Int → Option client.ExpenseListResponse × Option GoError
  ListQueuedExpenses : Int → Int → Option client.QueuedExpenseResponse × Option GoError
  ListEFactura : Int → Int → Option client.EFacturaListResponse × Option GoError
  DeleteExpense : Int → Option GoError

/-- A call of a `client.Client` method made while a command runs. -/
inductive Call where
  | GetSummary
  | GetCompanyInfo (companyID : String)
  | ListRevenues (startIndex maxResults : Int)
  | ListExpenses (startIndex maxResults : Int)
  | ListQueuedExpenses (startIndex maxResults : Int)
  | ListEFactura (startIndex maxResults : Int)
  | DeleteExpense (id : Int)
  deriving DecidableEq, Repr

/-- What running a command gives: the client calls made, in order, and the
message posted; `msg = none` when the command panics (a method called on the
`nil` client of demo mode dereferences it). -/
structure TaskResult where
  calls : List Call
  msg : Option Msg
  deriving DecidableEq, Repr

/-- Go `NewModel`. -/
def NewModel (c : Option client.Client) (companyID : String) (pageSize : Int) : Model :=
  let s := spinner.New
  let pageSize := if pageSize ≤ 0 then 100 else pageSize
  { client := c
    activeTab := TabDashboard
    spinner := s
    loading := true
    pageSize := pageSize
    viewportSize := 10
    companyID := companyID
    width := 0, height := 0
    summary := none, company := none, revenues := none
    expenses := none, queue := none, efactura := none
    err := none, cursor := 0, viewportOffset := 0, demoMode := false
    revenueOffset := 0, expenseOffset := 0, queueOffset := 0 }

/-- Go `NewDemoModel`; `year` stands for the `time.Now().Year()` read by
`GetDemoSummary`. -/
def NewDemoModel (year : Int) : Model :=
  let s := spinner.New
  { activeTab := TabDashboard
    spinner := s
    loading := false
    pageSize := 100
    viewportSize := 10
    demoMode := true
    summary := some (client.GetDemoSummary year)
    company := some client.GetDemoCompany
    revenues := some client.GetDemoRevenues
    expenses := some client.GetDemoExpenses
    queue := some client.GetDemoQueue
    efactura := some client.GetDemoEFactura
    client := none, companyID := ""
    width := 0, height := 0
    err := none, cursor := 0, viewportOffset := 0
    revenueOffset := 0, expenseOffset := 0, queueOffset := 0 }

/-- Go `Model.fetchSummary`. -/
def Model.fetchSummary (P : Provider) (m : Model) : TaskResult :=
  match m.client with
  | none => { calls := [Call.GetSummary], msg := none }
  | some _ =>
    match P.GetSummary with
    | (_, some err) => { calls := [Call.GetSummary], msg := some (Msg.errMsg err) }
    | (summary, none) => { calls := [Call.GetSummary], msg := some (Msg.summaryMsg summary) }

/-- Go `Model.fetchCompany`. -/
def Model.fetchCompany (P : Provider) (m : Model) : TaskResult :=
  if m.companyID = "" then { calls := [], msg := some (Msg.companyMsg none) }
  else
    match m.client with
    | none => { calls := [Call.GetCompanyInfo m.companyID], msg := none }
    | some _ =>
      match P.GetCompanyInfo m.companyID with
      | (_, some _) =>
        { calls := [Call.GetCompanyInfo m.companyID], msg := some (Msg.companyMsg none) }
      | (company, none) =>
        { calls := [Call.GetCompanyInfo m.companyID], msg := some (Msg.companyMsg company) }

/-- Go `Model.fetchRevenues`. -/
def Model.fetchRevenues (P : Provider) (m : Model) : TaskResult :=
  let call := Call.ListRevenues m.revenueOffset m.pageSize
  match m.client with
  | none => { calls := [call], msg := none }
  | some _ =>
    match P.ListRevenues m.revenueOffset m.pageSize with
    | (_, some err) => { calls := [call], msg := some (Msg.errMsg err) }
    | (revenues, none) => { calls := [call], msg := some (Msg.revenuesMsg revenues) }

/-- Go `Model.fetchExpenses`. -/
def Model.fetchExpenses (P : Provider) (m : Model) : TaskResult :=
  let call := Call.ListExpenses m.expenseOffset m.pageSize
  match m.client with
  | none => { calls := [call], msg := none }
  | some _ =>
    match P.ListExpenses m.expenseOffset m.pageSize with
    | (_, some err) => { calls := [call], msg := some (Msg.errMsg err) }
    | (expenses, none) => { calls := [call], msg := some (Msg.expensesMsg expenses) }

/-- Go `Model.fetchQueue`. -/
def Model.fetchQueue (P : Provider) (m : Model) : TaskResult :=
  let call := Call.ListQueuedExpenses m.queueOffset m.pageSize
  match m.client with
  | none => { calls := [call], msg := none }
  | some _ =>
    match P.ListQueuedExpenses m.queueOffset m.pageSize with
    | (_, some err) => { calls := [call], msg := some (Msg.errMsg err) }
    | (queue, none) => { calls := [call], msg := some (Msg.queueMsg queue) }

/-- Go `Model.fetchEFactura`. -/
def Model.fetchEFactura (P : Provider) (m : Model) : TaskResult :=
  let call := Call.ListEFactura 0 m.pageSize
  match m.client with
  | none => { calls := [call], msg := none }
  | some _ =>
    match P.ListEFactura 0 m.pageSize with
    | (_, some err) => { calls := [call], msg := some (Msg.errMsg err) }
    | (efactura, none) => { calls := [call], msg := some (Msg.efacturaMsg efactura) }

/-- The closure returned by Go `Model.deleteSelectedExpense`, run with the
model `m` and identifier `id` it captured. -/
def runDelete (P : Provider) (m : Model) (id : Int) : TaskResult :=
  if m.demoMode then { calls := [], msg := some Msg.deleteSuccessMsg }
  else
    match m.client with
    | none => { calls := [Call.DeleteExpense id], msg := none }
    | some _ =>
      match P.DeleteExpense id with
      | some err => { calls := [Call.DeleteExpense id], msg := some (Msg.errMsg err) }
      | none => { calls := [Call.DeleteExpense id], msg := some Msg.deleteSuccessMsg }

/-- Go `Model.deleteSelectedExpense`: `none` is the `nil` command. -/
def Model.deleteSelectedExpense (m : Model) : Option Cmd :=
  if m.activeTab ≠ TabQueue then none
  else
    match m.queue with
    | none => none
    | some q =>
      if q.Items.length = 0 then none
      else
        let idx := m.cursor
        if h : idx < 0 ∨ idx ≥ q.Items.length then none
        else
          let id := (q.Items.get ⟨idx.toNat, by omega⟩).Id
          some (Cmd.deleteExpense m id)

/-- Go `Model.Init`. -/
def Model.Init (m : Model) : Cmd :=
  if m.demoMode then Cmd.spinnerTick m.spinner.id m.spinner.tag
  else
    Cmd.Batch [
      Cmd.spinnerTick m.spinner.id m.spinner.tag,
      Cmd.fetchSummary m,
      Cmd.fetchCompany m,
      Cmd.fetchRevenues m,
      Cmd.fetchExpenses m,
      Cmd.fetchQueue m,
      Cmd.fetchEFactura m ]

/-- Go `Model.checkLoadingDone` (pointer receiver: returns the updated model). -/
def Model.checkLoadingDone (m : Model) : Model :=
  if m.summary ≠ none ∧ m.revenues ≠ none ∧ m.expenses ≠ none ∧ m.queue ≠ none
      ∧ m.efactura ≠ none then
    { m with loading := false }
  else m

/-- Go `Model.getMaxCursor`. -/
def Model.getMaxCursor (m : Model) : Int :=
  if m.activeTab = TabRevenues then
    match m.revenues with
    | some revenues => revenues.Items.length
    | none => 0
  else if m.activeTab = TabExpenses then
    match m.expenses with
    | some expenses => expenses.Items.length
    | none => 0
  else if m.activeTab = TabEFactura then
    match m.efactura with
    | some efactura => efactura.Items.length
    | none => 0
  else if m.activeTab = TabQueue then
    match m.queue with
    | some queue => queue.Items.length
    | none => 0
  else 0

/-- The `tea.KeyMsg` branch of Go `Model.Update`, on the key name `key`. -/
def Model.updateKey (m : Model) (key : String) : Model × Option Cmd :=
  if key = "q" ∨ key = "ctrl+c" then (m, some Cmd.Quit)
  else if key = "tab" ∨ key = "right" ∨ key = "l" then
    ({ m with activeTab := Int.tmod (m.activeTab + 1) 5, cursor := 0, viewportOffset := 0 }, none)
  else if key = "shift+tab" ∨ key = "left" ∨ key = "h" then
    ({ m with activeTab := Int.tmod (m.activeTab - 1 + 5) 5, cursor := 0, viewportOffset := 0 },
      none)
  else if key = "d" ∨ key = "delete" ∨ key = "backspace" then
    if m.activeTab = TabQueue then
      let m := { m with loading := true }
      (m, m.deleteSelectedExpense)
    else (m, none)
  else if key = "up" ∨ key = "k" then
    if m.cursor > 0 then
      let m := { m with cursor := m.cursor - 1 }
      let m := if m.cursor < m.viewportOffset then { m with viewportOffset := m.cursor } else m
      (m, none)
    else (m, none)
  else if key = "down" ∨ key = "j" then
    let maxCursor := m.getMaxCursor
    if m.cursor < maxCursor - 1 then
      let m := { m with cursor := m.cursor + 1 }
      let m :=
        if m.cursor ≥ m.viewportOffset + m.viewportSize then
          { m with viewportOffset := m.cursor - m.viewportSize + 1 }
        else m
      (m, none)
    else (m, none)
  else if key = "r" then
    let m := { m with loading := true }
    (m, some (Cmd.Batch [
      Cmd.fetchSummary m,
      Cmd.fetchCompany m,
      Cmd.fetchRevenues m,
      Cmd.fetchExpenses m,
      Cmd.fetchQueue m,
      Cmd.fetchEFactura m ]))
  else (m, none)

/-- Go `Model.Update`: the new model and the command returned (`none` is the
`nil` command). -/
def Model.Update (m : Model) (msg : Msg) : Model × Option Cmd :=
  match msg with
  | Msg.KeyMsg key => m.updateKey key
  | Msg.WindowSizeMsg w h => ({ m with width := w, height := h }, none)
  | Msg.summaryMsg p => (Model.checkLoadingDone { m with summary := p }, none)
  | Msg.companyMsg p => ({ m with company := p }, none)
  | Msg.revenuesMsg p => (Model.checkLoadingDone { m with revenues := p }, none)
  | Msg.expensesMsg p => (Model.checkLoadingDone { m with expenses := p }, none)
  | Msg.queueMsg p => (Model.checkLoadingDone { m with queue := p }, none)
  | Msg.efacturaMsg p => (Model.checkLoadingDone { m with efactura := p }, none)
  | Msg.errMsg e => ({ m with err := some e, loading := false }, none)
  | Msg.deleteSuccessMsg =>
    let m := { m with loading := true }
    (m, some (Cmd.fetchQueue m))
  | Msg.spinnerTickMsg t =>
    let (s, cmd) := m.spinner.Update t
    ({ m with spinner := s },
      match cmd with
      | some (id, tag) => some (Cmd.spinnerTick id tag)
      | none => none)
  | Msg.other => (m, none)

/-- The model after the events `msgs` have been reduced in order, starting
from `m` (the commands returned on the way are dropped). -/
def run (m : Model) (msgs : List Msg) : Model :=
  msgs.foldl (fun m msg => (m.Update msg).1) m

/-- The viewport invariant: the window has its constant size 10, starts at a
non-negative index and contains the cursor. -/
def ViewportInv (m : Model) : Prop :=
  m.viewportSize = 10 ∧ 0 ≤ m.viewportOffset ∧ m.viewportOffset ≤ m.cursor
    ∧ m.cursor < m.viewportOffset + m.viewportSize

/-- The cursor range property: the cursor indexes an item of the active list
when there is one, and is 0 when `getMaxCursor` is 0. -/
def CursorInRange (m : Model) : Prop :=
  (0 < m.getMaxCursor → 0 ≤ m.cursor ∧ m.cursor < m.getMaxCursor)
    ∧ (m.getMaxCursor = 0 → m.cursor = 0)

/-- The message delivers the list shown on tab `t`. -/
def Msg.replacesListOf (t : Tab) : Msg → Bool
  | Msg.revenuesMsg _ => t == TabRevenues
  | Msg.expensesMsg _ => t == TabExpenses
  | Msg.efacturaMsg _ => t == TabEFactura
  | Msg.queueMsg _ => t == TabQueue
  | _ => false

/-- The message is a successful resource event: a mandatory result with a
non-nil payload, or a company result with any payload. -/
def Msg.isResourceSuccess : Msg → Bool
  | Msg.summaryMsg p => p.isSome
  | Msg.companyMsg _ => true
  | Msg.revenuesMsg p => p.isSome
  | Msg.expensesMsg p => p.isSome
  | Msg.queueMsg p => p.isSome
  | Msg.efacturaMsg p => p.isSome
  | _ => false

/-- All five mandatory slots hold a value. -/
def Model.mandatoryLoaded (m : Model) : Prop :=
  m.summary ≠ none ∧ m.revenues ≠ none ∧ m.expenses ≠ none ∧ m.queue ≠ none
    ∧ m.efactura ≠ none

instance Model.decidableMandatoryLoaded (m : Model) : Decidable m.mandatoryLoaded := by
  unfold Model.mandatoryLoaded
  infer_instance

/-- The key names of the cursor-up and cursor-down events. -/
def cursorKeys : List String := ["up", "k", "down", "j"]

/-- The key names of the next-tab event. -/
def nextTabKeys : List String := ["tab", "right", "l"]

/-- The key names of the prev-tab event. -/
def prevTabKeys : List String := ["shift+tab", "left", "h"]

/-- A client handle used in examples. -/
def sampleClient : client.Client := { userAgent := "solo-cli" }

/-- The demo queue after its third document has been deleted. -/
def shorterQueue : client.QueuedExpenseResponse :=
  { Items := client.GetDemoQueue.Items.take 2, TotalResults := some 2 }

/-- A session in which the last queue item is selected and deleted, and the
refetched queue comes back one item shorter. -/
def deleteLastTrace : List Msg :=
  [ Msg.queueMsg (some client.GetDemoQueue),
    Msg.KeyMsg "shift+tab",
    Msg.KeyMsg "down",
    Msg.KeyMsg "down",
    Msg.KeyMsg "d",
    Msg.deleteSuccessMsg,
    Msg.queueMsg (some shorterQueue) ]

/-- A provider whose every call fails. -/
def failingProvider : Provider :=
  { GetSummary := (none, some { text := "failed to get summary: status 500" })
    GetCompanyInfo := fun _ => (none, some { text := "failed to get company info: status 500" })
    ListRevenues := fun _ _ => (none, some { text := "failed to list revenues: status 500" })
    ListExpenses := fun _ _ => (none, some { text := "failed to list expenses: status 500" })
    ListQueuedExpenses := fun _ _ =>
      (none, some { text := "failed to list queued expenses: status 500" })
    ListEFactura := fun _ _ => (none, some { text := "failed to list e-invoices: status 500" })
    DeleteExpense := fun _ => some { text := "failed to delete expense: status 500" } }

/-- The six success events of a session start carrying the demo payloads,
with the summary arriving last. -/
def summaryLastTrace : List Msg :=
  [ Msg.queueMsg (some client.GetDemoQueue),
    Msg.companyMsg (some client.GetDemoCompany),
    Msg.efacturaMsg (some client.GetDemoEFactura),
    Msg.expensesMsg (some client.GetDemoExpenses),
    Msg.revenuesMsg (some client.GetDemoRevenues),
    Msg.summaryMsg (some (client.GetDemoSummary 2025)) ]

end tui

namespace tui

/-- The bytes of a Go string: Go indexes, slices and measures strings by
byte. -/
def goBytes (s : String) : List UInt8 := s.toUTF8.data.toList

/-- The lipgloss styles of `styles.go` (and `InfoStyle()` of `app.go`) that
the view applies; how a style paints text is left to the library. -/
inductive Style where
  | TitleStyle
  | ActiveTabStyle
  | InactiveTabStyle
  | SummaryBoxStyle
  | SummaryLabelStyle
  | TableHeaderStyle
  | TableRowStyle
  | TableSelectedStyle
  | HelpStyle
  | ErrorStyle
  | LoadingStyle
  | InfoStyle
  deriving DecidableEq, Repr

/-- The text a render function produces, kept as the tree of library calls
that builds it: string literals and fields, operands of `fmt.Sprintf`,
`Style.Render`, `lipgloss.JoinHorizontal`, the spinner frame and string
concatenation (`+` and `strings.Builder`, in writing order). -/
inductive Text where
  | str (s : String)
  | bytes (b : List UInt8)
  | int (n : Int)
  | float (x : Rat)
  | err (e : GoError)
  | Sprintf (format : String) (args : List Text)
  | Render (style : Style) (t : Text)
  | JoinHorizontal (parts : List Text)
  | spinnerView (s : spinner.Model)
  | Concat (parts : List Text)
  deriving Repr

/-- Go `Tab.String`. -/
def Tab.String (t : Tab) : String :=
  if t = TabDashboard then "Dashboard"
  else if t = TabRevenues then "Revenues"
  else if t = TabExpenses then "Expenses"
  else if t = TabEFactura then "e-Factura"
  else if t = TabQueue then "Queue"
  else "Unknown"

/-- Go slice indexing `xs[i]`: `none` is the index-out-of-range panic. -/
def indexAt {α : Type} (xs : List α) (i : Int) : Option α :=
  if i < 0 then none else xs[i.toNat]?

/-- Go `for i := lo; i < hi; i++`, each iteration writing some pieces; a
panic in an iteration ends the loop with `none`. -/
def forRange (lo hi : Int) (body : Int → Option (List Text)) : Option (List Text) :=
  ((List.range (hi - lo).toNat).mapM (fun (k : Nat) => body (lo + (k : Int)))).map List.flatten

/-- Go `strings.Contains` on the bytes of the two strings. -/
def stringsContains (s substr : String) : Bool :=
  decide (goBytes substr <:+: goBytes s)

/-- Go `truncate`: `none` is the slice-bounds panic of `s[:max-3]`. -/
def truncate (s : List UInt8) (max : Int) : Option (List UInt8) :=
  if (s.length : Int) ≤ max then some s
  else if max - 3 < 0 ∨ max - 3 > (s.length : Int) then none
  else some (s.take (max - 3).toNat ++ goBytes "...")

/-- Go `Model.renderTabs`. -/
def Model.renderTabs (m : Model) : Text :=
  let tabs : List Tab := [TabDashboard, TabRevenues, TabExpenses, TabEFactura, TabQueue]
  let parts := tabs.map (fun tab =>
    if tab = m.activeTab then Text.Render Style.ActiveTabStyle (Text.str (Tab.String tab))
    else Text.Render Style.InactiveTabStyle (Text.str (Tab.String tab)))
  Text.JoinHorizontal parts

/-- Go `Model.renderDashboard`. -/
def Model.renderDashboard (m : Model) : Text :=
  match m.summary with
  | none => Text.Render Style.LoadingStyle (Text.str "Loading summary...")
  | some summary =>
    let companyHeader : List Text :=
      match m.company with
      | some company =>
        [ Text.Render Style.TitleStyle (Text.str company.Name),
          Text.str "\n",
          Text.Render Style.SummaryLabelStyle
            (Text.Sprintf "CUI: %s • Reg: %s" [Text.str company.Code1, Text.str company.Code2]),
          Text.str "\n\n" ]
      | none =>
        if m.companyID = "" then
          [ Text.Render Style.ErrorStyle
              (Text.str "‼️  company_id not configured in ~/.config/solo-cli/config.json"),
            Text.str "\n",
            Text.Render Style.SummaryLabelStyle
              (Text.str "Visit https://falcon.solo.ro/settings#!/company and check Network tab for company_ID"),
            Text.str "\n\n" ]
        else
          [ Text.Render Style.ErrorStyle
              (Text.str "‼️  Could not load company info (invalid company_id?)"),
            Text.str "\n\n" ]
    let summaryContent : Text :=
      Text.Sprintf "%s %d\n%s %.2f %s\n%s %.2f %s"
        [ Text.Render Style.SummaryLabelStyle (Text.str "Year:"),
          Text.int summary.Year,
          Text.Render Style.SummaryLabelStyle (Text.str "Total Revenues:"),
          Text.float summary.TotalRevenues,
          Text.str summary.DisplayCurrency,
          Text.Render Style.SummaryLabelStyle (Text.str "Total Expenses:"),
          Text.float summary.TotalDeductibleExpenses,
          Text.str summary.DisplayCurrency ]
    let summaryContent : Text :=
      if summary.HasTaxes then
        Text.Concat [ summaryContent,
          Text.Sprintf "\n%s %.2f %s"
            [ Text.Render Style.SummaryLabelStyle (Text.str "Taxes:"),
              Text.float summary.Taxes,
              Text.str summary.DisplayCurrency ] ]
      else summaryContent
    let pending : List Text :=
      match m.queue with
      | some queue =>
        if queue.Items.length > 0 then
          [ Text.str "\n\n",
            Text.Render Style.InfoStyle
              (Text.Sprintf "ℹ️  %d documents pending review" [Text.int queue.Items.length]) ]
        else []
      | none => []
    Text.Concat (companyHeader ++ [Text.Render Style.SummaryBoxStyle summaryContent] ++ pending)

/-- The pieces every list view starts with: the scroll position indicator
and the table header. -/
def listHeader (m : Model) (total : Int) (header : Text) : List Text :=
  [ Text.Render Style.SummaryLabelStyle
      (Text.Sprintf "Showing %d-%d of %d"
        [ Text.int (m.viewportOffset + 1),
          Text.int (min (m.viewportOffset + m.viewportSize) total),
          Text.int total ]),
    Text.str "\n\n",
    Text.Render Style.TableHeaderStyle header,
    Text.str "\n" ]

/-- The two pieces written for the row of index `i`: the row in the selected
style when `i == m.cursor`, in the plain row style otherwise, and a newline. -/
def writeRow (m : Model) (i : Int) (row : Text) : List Text :=
  [ if i = m.cursor then Text.Render Style.TableSelectedStyle row
    else Text.Render Style.TableRowStyle row,
    Text.str "\n" ]

/-- The loop body of Go `Model.renderRevenues` at index `i`. -/
def Model.revenueRow (m : Model) (items : List client.Revenue) (i : Int) :
    Option (List Text) := do
  let r ← indexAt items i
  let paid := if ¬ r.IsPaid then "❌" else "✅"
  let clientName : List UInt8 :=
    if (goBytes r.ClientName).length > 30 then (goBytes r.ClientName).take 27 ++ goBytes "..."
    else goBytes r.ClientName
  let serial ← truncate (goBytes r.SerialCode) 18
  let row := Text.Sprintf "%-4s %-18s %12.2f %-5s %s"
    [ Text.str paid, Text.bytes serial, Text.float r.Total, Text.str r.Currency.ShortName,
      Text.bytes clientName ]
  some (writeRow m i row)

/-- Go `Model.renderRevenues`: `none` when the loop panics. -/
def Model.renderRevenues (m : Model) : Option Text :=
  match m.revenues with
  | none => some (Text.str "No revenues found")
  | some revenues =>
    if revenues.Items.length = 0 then some (Text.str "No revenues found")
    else
      let total : Int := revenues.Items.length
      let head := listHeader m total
        (Text.Sprintf "%-4s %-18s %12s %-5s %s"
          [Text.str "Paid", Text.str "Invoice", Text.str "Amount", Text.str "Curr",
            Text.str "Client"])
      let endIdx := min (m.viewportOffset + m.viewportSize) total
      (forRange m.viewportOffset endIdx (m.revenueRow revenues.Items)).map
        (fun rows => Text.Concat (head ++ rows))

/-- The loop body of Go `Model.renderExpenses` at index `i`. -/
def Model.expenseRow (m : Model) (items : List client.Expense) (i : Int) :
    Option (List Text) := do
  let e ← indexAt items i
  let deductIcon := if stringsContains e.Category "Nedeductibilă" then "❌" else "✅"
  let category ← truncate (goBytes e.Category) 25
  let supplier ← truncate (goBytes e.SupplierName) 25
  let row := Text.Sprintf "%-3s %12.2f %-5s %-25s %s"
    [ Text.str deductIcon, Text.float e.Total, Text.str e.Currency.ShortName,
      Text.bytes category, Text.bytes supplier ]
  some (writeRow m i row)

/-- Go `Model.renderExpenses`: `none` when the loop panics. -/
def Model.renderExpenses (m : Model) : Option Text :=
  match m.expenses with
  | none => some (Text.str "No expenses found")
  | some expenses =>
    if expenses.Items.length = 0 then some (Text.str "No expenses found")
    else
      let total : Int := expenses.Items.length
      let head := listHeader m total
        (Text.Sprintf "%-3s %12s %-5s %-25s %s"
          [Text.str "Ded", Text.str "Amount", Text.str "Curr", Text.str "Category",
            Text.str "Supplier"])
      let endIdx := min (m.viewportOffset + m.viewportSize) total
      (forRange m.viewportOffset endIdx (m.expenseRow expenses.Items)).map
        (fun rows => Text.Concat (head ++ rows))

/-- The loop body of Go `Model.renderQueue` at index `i`. -/
def Model.queueRow (m : Model) (items : List client.QueuedExpense) (i : Int) :
    Option (List Text) := do
  let q ← indexAt items i
  let status := if q.IsOverdue then "OVERDUE" else "Pending"
  let name ← truncate (goBytes q.DocumentName) 30
  let row := Text.Sprintf "%-30s %8d %s"
    [ Text.bytes name, Text.int q.DaysPassed, Text.str status ]
  some (writeRow m i row)

/-- Go `Model.renderQueue`: `none` when the loop panics. -/
def Model.renderQueue (m : Model) : Option Text :=
  match m.queue with
  | none => some (Text.str "No documents in queue")
  | some queue =>
    if queue.Items.length = 0 then some (Text.str "No documents in queue")
    else
      let total : Int := queue.Items.length
      let head := listHeader m total
        (Text.Sprintf "%-30s %8s %s" [Text.str "Document", Text.str "Days", Text.str "Status"])
      let endIdx := min (m.viewportOffset + m.viewportSize) total
      (forRange m.viewportOffset endIdx (m.queueRow queue.Items)).map
        (fun rows => Text.Concat (head ++ rows))

/-- The loop body of Go `Model.renderEFactura` at index `i`. -/
def Model.efacturaRow (m : Model) (items : List client.EFactura) (i : Int) :
    Option (List Text) := do
  let e ← indexAt items i
  let serial ← truncate (goBytes e.SerialCode) 20
  let party ← truncate (goBytes e.PartyName) 25
  let row := Text.Sprintf "%-20s %12.2f %-5s %-12s %s"
    [ Text.bytes serial, Text.float e.TotalAmount, Text.str e.CurrencyCode,
      Text.str e.InvoiceDate, Text.bytes party ]
  some (writeRow m i row)

/-- Go `Model.renderEFactura`: `none` when the loop panics. -/
def Model.renderEFactura (m : Model) : Option Text :=
  match m.efactura with
  | none => some (Text.str "No e-Factura documents found")
  | some efactura =>
    if efactura.Items.length = 0 then some (Text.str "No e-Factura documents found")
    else
      let total : Int := efactura.Items.length
      let head := listHeader m total
        (Text.Sprintf "%-20s %12s %-5s %-12s %s"
          [Text.str "Serial", Text.str "Amount", Text.str "Curr", Text.str "Date",
            Text.str "Party"])
      let endIdx := min (m.viewportOffset + m.viewportSize) total
      (forRange m.viewportOffset endIdx (m.efacturaRow efactura.Items)).map
        (fun rows => Text.Concat (head ++ rows))

/-- The error screen of Go `Model.View` for the recorded error `e`. -/
def errorScreen (e : GoError) : Text :=
  Text.Render Style.ErrorStyle (Text.Sprintf "Error: %v\n\nPress q to quit" [Text.err e])

/-- Go `Model.View`: `none` when a render function panics. -/
def Model.View (m : Model) : Option Text :=
  match m.err with
  | some e => some (errorScreen e)
  | none => do
    let top : List Text :=
      [ Text.Render Style.TitleStyle (Text.str "SOLO.ro CLI"),
        Text.str "\n\n",
        m.renderTabs,
        Text.str "\n\n" ]
    let content : List Text ←
      if m.loading then
        some [ Text.spinnerView m.spinner,
          Text.Render Style.LoadingStyle (Text.str " Loading..."),
          Text.str "\n" ]
      else if m.activeTab = TabDashboard then some [m.renderDashboard]
      else if m.activeTab = TabRevenues then m.renderRevenues.map (fun t => [t])
      else if m.activeTab = TabExpenses then m.renderExpenses.map (fun t => [t])
      else if m.activeTab = TabQueue then m.renderQueue.map (fun t => [t])
      else if m.activeTab = TabEFactura then m.renderEFactura.map (fun t => [t])
      else some []
    let helpText :=
      if m.activeTab = TabQueue then "←/→ tabs • ↑/↓ navigate • d delete • r refresh • q quit"
      else "←/→ tabs • ↑/↓ navigate • r refresh • q quit"
    some (Text.Concat (top ++ content
      ++ [Text.str "\n", Text.str "\n", Text.Render Style.HelpStyle (Text.str helpText)]))

mutual
/-- The results of running a command: one per task it launches, a batch
launching the tasks of all its members.  `tea.Quit` posts the quit message,
which the runtime consumes. -/
def Cmd.exec (P : Provider) : Cmd → List TaskResult
  | Cmd.Quit => [{ calls := [], msg := some Msg.other }]
  | Cmd.spinnerTick id tag =>
    [{ calls := [], msg := some (Msg.spinnerTickMsg { ID := id, tag := tag }) }]
  | Cmd.fetchSummary m => [m.fetchSummary P]
  | Cmd.fetchCompany m => [m.fetchCompany P]
  | Cmd.fetchRevenues m => [m.fetchRevenues P]
  | Cmd.fetchExpenses m => [m.fetchExpenses P]
  | Cmd.fetchQueue m => [m.fetchQueue P]
  | Cmd.fetchEFactura m => [m.fetchEFactura P]
  | Cmd.deleteExpense m id => [runDelete P m id]
  | Cmd.Batch cmds => Cmd.execAll P cmds
/-- The results of running the commands of a list, in order. -/
def Cmd.execAll (P : Provider) : List Cmd → List TaskResult
  | [] => []
  | c :: cs => Cmd.exec P c ++ Cmd.execAll P cs
end

/-- The client calls made by running a command. -/
def Cmd.calls (P : Provider) (c : Cmd) : List Call :=
  ((c.exec P).map TaskResult.calls).flatten

/-- The client calls made by running an optional command (`none`: nil). -/
def cmdCalls (P : Provider) : Option Cmd → List Call
  | none => []
  | some c => c.calls P

/-- The message leaves a mandatory slot non-nil: it is not a mandatory
resource event with a nil payload. -/
def Msg.keepsMandatory : Msg → Bool
  | Msg.summaryMsg p => p.isSome
  | Msg.revenuesMsg p => p.isSome
  | Msg.expensesMsg p => p.isSome
  | Msg.queueMsg p => p.isSome
  | Msg.efacturaMsg p => p.isSome
  | _ => true

/-- The key names of the delete event. -/
def deleteKeys : List String := ["d", "delete", "backspace"]

/-- A provider that answers every call successfully with the demo data. -/
def demoProvider : Provider :=
  { GetSummary := (some (client.GetDemoSummary 2025), none)
    GetCompanyInfo := fun _ => (some client.GetDemoCompany, none)
    ListRevenues := fun _ _ => (some client.GetDemoRevenues, none)
    ListExpenses := fun _ _ => (some client.GetDemoExpenses, none)
    ListQueuedExpenses := fun _ _ => (some client.GetDemoQueue, none)
    ListEFactura := fun _ _ => (some client.GetDemoEFactura, none)
    DeleteExpense := fun _ => none }

end tui

namespace client

/-- Go `client.SavedCookie`.  A `time.Time` is the instant counted from the
zero time, so `IsZero` is `= 0` and `Before` is `<`. -/
structure SavedCookie where
  Name : String
  Value : String
  Domain : String
  Path : String
  Expires : Int
  deriving DecidableEq, Repr

/-- The fields of `http.Cookie` that `LoadCookies` sets. -/
structure HttpCookie where
  Name : String
  Value : String
  Domain : String
  Path : String
  Expires : Int
  deriving DecidableEq, Repr

/-- What `LoadCookies` finds on disk: no cookie path (no home directory),
no file, an unreadable file, a file that is not a JSON cookie list, or the
decoded list. -/
inductive CookieFile where
  | noPath (err : GoError)
  | notExist
  | unreadable (err : GoError)
  | invalidJSON
  | saved (savedCookies : List SavedCookie)
  deriving DecidableEq, Repr

/-- The outcome of `LoadCookies`: the two results and the cookie list passed
to `Jar.SetCookies`, `none` when the jar is not touched. -/
structure LoadCookiesResult where
  ok : Bool
  err : Option GoError
  setCookies : Option (List HttpCookie)
  deriving DecidableEq, Repr

/-- The saved cookie has not expired at `now`: its expiry is the zero time or
is not before `now`. -/
def SavedCookie.notExpired (now : Int) (sc : SavedCookie) : Bool :=
  decide (sc.Expires = 0 ∨ ¬ sc.Expires < now)

/-- The `http.Cookie` carrying the five fields of a saved cookie. -/
def SavedCookie.toHttp (sc : SavedCookie) : HttpCookie :=
  { Name := sc.Name, Value := sc.Value, Domain := sc.Domain, Path := sc.Path,
    Expires := sc.Expires }

/-- One iteration of the loop of Go `LoadCookies` over the saved cookies. -/
def loadCookieStep (now : Int) (acc : List HttpCookie × Bool) (sc : SavedCookie) :
    List HttpCookie × Bool :=
  if sc.Expires ≠ 0 ∧ sc.Expires < now then acc
  else
    let cookie : HttpCookie :=
      { Name := sc.Name, Value := sc.Value, Domain := sc.Domain, Path := sc.Path,
        Expires := sc.Expires }
    (acc.1 ++ [cookie], if sc.Name = "solo_auth" then true else acc.2)

/-- Go `Client.LoadCookies`, on the state of the cookie file and the current
time `now`. -/
def LoadCookies (file : CookieFile) (now : Int) : LoadCookiesResult :=
  match file with
  | CookieFile.noPath err => { ok := false, err := some err, setCookies := none }
  | CookieFile.notExist => { ok := false, err := none, setCookies := none }
  | CookieFile.unreadable err => { ok := false, err := some err, setCookies := none }
  | CookieFile.invalidJSON => { ok := false, err := none, setCookies := none }
  | CookieFile.saved savedCookies =>
    if savedCookies.length = 0 then { ok := false, err := none, setCookies := none }
    else
      let (validCookies, hasValidAuthCookie) :=
        savedCookies.foldl (loadCookieStep now) ([], false)
      if ¬ hasValidAuthCookie then { ok := false, err := none, setCookies := none }
      else { ok := true, err := none, setCookies := some validCookies }

end client

namespace main

/-- The outcome of the global flag loop of Go `main`: the process exits with
a status after writing to standard error, or goes on to command dispatch
with the config path given to `config.SetConfigPath` (if any) and the
remaining arguments. -/
inductive FlagResult where
  | exit (status : Int) (stderr : String)
  | dispatch (configPath : Option String) (args : List String)
  deriving DecidableEq, Repr

/-- The global flag loop of Go `main`, from index `i`. -/
def scanConfigFlag (args : List String) (i : Nat) : FlagResult :=
  if h : i < args.length then
    if args[i] = "--config" ∨ args[i] = "-c" then
      if h2 : i + 1 < args.length then
        FlagResult.dispatch (some args[i + 1]) (args.take i ++ args.drop (i + 2))
      else FlagResult.exit 1 "Error: --config requires a path argument\n"
    else scanConfigFlag args (i + 1)
  else FlagResult.dispatch none args
termination_by args.length - i

/-- The argument is one of the two spellings of the config flag. -/
def isConfigFlag (a : String) : Prop := a = "--config" ∨ a = "-c"

end main

namespace tui

/-- The key names of the cursor-up event. -/
def upKeys : List String := ["up", "k"]

/-- The key names of the cursor-down event. -/
def downKeys : List String := ["down", "j"]

/-- The values taken by `i` in the loop
`for i := m.viewportOffset; i < endIdx; i++` of the list render functions,
in order, for a list of `total` items. -/
def loopIndices (m : Model) (total : Int) : List Int :=
  (List.range (min (m.viewportOffset + m.viewportSize) total - m.viewportOffset).toNat).map
    (fun (k : Nat) => m.viewportOffset + (k : Int))

/-- A queue answer without documents. -/
def emptyQueue : client.QueuedExpenseResponse := { Items := [], TotalResults := some 0 }

/-- A session start whose queue comes back empty, followed by the prev-tab
key that opens the Queue tab. -/
def emptyQueueTrace : List Msg :=
  [ Msg.summaryMsg (some (client.GetDemoSummary 2025)),
    Msg.companyMsg (some client.GetDemoCompany),
    Msg.revenuesMsg (some client.GetDemoRevenues),
    Msg.expensesMsg (some client.GetDemoExpenses),
    Msg.queueMsg (some emptyQueue),
    Msg.efacturaMsg (some client.GetDemoEFactura),
    Msg.KeyMsg "shift+tab" ]

/-- The text Go `Model.View` returns for a state without error whose
`loading` is true: title, tab bar, spinner with `Loading...`, help line. -/
def loadingScreen (m : Model) : Text :=
  Text.Concat
    [ Text.Render Style.TitleStyle (Text.str "SOLO.ro CLI"),
      Text.str "\n\n",
      m.renderTabs,
      Text.str "\n\n",
      Text.spinnerView m.spinner,
      Text.Render Style.LoadingStyle (Text.str " Loading..."),
      Text.str "\n",
      Text.str "\n", Text.str "\n",
      Text.Render Style.HelpStyle
        (Text.str (if m.activeTab = TabQueue then
          "←/→ tabs • ↑/↓ navigate • d delete • r refresh • q quit"
        else "←/→ tabs • ↑/↓ navigate • r refresh • q quit")) ]

/-- A state with a viewport of three rows whose cursor is on the last
visible row of the demo revenues. -/
def smallViewport : Model :=
  { NewDemoModel 2025 with activeTab := TabRevenues, cursor := 2, viewportSize := 3 }

/-- The pieces written for a row start with the row drawn in the selected
style. -/
def rowSelected : List Text → Bool
  | Text.Render Style.TableSelectedStyle _ :: _ => true
  | _ => false

end tui

namespace main

/-- What Go `main` does with the arguments left after the global flags: the
function of package `main` it calls.  `unknownCommand cmd` is the default
branch of the switch: it writes `Unknown command: cmd` to standard error,
prints the help and exits with status 1. -/
inductive Action where
  | runTUI
  | printHelp
  | printVersion
  | runSummary (cmdArgs : List String)
  | runRevenues
  | runExpenses
  | runQueue (cmdArgs : List String)
  | runEFactura
  | runCompany
  | runUpload (cmdArgs : List String)
  | runDemoTUI
  | runSetupSkills
  | unknownCommand (cmd : String)
  deriving DecidableEq, Repr

/-- The command dispatch of Go `main` (the `len(args) < 1` test and the
`switch cmd`). -/
def commandSwitch (args : List String) : Action :=
  match args with
  | [] => Action.runTUI
  | cmd :: cmdArgs =>
    if cmd = "help" ∨ cmd = "--help" ∨ cmd = "-h" then Action.printHelp
    else if cmd = "version" ∨ cmd = "--version" ∨ cmd = "-v" then Action.printVersion
    else if cmd = "summary" then Action.runSummary cmdArgs
    else if cmd = "revenues" ∨ cmd = "revenue" ∨ cmd = "rev" then Action.runRevenues
    else if cmd = "expenses" ∨ cmd = "expense" ∨ cmd = "exp" then Action.runExpenses
    else if cmd = "queue" ∨ cmd = "q" then Action.runQueue cmdArgs
    else if cmd = "efactura" ∨ cmd = "einvoice" ∨ cmd = "ei" then Action.runEFactura
    else if cmd = "company" then Action.runCompany
    else if cmd = "upload" ∨ cmd = "up" then Action.runUpload cmdArgs
    else if cmd = "tui" then Action.runTUI
    else if cmd = "demo" then Action.runDemoTUI
    else Action.unknownCommand cmd

/-- The status with which the command switch itself ends the process. -/
def Action.exitStatus : Action → Option Int
  | Action.unknownCommand _ => some 1
  | _ => none

/-- Go `main` on the arguments `os.Args[1:]`: the early exit of the flag
loop, or the action chosen by the command switch. -/
def mainAction (args : List String) : Except (Int × String) Action :=
  match scanConfigFlag args 0 with
  | FlagResult.exit status stderr => Except.error (status, stderr)
  | FlagResult.dispatch _ rest => Except.ok (commandSwitch rest)

end main

/-! ## Theorems -/

namespace tui

/-! ### Shared lemmas on the reducer -/

theorem checkLoadingDone_eq (m : Model) :
    m.checkLoadingDone = m ∨ m.checkLoadingDone = { m with loading := false } := by
  unfold Model.checkLoadingDone
  split_ifs
  · exact Or.inr rfl
  · exact Or.inl rfl

@[simp]
theorem checkLoadingDone_cursor (m : Model) : m.checkLoadingDone.cursor = m.cursor := by
  rcases checkLoadingDone_eq m with h | h <;> rw [h]

@[simp]
theorem checkLoadingDone_viewportOffset (m : Model) :
    m.checkLoadingDone.viewportOffset = m.viewportOffset := by
  rcases checkLoadingDone_eq m with h | h <;> rw [h]

@[simp]
theorem checkLoadingDone_viewportSize (m : Model) :
    m.checkLoadingDone.viewportSize = m.viewportSize := by
  rcases checkLoadingDone_eq m with h | h <;> rw [h]

@[simp]
theorem checkLoadingDone_activeTab (m : Model) :
    m.checkLoadingDone.activeTab = m.activeTab := by
  rcases checkLoadingDone_eq m with h | h <;> rw [h]

@[simp]
theorem checkLoadingDone_getMaxCursor (m : Model) :
    m.checkLoadingDone.getMaxCursor = m.getMaxCursor := by
  rcases checkLoadingDone_eq m with h | h
  · rw [h]
  · rw [h]; rfl

theorem run_nil (m : Model) : run m [] = m := rfl

theorem run_cons (m : Model) (e : Msg) (l : List Msg) :
    run m (e :: l) = run (m.Update e).1 l := rfl

theorem run_append (m : Model) (l₁ l₂ : List Msg) :
    run m (l₁ ++ l₂) = run (run m l₁) l₂ := by
  simp [run, List.foldl_append]

/-- A property kept by every reduction holds after any finite run. -/
theorem run_induction (P : Model → Prop) (step : ∀ m msg, P m → P (m.Update msg).1)
    (msgs : List Msg) : ∀ m, P m → P (run m msgs) := by
  induction msgs with
  | nil => intro m h; exact h
  | cons e l ih => intro m h; exact ih _ (step m e h)

theorem getMaxCursor_nonneg (m : Model) : 0 ≤ m.getMaxCursor := by
  unfold Model.getMaxCursor
  split_ifs <;> (try split) <;> omega

theorem ViewportInv_updateKey (m : Model) (key : String) (h : ViewportInv m) :
    ViewportInv (m.updateKey key).1 := by
  obtain ⟨h1, h2, h3, h4⟩ := h
  unfold Model.updateKey
  dsimp only
  split_ifs <;> simp only [ViewportInv, h1] <;> refine ⟨trivial, ?_, ?_, ?_⟩ <;> omega

theorem ViewportInv_Update (m : Model) (msg : Msg) (h : ViewportInv m) :
    ViewportInv (m.Update msg).1 := by
  cases msg with
  | KeyMsg key => exact ViewportInv_updateKey m key h
  | _ => first | exact h | (simp only [Model.Update, ViewportInv] at *; simpa using h)

theorem ViewportInv_NewModel (c : Option client.Client) (companyID : String) (pageSize : Int) :
    ViewportInv (NewModel c companyID pageSize) := by
  simp [ViewportInv, NewModel]

theorem ViewportInv_NewDemoModel (year : Int) : ViewportInv (NewDemoModel year) := by
  simp [ViewportInv, NewDemoModel]

/-! ### C1 -/

/-- C1: in every state reached from `NewModel` or `NewDemoModel` by a finite
sequence of `Update` events of any kind, `viewportOffset ≥ 0` and
`viewportOffset ≤ cursor < viewportOffset + viewportSize`, with
`viewportSize = 10`. -/
theorem C1_viewport_invariant (c : Option client.Client) (companyID : String)
    (pageSize year : Int) (msgs : List Msg) :
    (0 ≤ (run (NewModel c companyID pageSize) msgs).viewportOffset
      ∧ (run (NewModel c companyID pageSize) msgs).viewportOffset
          ≤ (run (NewModel c companyID pageSize) msgs).cursor
      ∧ (run (NewModel c companyID pageSize) msgs).cursor
          < (run (NewModel c companyID pageSize) msgs).viewportOffset
            + (run (NewModel c companyID pageSize) msgs).viewportSize
      ∧ (run (NewModel c companyID pageSize) msgs).viewportSize = 10)
    ∧ (0 ≤ (run (NewDemoModel year) msgs).viewportOffset
      ∧ (run (NewDemoModel year) msgs).viewportOffset ≤ (run (NewDemoModel year) msgs).cursor
      ∧ (run (NewDemoModel year) msgs).cursor
          < (run (NewDemoModel year) msgs).viewportOffset
            + (run (NewDemoModel year) msgs).viewportSize
      ∧ (run (NewDemoModel year) msgs).viewportSize = 10) := by
  have h1 := run_induction ViewportInv ViewportInv_Update msgs _
    (ViewportInv_NewModel c companyID pageSize)
  have h2 := run_induction ViewportInv ViewportInv_Update msgs _ (ViewportInv_NewDemoModel year)
  exact ⟨⟨h1.2.1, h1.2.2.1, h1.2.2.2, h1.1⟩, ⟨h2.2.1, h2.2.2.1, h2.2.2.2, h2.1⟩⟩

end tui

namespace tui

/-! ### C2 -/

theorem updateKey_cursor_nonneg (m : Model) (key : String) (h : 0 ≤ m.cursor) :
    0 ≤ (m.updateKey key).1.cursor := by
  unfold Model.updateKey
  dsimp only
  split_ifs <;> simp only <;> omega

theorem CursorInRange_updateKey (m : Model) (key : String) (h : CursorInRange m) :
    CursorInRange (m.updateKey key).1 := by
  have hn := getMaxCursor_nonneg
  obtain ⟨h1, h2⟩ := h
  unfold Model.updateKey
  dsimp only
  split_ifs
  all_goals first
    | exact ⟨h1, h2⟩
    | (refine ⟨fun h => ⟨le_refl _, h⟩, fun _ => rfl⟩)
    | (constructor
       · intro h0
         change 0 < m.getMaxCursor at h0
         change 0 ≤ _ ∧ _ < m.getMaxCursor
         simp only
         omega
       · intro h0
         change m.getMaxCursor = 0 at h0
         simp only
         omega)

/-- C2 (counterexample): after the last queue item is selected and deleted and
the refetched queue arrives one item shorter, the cursor is 2 while
`getMaxCursor` is 2, so the cursor is not below `getMaxCursor`. -/
theorem C2_counterexample :
    (run (NewModel (some sampleClient) "" 100) deleteLastTrace).cursor = 2
      ∧ (run (NewModel (some sampleClient) "" 100) deleteLastTrace).getMaxCursor = 2
      ∧ ¬ CursorInRange (run (NewModel (some sampleClient) "" 100) deleteLastTrace) := by
  have h1 : (run (NewModel (some sampleClient) "" 100) deleteLastTrace).cursor = 2 := by decide
  have h2 : (run (NewModel (some sampleClient) "" 100) deleteLastTrace).getMaxCursor = 2 := by
    decide
  refine ⟨h1, h2, ?_⟩
  intro h
  have := h.1 (by rw [h2]; decide)
  rw [h1, h2] at this
  omega

end tui

namespace tui

theorem CursorInRange_congr (m n : Model) (hc : n.cursor = m.cursor)
    (hm : n.getMaxCursor = m.getMaxCursor) (h : CursorInRange m) : CursorInRange n := by
  unfold CursorInRange at *
  rw [hc, hm]
  exact h

theorem CursorInRange_or (m n : Model) (hc : n.cursor = m.cursor) (h : CursorInRange m) :
    CursorInRange n ∨ (0 < m.cursor ∧ n.getMaxCursor ≤ m.cursor) := by
  have h0 := getMaxCursor_nonneg m
  have h1 := getMaxCursor_nonneg n
  obtain ⟨ha, hb⟩ := h
  by_cases hlt : m.cursor < n.getMaxCursor
  · left
    refine ⟨fun _ => ?_, fun hz => ?_⟩
    · rw [hc]
      refine ⟨?_, hlt⟩
      rcases lt_or_ge 0 m.getMaxCursor with hp | hp
      · exact (ha hp).1
      · have := hb (by omega); omega
    · omega
  · by_cases hz : m.cursor = 0 ∧ n.getMaxCursor = 0
    · left
      refine ⟨fun hp => by omega, fun _ => by rw [hc]; exact hz.1⟩
    · right
      rcases lt_or_ge 0 m.getMaxCursor with hp | hp
      · have := ha hp; omega
      · have := hb (by omega); omega

theorem getMaxCursor_set_revenues (m : Model) (p : Option client.RevenueListResponse)
    (h : m.activeTab ≠ TabRevenues) :
    Model.getMaxCursor { m with revenues := p } = m.getMaxCursor := by
  unfold Model.getMaxCursor
  simp only [h, if_false]

theorem getMaxCursor_set_expenses (m : Model) (p : Option client.ExpenseListResponse)
    (h : m.activeTab ≠ TabExpenses) :
    Model.getMaxCursor { m with expenses := p } = m.getMaxCursor := by
  unfold Model.getMaxCursor
  simp only [h, if_false]

theorem getMaxCursor_set_efactura (m : Model) (p : Option client.EFacturaListResponse)
    (h : m.activeTab ≠ TabEFactura) :
    Model.getMaxCursor { m with efactura := p } = m.getMaxCursor := by
  unfold Model.getMaxCursor
  simp only [h, if_false]

theorem getMaxCursor_set_queue (m : Model) (p : Option client.QueuedExpenseResponse)
    (h : m.activeTab ≠ TabQueue) :
    Model.getMaxCursor { m with queue := p } = m.getMaxCursor := by
  unfold Model.getMaxCursor
  simp only [h, if_false]

theorem Update_cursor_nonneg (m : Model) (msg : Msg) (h : 0 ≤ m.cursor) :
    0 ≤ (m.Update msg).1.cursor := by
  cases msg with
  | KeyMsg key => exact updateKey_cursor_nonneg m key h
  | _ => first | exact h | (simp only [Model.Update]; simpa using h)

theorem CursorInRange_step (m : Model) (msg : Msg) (h : CursorInRange m) :
    CursorInRange (m.Update msg).1
      ∨ (msg.replacesListOf m.activeTab = true ∧ (m.Update msg).1.cursor = m.cursor
          ∧ 0 < m.cursor ∧ (m.Update msg).1.getMaxCursor ≤ m.cursor) := by
  cases msg with
  | KeyMsg key => exact Or.inl (CursorInRange_updateKey m key h)
  | revenuesMsg p =>
    by_cases ht : m.activeTab = TabRevenues
    · rcases CursorInRange_or m (m.Update (Msg.revenuesMsg p)).1
        (by simp [Model.Update]) h with h1 | h1
      · exact Or.inl h1
      · exact Or.inr ⟨by simp [Msg.replacesListOf, ht], by simp [Model.Update], h1⟩
    · exact Or.inl (CursorInRange_congr m _ (by simp [Model.Update])
        (by simp [Model.Update, getMaxCursor_set_revenues m p ht]) h)
  | expensesMsg p =>
    by_cases ht : m.activeTab = TabExpenses
    · rcases CursorInRange_or m (m.Update (Msg.expensesMsg p)).1
        (by simp [Model.Update]) h with h1 | h1
      · exact Or.inl h1
      · exact Or.inr ⟨by simp [Msg.replacesListOf, ht], by simp [Model.Update], h1⟩
    · exact Or.inl (CursorInRange_congr m _ (by simp [Model.Update])
        (by simp [Model.Update, getMaxCursor_set_expenses m p ht]) h)
  | efacturaMsg p =>
    by_cases ht : m.activeTab = TabEFactura
    · rcases CursorInRange_or m (m.Update (Msg.efacturaMsg p)).1
        (by simp [Model.Update]) h with h1 | h1
      · exact Or.inl h1
      · exact Or.inr ⟨by simp [Msg.replacesListOf, ht], by simp [Model.Update], h1⟩
    · exact Or.inl (CursorInRange_congr m _ (by simp [Model.Update])
        (by simp [Model.Update, getMaxCursor_set_efactura m p ht]) h)
  | queueMsg p =>
    by_cases ht : m.activeTab = TabQueue
    · rcases CursorInRange_or m (m.Update (Msg.queueMsg p)).1
        (by simp [Model.Update]) h with h1 | h1
      · exact Or.inl h1
      · exact Or.inr ⟨by simp [Msg.replacesListOf, ht], by simp [Model.Update], h1⟩
    · exact Or.inl (CursorInRange_congr m _ (by simp [Model.Update])
        (by simp [Model.Update, getMaxCursor_set_queue m p ht]) h)
  | summaryMsg p =>
    exact Or.inl (CursorInRange_congr m _ (by simp [Model.Update])
      (by simp only [Model.Update, checkLoadingDone_getMaxCursor]; rfl) h)
  | _ => exact Or.inl h

/-- C2 (amended): in every state reached from `NewModel` or `NewDemoModel` the
cursor is non-negative; and every `Update` event keeps the cursor range
property (cursor in `[0, getMaxCursor())`, or 0 when `getMaxCursor()` is 0),
except an event that replaces the list of the active tab by one with at most
`cursor` items: such an event leaves the cursor where it was. -/
theorem C2_cursor_range_amended :
    (∀ (c : Option client.Client) (companyID : String) (pageSize : Int) (msgs : List Msg),
        0 ≤ (run (NewModel c companyID pageSize) msgs).cursor)
    ∧ (∀ (year : Int) (msgs : List Msg), 0 ≤ (run (NewDemoModel year) msgs).cursor)
    ∧ (∀ (m : Model) (msg : Msg), CursorInRange m →
        CursorInRange (m.Update msg).1
          ∨ (msg.replacesListOf m.activeTab = true ∧ (m.Update msg).1.cursor = m.cursor
              ∧ 0 < m.cursor ∧ (m.Update msg).1.getMaxCursor ≤ m.cursor)) := by
  refine ⟨fun c companyID pageSize msgs => ?_, fun year msgs => ?_, CursorInRange_step⟩
  · exact run_induction (fun m => 0 ≤ m.cursor) Update_cursor_nonneg msgs _ (le_refl _)
  · exact run_induction (fun m => 0 ≤ m.cursor) Update_cursor_nonneg msgs _ (le_refl _)

/-- C2 (amended), at concrete inputs: the cursor stays in range when the
refetched queue still has three items, and the exception applies when it
comes back with two. -/
theorem C2_cursor_range_amended_witness :
    CursorInRange (run (NewModel (some sampleClient) "" 100) (deleteLastTrace.take 6))
    ∧ (CursorInRange ((run (NewModel (some sampleClient) "" 100)
          (deleteLastTrace.take 6)).Update (Msg.queueMsg (some client.GetDemoQueue))).1
        ∨ ((Msg.queueMsg (some client.GetDemoQueue)).replacesListOf
              (run (NewModel (some sampleClient) "" 100) (deleteLastTrace.take 6)).activeTab = true
            ∧ ((run (NewModel (some sampleClient) "" 100)
                (deleteLastTrace.take 6)).Update (Msg.queueMsg (some client.GetDemoQueue))).1.cursor
              = (run (NewModel (some sampleClient) "" 100) (deleteLastTrace.take 6)).cursor
            ∧ 0 < (run (NewModel (some sampleClient) "" 100) (deleteLastTrace.take 6)).cursor
            ∧ ((run (NewModel (some sampleClient) "" 100)
                (deleteLastTrace.take 6)).Update
                  (Msg.queueMsg (some client.GetDemoQueue))).1.getMaxCursor
              ≤ (run (NewModel (some sampleClient) "" 100) (deleteLastTrace.take 6)).cursor)) :=
  have h : CursorInRange (run (NewModel (some sampleClient) "" 100) (deleteLastTrace.take 6)) :=
    ⟨fun _ => by decide, fun h => absurd h (by decide)⟩
  ⟨h, C2_cursor_range_amended.2.2 _ _ h⟩

end tui

namespace tui

/-! ### C3 -/

theorem updateKey_getMaxCursor_of_cursorKey (m : Model) (key : String) (hk : key ∈ cursorKeys) :
    (m.updateKey key).1.getMaxCursor = m.getMaxCursor := by
  simp only [cursorKeys, List.mem_cons, List.mem_singleton, List.not_mem_nil, or_false] at hk
  rcases hk with rfl | rfl | rfl | rfl <;>
    (unfold Model.updateKey
     dsimp only
     simp only [String.reduceEq, or_self, or_false, false_or, if_false, if_true, or_true]
     split_ifs <;> rfl)

theorem updateKey_cursor_of_cursorKey (m : Model) (key : String) (hk : key ∈ cursorKeys)
    (h : 0 ≤ m.cursor ∧ (m.cursor = 0 ∨ m.cursor < m.getMaxCursor)) :
    0 ≤ (m.updateKey key).1.cursor
      ∧ ((m.updateKey key).1.cursor = 0 ∨ (m.updateKey key).1.cursor < m.getMaxCursor) := by
  obtain ⟨h1, h2⟩ := h
  simp only [cursorKeys, List.mem_cons, List.mem_singleton, List.not_mem_nil, or_false] at hk
  rcases hk with rfl | rfl | rfl | rfl <;>
    (unfold Model.updateKey
     dsimp only
     simp only [String.reduceEq, or_self, or_false, false_or, if_false, if_true, or_true]
     split_ifs <;> simp only <;> omega)

theorem run_cursorKeys (keys : List String) :
    ∀ m : Model, (∀ k ∈ keys, k ∈ cursorKeys) →
      0 ≤ m.cursor ∧ (m.cursor = 0 ∨ m.cursor < m.getMaxCursor) →
      (run m (keys.map Msg.KeyMsg)).getMaxCursor = m.getMaxCursor
        ∧ 0 ≤ (run m (keys.map Msg.KeyMsg)).cursor
        ∧ ((run m (keys.map Msg.KeyMsg)).cursor = 0
            ∨ (run m (keys.map Msg.KeyMsg)).cursor < m.getMaxCursor) := by
  induction keys with
  | nil => intro m _ h; exact ⟨rfl, h.1, h.2⟩
  | cons k l ih =>
    intro m hk h
    have hk1 : k ∈ cursorKeys := hk k (List.mem_cons_self _ _)
    have hg := updateKey_getMaxCursor_of_cursorKey m k hk1
    have hc := updateKey_cursor_of_cursorKey m k hk1 h
    have := ih (m.updateKey k).1 (fun x hx => hk x (List.mem_cons_of_mem _ hx))
      (by rw [hg]; exact hc)
    rw [hg] at this
    exact this

/-- C3: from a state with `cursor = 0` or `0 ≤ cursor < getMaxCursor()`, any
finite sequence of cursor-up and cursor-down keys keeps `cursor ≥ 0`, keeps
`cursor ≤ getMaxCursor() - 1` when `getMaxCursor() > 0` and `cursor = 0` when
`getMaxCursor() = 0` (these keys do not change `getMaxCursor()`); here
`getMaxCursor()` is 0 on the Dashboard tab and on a tab whose slot is empty,
and the number of items of the list of the active tab otherwise; the up key
at cursor 0 and the down key at the last item leave the model unchanged. -/
theorem C3_cursor_keys_clamp (m : Model) (keys : List String)
    (hkeys : ∀ k ∈ keys, k ∈ cursorKeys)
    (hstart : m.cursor = 0 ∨ (0 ≤ m.cursor ∧ m.cursor < m.getMaxCursor)) :
    (0 ≤ (run m (keys.map Msg.KeyMsg)).cursor
      ∧ (run m (keys.map Msg.KeyMsg)).getMaxCursor = m.getMaxCursor
      ∧ (0 < (run m (keys.map Msg.KeyMsg)).getMaxCursor →
          (run m (keys.map Msg.KeyMsg)).cursor ≤ (run m (keys.map Msg.KeyMsg)).getMaxCursor - 1)
      ∧ ((run m (keys.map Msg.KeyMsg)).getMaxCursor = 0 →
          (run m (keys.map Msg.KeyMsg)).cursor = 0))
    ∧ ((m.activeTab = TabDashboard → m.getMaxCursor = 0)
      ∧ (m.activeTab = TabRevenues →
          m.getMaxCursor = match m.revenues with
            | some revenues => (revenues.Items.length : Int)
            | none => 0)
      ∧ (m.activeTab = TabExpenses →
          m.getMaxCursor = match m.expenses with
            | some expenses => (expenses.Items.length : Int)
            | none => 0)
      ∧ (m.activeTab = TabEFactura →
          m.getMaxCursor = match m.efactura with
            | some efactura => (efactura.Items.length : Int)
            | none => 0)
      ∧ (m.activeTab = TabQueue →
          m.getMaxCursor = match m.queue with
            | some queue => (queue.Items.length : Int)
            | none => 0))
    ∧ (∀ k, (k = "up" ∨ k = "k") → m.cursor = 0 → (m.Update (Msg.KeyMsg k)).1 = m)
    ∧ (∀ k, (k = "down" ∨ k = "j") → m.cursor = m.getMaxCursor - 1 →
        (m.Update (Msg.KeyMsg k)).1 = m) := by
  have h0 : 0 ≤ m.cursor ∧ (m.cursor = 0 ∨ m.cursor < m.getMaxCursor) := by
    rcases hstart with h | h
    · exact ⟨by omega, Or.inl h⟩
    · exact ⟨h.1, Or.inr h.2⟩
  obtain ⟨hg, hn, hc⟩ := run_cursorKeys keys m hkeys h0
  refine ⟨⟨hn, hg, ?_, ?_⟩, ⟨?_, ?_, ?_, ?_, ?_⟩, ?_, ?_⟩
  · intro hp; rw [hg] at hp ⊢; omega
  · intro hz; rw [hg] at hz; omega
  · intro h; simp [Model.getMaxCursor, h, TabDashboard, TabRevenues, TabExpenses, TabEFactura,
      TabQueue]
  · intro h; simp [Model.getMaxCursor, h]
  · intro h; simp [Model.getMaxCursor, h, TabRevenues, TabExpenses]
  · intro h; simp [Model.getMaxCursor, h, TabRevenues, TabExpenses, TabEFactura]
  · intro h; simp [Model.getMaxCursor, h, TabRevenues, TabExpenses, TabEFactura, TabQueue]
  · rintro k (rfl | rfl) hc0 <;>
      simp [Model.Update, Model.updateKey, hc0]
  · rintro k (rfl | rfl) hc0 <;>
      simp [Model.Update, Model.updateKey, hc0]

/-- C3 at a concrete input: the demo model on the Revenues tab (8 items),
cursor 0, under the keys down, down, up, k, k, j. -/
theorem C3_cursor_keys_clamp_witness :
    (run (NewDemoModel 2025) [Msg.KeyMsg "tab"]).cursor = 0
    ∧ (run (run (NewDemoModel 2025) [Msg.KeyMsg "tab"])
        (["down", "down", "up", "k", "k", "j"].map Msg.KeyMsg)).cursor
        ≤ (run (run (NewDemoModel 2025) [Msg.KeyMsg "tab"])
            (["down", "down", "up", "k", "k", "j"].map Msg.KeyMsg)).getMaxCursor - 1 :=
  ⟨by decide,
    (C3_cursor_keys_clamp (run (NewDemoModel 2025) [Msg.KeyMsg "tab"])
      ["down", "down", "up", "k", "k", "j"] (by decide) (Or.inl (by decide))).1.2.2.1
      (by decide)⟩

end tui

namespace tui

/-! ### C4 -/

/-- C4: for every state and every tab-switch key, the state after `Update`
has `cursor = 0` and `viewportOffset = 0`, the six resource slots, `loading`
and `err` are unchanged, and no command is returned. -/
theorem C4_tab_switch_resets (m : Model) (key : String)
    (hkey : key ∈ nextTabKeys ∨ key ∈ prevTabKeys) :
    (m.Update (Msg.KeyMsg key)).1.cursor = 0
    ∧ (m.Update (Msg.KeyMsg key)).1.viewportOffset = 0
    ∧ (m.Update (Msg.KeyMsg key)).1.summary = m.summary
    ∧ (m.Update (Msg.KeyMsg key)).1.company = m.company
    ∧ (m.Update (Msg.KeyMsg key)).1.revenues = m.revenues
    ∧ (m.Update (Msg.KeyMsg key)).1.expenses = m.expenses
    ∧ (m.Update (Msg.KeyMsg key)).1.queue = m.queue
    ∧ (m.Update (Msg.KeyMsg key)).1.efactura = m.efactura
    ∧ (m.Update (Msg.KeyMsg key)).1.loading = m.loading
    ∧ (m.Update (Msg.KeyMsg key)).1.err = m.err
    ∧ (m.Update (Msg.KeyMsg key)).2 = none := by
  simp only [nextTabKeys, prevTabKeys, List.mem_cons, List.mem_singleton, List.not_mem_nil,
    or_false] at hkey
  rcases hkey with (rfl | rfl | rfl) | (rfl | rfl | rfl) <;>
    simp [Model.Update, Model.updateKey]

/-- C4 at a concrete input: the left key pressed in the state reached by the
delete session, where the cursor is 2. -/
theorem C4_tab_switch_resets_witness :
    ((run (NewModel (some sampleClient) "" 100) deleteLastTrace).Update
        (Msg.KeyMsg "left")).1.cursor = 0
    ∧ ((run (NewModel (some sampleClient) "" 100) deleteLastTrace).Update
        (Msg.KeyMsg "left")).2 = none :=
  have h := C4_tab_switch_resets (run (NewModel (some sampleClient) "" 100) deleteLastTrace)
    "left" (Or.inr (by decide))
  ⟨h.1, h.2.2.2.2.2.2.2.2.2.2⟩

/-! ### C5 -/

theorem updateKey_activeTab_range (m : Model) (key : String)
    (h : 0 ≤ m.activeTab ∧ m.activeTab ≤ 4) :
    0 ≤ (m.updateKey key).1.activeTab ∧ (m.updateKey key).1.activeTab ≤ 4 := by
  obtain ⟨h1, h2⟩ := h
  have e1 : Int.tmod (m.activeTab + 1) 5 = (m.activeTab + 1) % 5 :=
    Int.tmod_eq_emod (by omega) (by omega)
  have e2 : Int.tmod (m.activeTab - 1 + 5) 5 = (m.activeTab - 1 + 5) % 5 :=
    Int.tmod_eq_emod (by omega) (by omega)
  unfold Model.updateKey
  dsimp only
  split_ifs <;> simp only [e1, e2] <;> omega

theorem Update_activeTab_range (m : Model) (msg : Msg)
    (h : 0 ≤ m.activeTab ∧ m.activeTab ≤ 4) :
    0 ≤ (m.Update msg).1.activeTab ∧ (m.Update msg).1.activeTab ≤ 4 := by
  cases msg with
  | KeyMsg key => exact updateKey_activeTab_range m key h
  | _ => first | exact h | (simp only [Model.Update]; simpa using h)

/-- C5: in a state whose `activeTab` is one of the five tabs `t ∈ 0..4`, the
next-tab keys set `activeTab` to `(t+1) mod 5` and the prev-tab keys to
`(t-1) mod 5` (prev from Dashboard gives Queue, next from Queue gives
Dashboard); and `activeTab` is one of the five tabs in every state reached
from `NewModel` or `NewDemoModel`. -/
theorem C5_tab_cycle :
    (∀ (m : Model) (key : String), 0 ≤ m.activeTab → m.activeTab ≤ 4 →
        (key ∈ nextTabKeys → (m.Update (Msg.KeyMsg key)).1.activeTab = (m.activeTab + 1) % 5)
        ∧ (key ∈ prevTabKeys → (m.Update (Msg.KeyMsg key)).1.activeTab = (m.activeTab - 1) % 5)
        ∧ (key ∈ prevTabKeys → m.activeTab = TabDashboard →
            (m.Update (Msg.KeyMsg key)).1.activeTab = TabQueue)
        ∧ (key ∈ nextTabKeys → m.activeTab = TabQueue →
            (m.Update (Msg.KeyMsg key)).1.activeTab = TabDashboard))
    ∧ (∀ (c : Option client.Client) (companyID : String) (pageSize : Int) (msgs : List Msg),
        0 ≤ (run (NewModel c companyID pageSize) msgs).activeTab
        ∧ (run (NewModel c companyID pageSize) msgs).activeTab ≤ 4)
    ∧ (∀ (year : Int) (msgs : List Msg),
        0 ≤ (run (NewDemoModel year) msgs).activeTab
        ∧ (run (NewDemoModel year) msgs).activeTab ≤ 4) := by
  refine ⟨fun m key h1 h2 => ?_, fun c companyID pageSize msgs => ?_, fun year msgs => ?_⟩
  · have e1 : Int.tmod (m.activeTab + 1) 5 = (m.activeTab + 1) % 5 :=
      Int.tmod_eq_emod (by omega) (by omega)
    have e2 : Int.tmod (m.activeTab - 1 + 5) 5 = (m.activeTab - 1) % 5 := by
      rw [Int.tmod_eq_emod (by omega) (by omega)]; omega
    refine ⟨fun hk => ?_, fun hk => ?_, fun hk ht => ?_, fun hk ht => ?_⟩
    · simp only [nextTabKeys, List.mem_cons, List.mem_singleton, List.not_mem_nil,
        or_false] at hk
      rcases hk with rfl | rfl | rfl <;> simp [Model.Update, Model.updateKey, e1]
    · simp only [prevTabKeys, List.mem_cons, List.mem_singleton, List.not_mem_nil,
        or_false] at hk
      rcases hk with rfl | rfl | rfl <;> simp [Model.Update, Model.updateKey, e2]
    · simp only [prevTabKeys, List.mem_cons, List.mem_singleton, List.not_mem_nil,
        or_false] at hk
      rcases hk with rfl | rfl | rfl <;>
        simp [Model.Update, Model.updateKey, ht, TabDashboard, TabQueue] <;> decide
    · simp only [nextTabKeys, List.mem_cons, List.mem_singleton, List.not_mem_nil,
        or_false] at hk
      rcases hk with rfl | rfl | rfl <;>
        simp [Model.Update, Model.updateKey, ht, TabDashboard, TabQueue]
  · exact run_induction (fun m => 0 ≤ m.activeTab ∧ m.activeTab ≤ 4) Update_activeTab_range msgs _
      (by simp [NewModel, TabDashboard])
  · exact run_induction (fun m => 0 ≤ m.activeTab ∧ m.activeTab ≤ 4) Update_activeTab_range msgs _
      (by simp [NewDemoModel, TabDashboard])

/-- C5 at a concrete input: the prev-tab key `h` on the Dashboard tab of the
demo model leads to the Queue tab. -/
theorem C5_tab_cycle_witness :
    (0 ≤ (NewDemoModel 2025).activeTab ∧ (NewDemoModel 2025).activeTab ≤ 4)
    ∧ ((NewDemoModel 2025).Update (Msg.KeyMsg "h")).1.activeTab
        = ((NewDemoModel 2025).activeTab - 1) % 5
    ∧ ((NewDemoModel 2025).Update (Msg.KeyMsg "h")).1.activeTab = TabQueue :=
  have h := C5_tab_cycle.1 (NewDemoModel 2025) "h" (by decide) (by decide)
  ⟨⟨by decide, by decide⟩, h.2.1 (by decide), h.2.2.1 (by decide) (by decide)⟩

end tui

namespace tui

/-! ### C6 and C7 -/

theorem checkLoadingDone_frame (m : Model) :
    m.checkLoadingDone = { m with loading := m.checkLoadingDone.loading } := by
  rcases checkLoadingDone_eq m with h | h
  · rw [h]
  · rw [h]

theorem checkLoadingDone_loading (m : Model) :
    m.checkLoadingDone.loading = (if m.mandatoryLoaded then false else m.loading) := by
  unfold Model.checkLoadingDone Model.mandatoryLoaded
  split_ifs <;> rfl

/-- The loading invariant of a session without errors and refreshes. -/
theorem loading_iff_step (m : Model) (x : Msg) (hx : x.isResourceSuccess = true)
    (h : m.loading = false ↔ m.mandatoryLoaded) :
    (m.Update x).1.loading = false ↔ (m.Update x).1.mandatoryLoaded := by
  cases x with
  | companyMsg p => exact h
  | summaryMsg p =>
    cases p with
    | none => simp [Msg.isResourceSuccess] at hx
    | some v =>
      simp only [Model.Update, checkLoadingDone_loading]
      rw [checkLoadingDone_frame]
      simp only [Model.mandatoryLoaded] at h ⊢
      split_ifs with hc <;> simp_all
  | revenuesMsg p =>
    cases p with
    | none => simp [Msg.isResourceSuccess] at hx
    | some v =>
      simp only [Model.Update, checkLoadingDone_loading]
      rw [checkLoadingDone_frame]
      simp only [Model.mandatoryLoaded] at h ⊢
      split_ifs with hc <;> simp_all
  | expensesMsg p =>
    cases p with
    | none => simp [Msg.isResourceSuccess] at hx
    | some v =>
      simp only [Model.Update, checkLoadingDone_loading]
      rw [checkLoadingDone_frame]
      simp only [Model.mandatoryLoaded] at h ⊢
      split_ifs with hc <;> simp_all
  | queueMsg p =>
    cases p with
    | none => simp [Msg.isResourceSuccess] at hx
    | some v =>
      simp only [Model.Update, checkLoadingDone_loading]
      rw [checkLoadingDone_frame]
      simp only [Model.mandatoryLoaded] at h ⊢
      split_ifs with hc <;> simp_all
  | efacturaMsg p =>
    cases p with
    | none => simp [Msg.isResourceSuccess] at hx
    | some v =>
      simp only [Model.Update, checkLoadingDone_loading]
      rw [checkLoadingDone_frame]
      simp only [Model.mandatoryLoaded] at h ⊢
      split_ifs with hc <;> simp_all
  | _ => simp [Msg.isResourceSuccess] at hx

theorem loading_iff_run (msgs : List Msg) :
    ∀ m : Model, (∀ x ∈ msgs, x.isResourceSuccess = true) →
      (m.loading = false ↔ m.mandatoryLoaded) →
      ((run m msgs).loading = false ↔ (run m msgs).mandatoryLoaded) := by
  induction msgs with
  | nil => intro m _ h; exact h
  | cons x l ih =>
    intro m hall h
    exact ih _ (fun y hy => hall y (List.mem_cons_of_mem _ hy))
      (loading_iff_step m x (hall x (List.mem_cons_self _ _)) h)

end tui

namespace tui

/-- The six success events of a session start, for fixed payloads. -/
theorem run_success_slots (s : client.Summary) (co : Option client.CompanyInfo)
    (r : client.RevenueListResponse) (e : client.ExpenseListResponse)
    (q : client.QueuedExpenseResponse) (f : client.EFacturaListResponse) (l : List Msg) :
    ∀ m : Model,
      (∀ x ∈ l, x ∈ [Msg.summaryMsg (some s), Msg.revenuesMsg (some r),
        Msg.expensesMsg (some e), Msg.queueMsg (some q), Msg.efacturaMsg (some f),
        Msg.companyMsg co]) →
      run m l =
        { m with
          summary := if Msg.summaryMsg (some s) ∈ l then some s else m.summary
          company := if Msg.companyMsg co ∈ l then co else m.company
          revenues := if Msg.revenuesMsg (some r) ∈ l then some r else m.revenues
          expenses := if Msg.expensesMsg (some e) ∈ l then some e else m.expenses
          queue := if Msg.queueMsg (some q) ∈ l then some q else m.queue
          efactura := if Msg.efacturaMsg (some f) ∈ l then some f else m.efactura
          loading := (run m l).loading } := by
  induction l with
  | nil => intro m _; simp [run_nil]
  | cons x l ih =>
    intro m hall
    have hx := hall x (List.mem_cons_self _ _)
    have hl : ∀ y ∈ l, y ∈ [Msg.summaryMsg (some s), Msg.revenuesMsg (some r),
        Msg.expensesMsg (some e), Msg.queueMsg (some q), Msg.efacturaMsg (some f),
        Msg.companyMsg co] := fun y hy => hall y (List.mem_cons_of_mem _ hy)
    rw [run_cons, ih _ hl]
    simp only [List.mem_cons, List.mem_singleton, List.not_mem_nil, or_false] at hx
    rcases hx with rfl | rfl | rfl | rfl | rfl | rfl
    · simp only [Model.Update]
      rw [checkLoadingDone_frame]
      simp [List.mem_cons]
    · simp only [Model.Update]
      rw [checkLoadingDone_frame]
      simp [List.mem_cons]
    · simp only [Model.Update]
      rw [checkLoadingDone_frame]
      simp [List.mem_cons]
    · simp only [Model.Update]
      rw [checkLoadingDone_frame]
      simp [List.mem_cons]
    · simp only [Model.Update]
      rw [checkLoadingDone_frame]
      simp [List.mem_cons]
    · simp only [Model.Update]
      simp [List.mem_cons]

end tui

namespace tui

theorem NewModel_loading_iff (c : Option client.Client) (companyID : String) (pageSize : Int) :
    (NewModel c companyID pageSize).loading = false
      ↔ (NewModel c companyID pageSize).mandatoryLoaded := by
  simp [NewModel, Model.mandatoryLoaded]

/-- C6: from the `NewModel` state and for fixed non-nil payloads, reducing the
five mandatory success events in any order, with or without the company event
at any position, gives one and the same final model: `loading = false` and
every slot holding the payload delivered for it. -/
theorem C6_arrival_order_irrelevant (c : Option client.Client) (companyID : String)
    (pageSize : Int) (s : client.Summary) (co : Option client.CompanyInfo)
    (r : client.RevenueListResponse) (e : client.ExpenseListResponse)
    (q : client.QueuedExpenseResponse) (f : client.EFacturaListResponse) :
    (∀ msgs : List Msg,
        msgs.Perm [Msg.summaryMsg (some s), Msg.revenuesMsg (some r), Msg.expensesMsg (some e),
          Msg.queueMsg (some q), Msg.efacturaMsg (some f), Msg.companyMsg co] →
        run (NewModel c companyID pageSize) msgs =
          { NewModel c companyID pageSize with
            summary := some s, company := co, revenues := some r, expenses := some e,
            queue := some q, efactura := some f, loading := false })
    ∧ (∀ msgs : List Msg,
        msgs.Perm [Msg.summaryMsg (some s), Msg.revenuesMsg (some r), Msg.expensesMsg (some e),
          Msg.queueMsg (some q), Msg.efacturaMsg (some f)] →
        run (NewModel c companyID pageSize) msgs =
          { NewModel c companyID pageSize with
            summary := some s, company := none, revenues := some r, expenses := some e,
            queue := some q, efactura := some f, loading := false }) := by
  constructor
  · intro msgs hp
    have hmem : ∀ x, x ∈ msgs ↔ x ∈ [Msg.summaryMsg (some s), Msg.revenuesMsg (some r),
        Msg.expensesMsg (some e), Msg.queueMsg (some q), Msg.efacturaMsg (some f),
        Msg.companyMsg co] := fun x => hp.mem_iff
    have hA := run_success_slots s co r e q f msgs (NewModel c companyID pageSize)
      (fun x hx => (hmem x).1 hx)
    have hsucc : ∀ x ∈ msgs, x.isResourceSuccess = true := by
      intro x hx
      have := (hmem x).1 hx
      simp only [List.mem_cons, List.mem_singleton, List.not_mem_nil, or_false] at this
      rcases this with rfl | rfl | rfl | rfl | rfl | rfl <;> rfl
    have hI := loading_iff_run msgs _ hsucc (NewModel_loading_iff c companyID pageSize)
    simp only [hmem, List.mem_cons, List.mem_singleton, true_or, or_true, if_true] at hA
    have hL : (run (NewModel c companyID pageSize) msgs).loading = false := by
      rw [hI, hA]
      simp [Model.mandatoryLoaded]
    rw [hL] at hA
    exact hA
  · intro msgs hp
    have hmem : ∀ x, x ∈ msgs ↔ x ∈ [Msg.summaryMsg (some s), Msg.revenuesMsg (some r),
        Msg.expensesMsg (some e), Msg.queueMsg (some q), Msg.efacturaMsg (some f)] :=
      fun x => hp.mem_iff
    have hA := run_success_slots s none r e q f msgs (NewModel c companyID pageSize)
      (fun x hx => by
        have := (hmem x).1 hx
        simp only [List.mem_cons, List.mem_singleton, List.not_mem_nil, or_false] at this ⊢
        tauto)
    have hsucc : ∀ x ∈ msgs, x.isResourceSuccess = true := by
      intro x hx
      have := (hmem x).1 hx
      simp only [List.mem_cons, List.mem_singleton, List.not_mem_nil, or_false] at this
      rcases this with rfl | rfl | rfl | rfl | rfl <;> rfl
    have hI := loading_iff_run msgs _ hsucc (NewModel_loading_iff c companyID pageSize)
    simp only [hmem, List.mem_cons, List.mem_singleton, true_or, or_true, if_true,
      ite_self] at hA
    have hL : (run (NewModel c companyID pageSize) msgs).loading = false := by
      rw [hI, hA]
      simp [Model.mandatoryLoaded]
    rw [hL] at hA
    simpa [NewModel] using hA

end tui

namespace tui

/-- C6 at a concrete input: the six demo payloads with the summary arriving
last. -/
theorem C6_arrival_order_irrelevant_witness :
    summaryLastTrace.Perm
      [Msg.summaryMsg (some (client.GetDemoSummary 2025)),
        Msg.revenuesMsg (some client.GetDemoRevenues),
        Msg.expensesMsg (some client.GetDemoExpenses),
        Msg.queueMsg (some client.GetDemoQueue),
        Msg.efacturaMsg (some client.GetDemoEFactura),
        Msg.companyMsg (some client.GetDemoCompany)]
    ∧ run (NewModel (some sampleClient) "42" 100) summaryLastTrace =
        { NewModel (some sampleClient) "42" 100 with
          summary := some (client.GetDemoSummary 2025)
          company := some client.GetDemoCompany
          revenues := some client.GetDemoRevenues
          expenses := some client.GetDemoExpenses
          queue := some client.GetDemoQueue
          efactura := some client.GetDemoEFactura
          loading := false } :=
  have hp : summaryLastTrace.Perm
      [Msg.summaryMsg (some (client.GetDemoSummary 2025)),
        Msg.revenuesMsg (some client.GetDemoRevenues),
        Msg.expensesMsg (some client.GetDemoExpenses),
        Msg.queueMsg (some client.GetDemoQueue),
        Msg.efacturaMsg (some client.GetDemoEFactura),
        Msg.companyMsg (some client.GetDemoCompany)] := by
    unfold summaryLastTrace
    refine List.perm_iff_count.2 (fun x => ?_)
    simp only [List.count_cons, List.count_nil]
    omega
  ⟨hp, (C6_arrival_order_irrelevant (some sampleClient) "42" 100 (client.GetDemoSummary 2025)
    (some client.GetDemoCompany) client.GetDemoRevenues client.GetDemoExpenses
    client.GetDemoQueue client.GetDemoEFactura).1 summaryLastTrace hp⟩

/-! ### C7 -/

/-- C7: from the `NewModel` state, after any finite sequence of successful
resource events (mandatory events with non-nil payloads, company events with
any payload, in any order, with repetitions), `loading` is false exactly when
the five mandatory slots are all non-nil; so `loading` is still true while
one of the five is missing, whatever the company slot holds. -/
theorem C7_loading_iff_mandatory (c : Option client.Client) (companyID : String)
    (pageSize : Int) (msgs : List Msg) (hmsgs : ∀ x ∈ msgs, x.isResourceSuccess = true) :
    ((run (NewModel c companyID pageSize) msgs).loading = false
      ↔ ((run (NewModel c companyID pageSize) msgs).summary ≠ none
        ∧ (run (NewModel c companyID pageSize) msgs).revenues ≠ none
        ∧ (run (NewModel c companyID pageSize) msgs).expenses ≠ none
        ∧ (run (NewModel c companyID pageSize) msgs).queue ≠ none
        ∧ (run (NewModel c companyID pageSize) msgs).efactura ≠ none))
    ∧ (((run (NewModel c companyID pageSize) msgs).summary = none
        ∨ (run (NewModel c companyID pageSize) msgs).revenues = none
        ∨ (run (NewModel c companyID pageSize) msgs).expenses = none
        ∨ (run (NewModel c companyID pageSize) msgs).queue = none
        ∨ (run (NewModel c companyID pageSize) msgs).efactura = none) →
      (run (NewModel c companyID pageSize) msgs).loading = true) := by
  have h := loading_iff_run msgs _ hmsgs (NewModel_loading_iff c companyID pageSize)
  refine ⟨h, fun hnone => ?_⟩
  cases hl : (run (NewModel c companyID pageSize) msgs).loading with
  | true => rfl
  | false =>
    have := h.1 hl
    simp only [Model.mandatoryLoaded] at this
    tauto

/-- C7 at a concrete input: the company and four mandatory results have
arrived, the summary has not, and `loading` is still true. -/
theorem C7_loading_iff_mandatory_witness :
    (∀ x ∈ summaryLastTrace.take 5, x.isResourceSuccess = true)
    ∧ (run (NewModel (some sampleClient) "42" 100) (summaryLastTrace.take 5)).loading = true :=
  ⟨by decide,
    (C7_loading_iff_mandatory (some sampleClient) "42" 100 (summaryLastTrace.take 5)
      (by decide)).2 (Or.inl (by decide))⟩

end tui

namespace tui

/-! ### C8 -/

/-- C8: a company lookup never yields an error event: `fetchCompany` returns
`companyMsg(nil)` without any client call when `companyID` is empty, returns
`companyMsg(nil)` when the client call fails, and never returns an `errMsg`;
and `Update` on a company event changes only the company slot, leaving `err`,
`loading` and the five mandatory slots as they were, with no command. -/
theorem C8_company_never_errors :
    (∀ (P : Provider) (m : Model), m.companyID = "" →
        m.fetchCompany P = { calls := [], msg := some (Msg.companyMsg none) })
    ∧ (∀ (P : Provider) (m : Model) (c : client.Client) (v : Option client.CompanyInfo)
        (err : GoError), m.client = some c →
        P.GetCompanyInfo m.companyID = (v, some err) →
        (m.fetchCompany P).msg = some (Msg.companyMsg none))
    ∧ (∀ (P : Provider) (m : Model) (e : GoError),
        (m.fetchCompany P).msg ≠ some (Msg.errMsg e))
    ∧ (∀ (m : Model) (p : Option client.CompanyInfo),
        m.Update (Msg.companyMsg p) = ({ m with company := p }, none)
        ∧ (m.Update (Msg.companyMsg p)).1.err = m.err
        ∧ (m.Update (Msg.companyMsg p)).1.loading = m.loading
        ∧ (m.Update (Msg.companyMsg p)).1.summary = m.summary
        ∧ (m.Update (Msg.companyMsg p)).1.revenues = m.revenues
        ∧ (m.Update (Msg.companyMsg p)).1.expenses = m.expenses
        ∧ (m.Update (Msg.companyMsg p)).1.queue = m.queue
        ∧ (m.Update (Msg.companyMsg p)).1.efactura = m.efactura
        ∧ (m.Update (Msg.companyMsg p)).2 = none) := by
  refine ⟨fun P m h => ?_, fun P m c v err hc hP => ?_, fun P m e => ?_, fun m p => ?_⟩
  · simp [Model.fetchCompany, h]
  · unfold Model.fetchCompany
    split_ifs
    · rfl
    · simp [hc, hP]
  · unfold Model.fetchCompany
    split_ifs
    · simp
    · cases m.client with
      | none => simp
      | some c =>
        rcases hP : P.GetCompanyInfo m.companyID with ⟨v, _ | err⟩ <;> simp
  · exact ⟨rfl, rfl, rfl, rfl, rfl, rfl, rfl, rfl, rfl⟩

/-- C8 at concrete inputs: no company id configured, and a configured id
whose lookup fails. -/
theorem C8_company_never_errors_witness :
    (NewModel (some sampleClient) "" 100).fetchCompany failingProvider
      = { calls := [], msg := some (Msg.companyMsg none) }
    ∧ ((NewModel (some sampleClient) "42" 100).fetchCompany failingProvider).msg
      = some (Msg.companyMsg none) :=
  ⟨C8_company_never_errors.1 failingProvider (NewModel (some sampleClient) "" 100) rfl,
    C8_company_never_errors.2.1 failingProvider (NewModel (some sampleClient) "42" 100)
      sampleClient none { text := "failed to get company info: status 500" } rfl rfl⟩

/-! ### C9 -/

/-- C9: for every state and every failure event `errMsg e`, `Update` records
`err = e`, sets `loading = false`, leaves the six slots, `activeTab`, `cursor`
and `viewportOffset` as they were, and returns no command. -/
theorem C9_error_event (m : Model) (e : GoError) :
    m.Update (Msg.errMsg e) = ({ m with err := some e, loading := false }, none)
    ∧ (m.Update (Msg.errMsg e)).1.err = some e
    ∧ (m.Update (Msg.errMsg e)).1.loading = false
    ∧ (m.Update (Msg.errMsg e)).1.summary = m.summary
    ∧ (m.Update (Msg.errMsg e)).1.company = m.company
    ∧ (m.Update (Msg.errMsg e)).1.revenues = m.revenues
    ∧ (m.Update (Msg.errMsg e)).1.expenses = m.expenses
    ∧ (m.Update (Msg.errMsg e)).1.queue = m.queue
    ∧ (m.Update (Msg.errMsg e)).1.efactura = m.efactura
    ∧ (m.Update (Msg.errMsg e)).1.activeTab = m.activeTab
    ∧ (m.Update (Msg.errMsg e)).1.cursor = m.cursor
    ∧ (m.Update (Msg.errMsg e)).1.viewportOffset = m.viewportOffset
    ∧ (m.Update (Msg.errMsg e)).2 = none :=
  ⟨rfl, rfl, rfl, rfl, rfl, rfl, rfl, rfl, rfl, rfl, rfl, rfl, rfl⟩

/-! ### C10 -/

/-- C10: `Init` of a model that is not in demo mode returns the batch of the
spinner tick and the six read fetches (summary, company, revenues, expenses,
queue, e-factura), each once; the refresh key `r` returns the batch of the
same six fetches, each once, and sets `loading = true`, leaving every slot,
`activeTab`, `cursor` and `viewportOffset` as they were. -/
theorem C10_init_and_refresh_fetch_six :
    (∀ m : Model, m.demoMode = false →
        m.Init = Cmd.Batch [Cmd.spinnerTick m.spinner.id m.spinner.tag, Cmd.fetchSummary m,
          Cmd.fetchCompany m, Cmd.fetchRevenues m, Cmd.fetchExpenses m, Cmd.fetchQueue m,
          Cmd.fetchEFactura m])
    ∧ (∀ (c : Option client.Client) (companyID : String) (pageSize : Int),
        (NewModel c companyID pageSize).demoMode = false)
    ∧ (∀ m : Model,
        m.Update (Msg.KeyMsg "r") =
          ({ m with loading := true },
            some (Cmd.Batch [Cmd.fetchSummary { m with loading := true },
              Cmd.fetchCompany { m with loading := true },
              Cmd.fetchRevenues { m with loading := true },
              Cmd.fetchExpenses { m with loading := true },
              Cmd.fetchQueue { m with loading := true },
              Cmd.fetchEFactura { m with loading := true }]))
        ∧ (m.Update (Msg.KeyMsg "r")).1.loading = true
        ∧ (m.Update (Msg.KeyMsg "r")).1.summary = m.summary
        ∧ (m.Update (Msg.KeyMsg "r")).1.company = m.company
        ∧ (m.Update (Msg.KeyMsg "r")).1.revenues = m.revenues
        ∧ (m.Update (Msg.KeyMsg "r")).1.expenses = m.expenses
        ∧ (m.Update (Msg.KeyMsg "r")).1.queue = m.queue
        ∧ (m.Update (Msg.KeyMsg "r")).1.efactura = m.efactura
        ∧ (m.Update (Msg.KeyMsg "r")).1.activeTab = m.activeTab
        ∧ (m.Update (Msg.KeyMsg "r")).1.cursor = m.cursor
        ∧ (m.Update (Msg.KeyMsg "r")).1.viewportOffset = m.viewportOffset) := by
  refine ⟨fun m h => ?_, fun c companyID pageSize => rfl, fun m => ?_⟩
  · simp [Model.Init, h]
  · have h : m.Update (Msg.KeyMsg "r") =
        ({ m with loading := true },
          some (Cmd.Batch [Cmd.fetchSummary { m with loading := true },
            Cmd.fetchCompany { m with loading := true },
            Cmd.fetchRevenues { m with loading := true },
            Cmd.fetchExpenses { m with loading := true },
            Cmd.fetchQueue { m with loading := true },
            Cmd.fetchEFactura { m with loading := true }])) := by
      simp [Model.Update, Model.updateKey]
    rw [h]
    exact ⟨rfl, rfl, rfl, rfl, rfl, rfl, rfl, rfl, rfl, rfl, rfl⟩

/-- C10 at a concrete input: `Init` of the model built by `NewModel`. -/
theorem C10_init_and_refresh_fetch_six_witness :
    (NewModel (some sampleClient) "42" 100).demoMode = false
    ∧ (NewModel (some sampleClient) "42" 100).Init =
        Cmd.Batch [
          Cmd.spinnerTick (NewModel (some sampleClient) "42" 100).spinner.id
            (NewModel (some sampleClient) "42" 100).spinner.tag,
          Cmd.fetchSummary (NewModel (some sampleClient) "42" 100),
          Cmd.fetchCompany (NewModel (some sampleClient) "42" 100),
          Cmd.fetchRevenues (NewModel (some sampleClient) "42" 100),
          Cmd.fetchExpenses (NewModel (some sampleClient) "42" 100),
          Cmd.fetchQueue (NewModel (some sampleClient) "42" 100),
          Cmd.fetchEFactura (NewModel (some sampleClient) "42" 100)] :=
  ⟨rfl, C10_init_and_refresh_fetch_six.1 (NewModel (some sampleClient) "42" 100) rfl⟩

end tui

namespace tui

/-! ### Frame lemmas of the reducer -/

theorem updateKey_frame (m : Model) (key : String) :
    (m.updateKey key).1.err = m.err
    ∧ (m.updateKey key).1.summary = m.summary
    ∧ (m.updateKey key).1.revenues = m.revenues
    ∧ (m.updateKey key).1.expenses = m.expenses
    ∧ (m.updateKey key).1.queue = m.queue
    ∧ (m.updateKey key).1.efactura = m.efactura
    ∧ (m.updateKey key).1.demoMode = m.demoMode
    ∧ (m.updateKey key).1.client = m.client
    ∧ ((m.updateKey key).1.loading = true ∨ (m.updateKey key).1.loading = m.loading) := by
  unfold Model.updateKey
  dsimp only
  split_ifs <;> simp

@[simp]
theorem checkLoadingDone_err (m : Model) : m.checkLoadingDone.err = m.err := by
  rcases checkLoadingDone_eq m with h | h <;> rw [h]

@[simp]
theorem checkLoadingDone_demoMode (m : Model) : m.checkLoadingDone.demoMode = m.demoMode := by
  rcases checkLoadingDone_eq m with h | h <;> rw [h]

@[simp]
theorem checkLoadingDone_client (m : Model) : m.checkLoadingDone.client = m.client := by
  rcases checkLoadingDone_eq m with h | h <;> rw [h]

theorem Update_demoMode_client (m : Model) (msg : Msg) :
    (m.Update msg).1.demoMode = m.demoMode ∧ (m.Update msg).1.client = m.client := by
  cases msg with
  | KeyMsg key => exact ⟨(updateKey_frame m key).2.2.2.2.2.2.1, (updateKey_frame m key).2.2.2.2.2.2.2.1⟩
  | _ => simp [Model.Update]

theorem run_demoMode_client (msgs : List Msg) :
    ∀ m : Model, (run m msgs).demoMode = m.demoMode ∧ (run m msgs).client = m.client := by
  induction msgs with
  | nil => intro m; exact ⟨rfl, rfl⟩
  | cons x l ih =>
    intro m
    rw [run_cons]
    exact ⟨(ih _).1.trans (Update_demoMode_client m x).1,
      (ih _).2.trans (Update_demoMode_client m x).2⟩

theorem Update_err_ne_none (m : Model) (msg : Msg) (h : m.err ≠ none) :
    (m.Update msg).1.err ≠ none := by
  cases msg with
  | KeyMsg key =>
    have := (updateKey_frame m key).1
    simp only [Model.Update]
    rw [this]; exact h
  | errMsg e => simp [Model.Update]
  | _ => simpa [Model.Update] using h

/-! ### C11 -/

/-- C11 (counterexample): after an error has been recorded in the state
built by `NewModel`, the refresh key leaves `err` set and `View` still
returns the error screen. -/
theorem C11_counterexample :
    ((NewModel (some sampleClient) "" 100).Update
        (Msg.errMsg { text := "failed to get summary: status 500" })).1.err ≠ none
    ∧ ((((NewModel (some sampleClient) "" 100).Update
        (Msg.errMsg { text := "failed to get summary: status 500" })).1.Update
          (Msg.KeyMsg "r")).1.err ≠ none)
    ∧ (((NewModel (some sampleClient) "" 100).Update
        (Msg.errMsg { text := "failed to get summary: status 500" })).1.Update
          (Msg.KeyMsg "r")).1.View
        = some (errorScreen { text := "failed to get summary: status 500" }) := by
  refine ⟨by decide, by decide, ?_⟩
  simp [Model.Update, Model.updateKey, Model.View]

/-- C11 (amended): in a state with a recorded error, the refresh key sets
`loading = true` and leaves `err` as it is; no `Update` event ever clears
`err`, so after any further events `View` still returns the error screen. -/
theorem C11_refresh_keeps_error (m : Model) (e : GoError) (herr : m.err = some e) :
    (m.Update (Msg.KeyMsg "r")).1.err = some e
    ∧ (m.Update (Msg.KeyMsg "r")).1.loading = true
    ∧ (m.Update (Msg.KeyMsg "r")).1.View = some (errorScreen e)
    ∧ (∀ msgs : List Msg, (run m msgs).err ≠ none
        ∧ ∃ e1 : GoError, (run m msgs).View = some (errorScreen e1)) := by
  have h1 : (m.Update (Msg.KeyMsg "r")).1.err = some e := by
    simp [Model.Update, Model.updateKey, herr]
  refine ⟨h1, by simp [Model.Update, Model.updateKey], ?_, fun msgs => ?_⟩
  · unfold Model.View
    rw [h1]
  · have hne : (run m msgs).err ≠ none :=
      run_induction (fun m => m.err ≠ none) Update_err_ne_none msgs m (by simp [herr])
    refine ⟨hne, ?_⟩
    cases hr : (run m msgs).err with
    | none => exact absurd hr hne
    | some e1 => exact ⟨e1, by unfold Model.View; rw [hr]⟩

/-- C11 (amended) at a concrete input: the state after a failed summary
fetch. -/
theorem C11_refresh_keeps_error_witness :
    ((NewModel (some sampleClient) "" 100).Update
        (Msg.errMsg { text := "failed to get summary: status 500" })).1.err
      = some { text := "failed to get summary: status 500" }
    ∧ ((((NewModel (some sampleClient) "" 100).Update
        (Msg.errMsg { text := "failed to get summary: status 500" })).1.Update
          (Msg.KeyMsg "r")).1.err = some { text := "failed to get summary: status 500" }) :=
  ⟨rfl, (C11_refresh_keeps_error _ { text := "failed to get summary: status 500" } rfl).1⟩

end tui

namespace tui

/-! ### C12 -/

theorem indexAt_eq_some {α : Type} (xs : List α) (i : Int) (x : α)
    (h : indexAt xs i = some x) :
    0 ≤ i ∧ i < xs.length ∧ xs[i.toNat]? = some x := by
  unfold indexAt at h
  split_ifs at h with hneg
  have hlt := (List.getElem?_eq_some.1 h).1
  exact ⟨by omega, by omega, h⟩

theorem runDelete_congr (P : Provider) (m n : Model) (id : Int)
    (hd : n.demoMode = m.demoMode) (hc : n.client = m.client) :
    runDelete P n id = runDelete P m id := by
  unfold runDelete
  rw [hd, hc]

/-- C12 (counterexample): in the demo session the prev-tab key opens the
Queue tab with the cursor on the first of three documents; the delete key
returns one task holding identifier 1, but run with any provider the task
makes no client call: it does not delete the document and posts the
delete-success event. -/
theorem C12_counterexample :
    ((NewDemoModel 2025).Update (Msg.KeyMsg "h")).1.activeTab = TabQueue
    ∧ ((NewDemoModel 2025).Update (Msg.KeyMsg "h")).1.queue = some client.GetDemoQueue
    ∧ client.GetDemoQueue.Items.length = 3
    ∧ ((NewDemoModel 2025).Update (Msg.KeyMsg "h")).1.cursor = 0
    ∧ (indexAt client.GetDemoQueue.Items 0).map client.QueuedExpense.Id = some 1
    ∧ (((NewDemoModel 2025).Update (Msg.KeyMsg "h")).1.Update (Msg.KeyMsg "d")).2
        = some (Cmd.deleteExpense
            { ((NewDemoModel 2025).Update (Msg.KeyMsg "h")).1 with loading := true } 1)
    ∧ (∀ P : Provider,
        cmdCalls P (((NewDemoModel 2025).Update (Msg.KeyMsg "h")).1.Update (Msg.KeyMsg "d")).2
          = []
        ∧ (Cmd.deleteExpense
            { ((NewDemoModel 2025).Update (Msg.KeyMsg "h")).1 with loading := true } 1).exec P
          = [{ calls := [], msg := some Msg.deleteSuccessMsg }]) := by
  have hcmd : (((NewDemoModel 2025).Update (Msg.KeyMsg "h")).1.Update (Msg.KeyMsg "d")).2
      = some (Cmd.deleteExpense
          { ((NewDemoModel 2025).Update (Msg.KeyMsg "h")).1 with loading := true } 1) := rfl
  refine ⟨by decide, by decide, rfl, by decide, by decide, hcmd, fun P => ⟨?_, rfl⟩⟩
  rw [hcmd]
  rfl

/-- C12 (amended): on the Queue tab with a cursor inside the queue, each
delete key sets `loading = true` and returns exactly one command, the delete
task holding the identifier of `queue.Items[cursor]` read at the key press;
run outside demo mode with a client it makes the single call
`DeleteExpense(id)`, in demo mode it makes no call and posts the
delete-success event; and the task uses the captured identifier whatever
events are reduced afterwards. -/
theorem C12_delete_captures_id (m : Model) (q : client.QueuedExpenseResponse)
    (it : client.QueuedExpense) (key : String) (hkey : key ∈ deleteKeys)
    (htab : m.activeTab = TabQueue) (hq : m.queue = some q)
    (hit : indexAt q.Items m.cursor = some it) :
    m.Update (Msg.KeyMsg key)
      = ({ m with loading := true }, some (Cmd.deleteExpense { m with loading := true } it.Id))
    ∧ (∀ P : Provider, (Cmd.deleteExpense { m with loading := true } it.Id).exec P
        = [runDelete P { m with loading := true } it.Id])
    ∧ (∀ (P : Provider) (c : client.Client), m.demoMode = false → m.client = some c →
        (runDelete P { m with loading := true } it.Id).calls = [Call.DeleteExpense it.Id])
    ∧ (∀ P : Provider, m.demoMode = true →
        runDelete P { m with loading := true } it.Id
          = { calls := [], msg := some Msg.deleteSuccessMsg })
    ∧ (∀ (P : Provider) (msgs : List Msg),
        runDelete P (run { m with loading := true } msgs) it.Id
          = runDelete P { m with loading := true } it.Id) := by
  obtain ⟨h0, h1, h2⟩ := indexAt_eq_some _ _ _ hit
  have hget : ∀ (hb : m.cursor.toNat < q.Items.length), q.Items.get ⟨m.cursor.toNat, hb⟩ = it := by
    intro hb
    have := List.getElem?_eq_getElem hb
    rw [h2] at this
    exact (Option.some.inj this).symm
  have hne : q.Items.length ≠ 0 := by omega
  refine ⟨?_, fun P => rfl, fun P c hd hc => ?_, fun P hd => ?_, fun P msgs => ?_⟩
  · simp only [deleteKeys, List.mem_cons, List.mem_singleton, List.not_mem_nil, or_false] at hkey
    have hcmd : Model.deleteSelectedExpense { m with loading := true }
        = some (Cmd.deleteExpense { m with loading := true } it.Id) := by
      unfold Model.deleteSelectedExpense
      simp only [htab, hq, ne_eq, not_true_eq_false, if_false, hne]
      rw [dif_neg (by omega)]
      simp only [hget]
    have hk : m.updateKey key
        = (if m.activeTab = TabQueue then
            ({ m with loading := true }, Model.deleteSelectedExpense { m with loading := true })
          else (m, none)) := by
      rcases hkey with rfl | rfl | rfl <;> simp [Model.updateKey]
    show m.updateKey key = _
    rw [hk, if_pos htab, hcmd]
  · simp [runDelete, hd, hc]
    cases P.DeleteExpense it.Id <;> rfl
  · simp [runDelete, hd]
  · exact runDelete_congr P _ _ _ (run_demoMode_client msgs _).1 (run_demoMode_client msgs _).2

/-- C12 (amended) at a concrete input: the queue of three documents, cursor
on the second one, key `d`: the task holds identifier 2. -/
theorem C12_delete_captures_id_witness :
    (run (NewModel (some sampleClient) "" 100) (deleteLastTrace.take 3)).activeTab = TabQueue
    ∧ (run (NewModel (some sampleClient) "" 100) (deleteLastTrace.take 3)).cursor = 1
    ∧ ((run (NewModel (some sampleClient) "" 100) (deleteLastTrace.take 3)).Update
        (Msg.KeyMsg "d")).2
      = some (Cmd.deleteExpense
          { run (NewModel (some sampleClient) "" 100) (deleteLastTrace.take 3) with
            loading := true } 2) :=
  ⟨by decide, by decide,
    congrArg Prod.snd
      (C12_delete_captures_id (run (NewModel (some sampleClient) "" 100) (deleteLastTrace.take 3))
        client.GetDemoQueue
        { Id := 2, DocumentCode := "doc-002", DocumentName := "bon_fiscal_carburant.jpg",
          DocumentMimeType := "image/jpeg", CreatedOn := "2025-01-18", DaysPassed := 7,
          ProcessingDeadline := "2025-02-02", IsOverdue := false }
        "d" (by decide) (by decide) (by decide) (by decide)).1⟩

/-! ### C13 -/

/-- C13: for every state, `Update` on the delete-success event sets
`loading = true`, changes nothing else, and returns exactly one command, the
queue fetch; run, it makes the single call `ListQueuedExpenses`, and none of
the other five fetches. -/
theorem C13_delete_success_refetches_queue (m : Model) :
    m.Update Msg.deleteSuccessMsg
      = ({ m with loading := true }, some (Cmd.fetchQueue { m with loading := true }))
    ∧ (∀ P : Provider, (Cmd.fetchQueue { m with loading := true }).exec P
        = [Model.fetchQueue P { m with loading := true }])
    ∧ (∀ P : Provider, cmdCalls P (m.Update Msg.deleteSuccessMsg).2
        = [Call.ListQueuedExpenses m.queueOffset m.pageSize])
    ∧ (m.Update Msg.deleteSuccessMsg).1.loading = true
    ∧ (m.Update Msg.deleteSuccessMsg).1.summary = m.summary
    ∧ (m.Update Msg.deleteSuccessMsg).1.company = m.company
    ∧ (m.Update Msg.deleteSuccessMsg).1.revenues = m.revenues
    ∧ (m.Update Msg.deleteSuccessMsg).1.expenses = m.expenses
    ∧ (m.Update Msg.deleteSuccessMsg).1.queue = m.queue
    ∧ (m.Update Msg.deleteSuccessMsg).1.efactura = m.efactura
    ∧ (m.Update Msg.deleteSuccessMsg).1.activeTab = m.activeTab
    ∧ (m.Update Msg.deleteSuccessMsg).1.cursor = m.cursor
    ∧ (m.Update Msg.deleteSuccessMsg).1.viewportOffset = m.viewportOffset := by
  refine ⟨rfl, fun P => rfl, fun P => ?_, rfl, rfl, rfl, rfl, rfl, rfl, rfl, rfl, rfl, rfl⟩
  simp only [Model.Update, cmdCalls, Cmd.calls, Cmd.exec, Model.fetchQueue]
  cases m.client with
  | none => simp
  | some c =>
    rcases hP : P.ListQueuedExpenses m.queueOffset m.pageSize with ⟨v, _ | err⟩ <;> simp

end tui

namespace tui

/-! ### C14 -/

/-- C14: the state built by `NewDemoModel` has `loading = false`, no error,
the Dashboard tab, cursor and viewport offset 0, and the six slots filled
with the demo payloads: 8 revenues, 8 expenses, 3 queue items and 5
e-invoices. -/
theorem C14_demo_initial_state (year : Int) :
    (NewDemoModel year).loading = false
    ∧ (NewDemoModel year).err = none
    ∧ (NewDemoModel year).activeTab = TabDashboard
    ∧ (NewDemoModel year).cursor = 0
    ∧ (NewDemoModel year).viewportOffset = 0
    ∧ (NewDemoModel year).summary = some (client.GetDemoSummary year)
    ∧ (NewDemoModel year).company = some client.GetDemoCompany
    ∧ (NewDemoModel year).revenues = some client.GetDemoRevenues
    ∧ (NewDemoModel year).expenses = some client.GetDemoExpenses
    ∧ (NewDemoModel year).queue = some client.GetDemoQueue
    ∧ (NewDemoModel year).efactura = some client.GetDemoEFactura
    ∧ client.GetDemoRevenues.Items.length = 8
    ∧ client.GetDemoExpenses.Items.length = 8
    ∧ client.GetDemoQueue.Items.length = 3
    ∧ client.GetDemoEFactura.Items.length = 5 :=
  ⟨rfl, rfl, rfl, rfl, rfl, rfl, rfl, rfl, rfl, rfl, rfl, rfl, rfl, rfl, rfl⟩

/-! ### C15 -/

/-- C15 (the code at the failing input): in the demo state `Init` returns
the spinner tick only and the delete task makes no client call, but the
refresh key returns the batch of the six fetches, and so does the
delete-success event return the queue fetch; run on the nil client of demo
mode, each of them except the company fetch calls a client method and
panics. -/
theorem C15_demo_refresh_dispatches_fetches (year : Int) (P : Provider) :
    (NewDemoModel year).Init
      = Cmd.spinnerTick (NewDemoModel year).spinner.id (NewDemoModel year).spinner.tag
    ∧ (∀ id : Int, runDelete P (NewDemoModel year) id
        = { calls := [], msg := some Msg.deleteSuccessMsg })
    ∧ ((NewDemoModel year).Update (Msg.KeyMsg "r")).2
        = some (Cmd.Batch [
            Cmd.fetchSummary ((NewDemoModel year).Update (Msg.KeyMsg "r")).1,
            Cmd.fetchCompany ((NewDemoModel year).Update (Msg.KeyMsg "r")).1,
            Cmd.fetchRevenues ((NewDemoModel year).Update (Msg.KeyMsg "r")).1,
            Cmd.fetchExpenses ((NewDemoModel year).Update (Msg.KeyMsg "r")).1,
            Cmd.fetchQueue ((NewDemoModel year).Update (Msg.KeyMsg "r")).1,
            Cmd.fetchEFactura ((NewDemoModel year).Update (Msg.KeyMsg "r")).1])
    ∧ (match ((NewDemoModel year).Update (Msg.KeyMsg "r")).2 with
        | some cmd => cmd.exec P
        | none => [])
        = [ { calls := [Call.GetSummary], msg := none },
            { calls := [], msg := some (Msg.companyMsg none) },
            { calls := [Call.ListRevenues 0 100], msg := none },
            { calls := [Call.ListExpenses 0 100], msg := none },
            { calls := [Call.ListQueuedExpenses 0 100], msg := none },
            { calls := [Call.ListEFactura 0 100], msg := none } ]
    ∧ (match ((NewDemoModel year).Update Msg.deleteSuccessMsg).2 with
        | some cmd => cmd.exec P
        | none => [])
        = [ { calls := [Call.ListQueuedExpenses 0 100], msg := none } ] := by
  refine ⟨rfl, fun id => rfl, ?_, ?_, ?_⟩
  · simp [Model.Update, Model.updateKey]
  · simp [Model.Update, Model.updateKey, Cmd.exec, Cmd.execAll, Model.fetchSummary,
      Model.fetchCompany, Model.fetchRevenues, Model.fetchExpenses, Model.fetchQueue,
      Model.fetchEFactura, NewDemoModel]
  · simp [Model.Update, Cmd.exec, Model.fetchQueue, NewDemoModel]

/-! ### C16 -/

/-- C16: for every client, company id and page size `p`, `NewModel` returns
a state with `loading = true`, no error, six empty slots, the Dashboard tab,
cursor and viewport offset 0, viewport size 10, the three pagination offsets
0, and `pageSize = p` when `p > 0`, `pageSize = 100` when `p ≤ 0`: the page
size is positive. -/
theorem C16_NewModel_initial_state (c : Option client.Client) (companyID : String) (p : Int) :
    (NewModel c companyID p).loading = true
    ∧ (NewModel c companyID p).err = none
    ∧ (NewModel c companyID p).summary = none
    ∧ (NewModel c companyID p).company = none
    ∧ (NewModel c companyID p).revenues = none
    ∧ (NewModel c companyID p).expenses = none
    ∧ (NewModel c companyID p).queue = none
    ∧ (NewModel c companyID p).efactura = none
    ∧ (NewModel c companyID p).activeTab = TabDashboard
    ∧ (NewModel c companyID p).cursor = 0
    ∧ (NewModel c companyID p).viewportOffset = 0
    ∧ (NewModel c companyID p).viewportSize = 10
    ∧ (NewModel c companyID p).revenueOffset = 0
    ∧ (NewModel c companyID p).expenseOffset = 0
    ∧ (NewModel c companyID p).queueOffset = 0
    ∧ (NewModel c companyID p).client = c
    ∧ (NewModel c companyID p).companyID = companyID
    ∧ (NewModel c companyID p).demoMode = false
    ∧ (0 < p → (NewModel c companyID p).pageSize = p)
    ∧ (p ≤ 0 → (NewModel c companyID p).pageSize = 100)
    ∧ 0 < (NewModel c companyID p).pageSize := by
  refine ⟨rfl, rfl, rfl, rfl, rfl, rfl, rfl, rfl, rfl, rfl, rfl, rfl, rfl, rfl, rfl, rfl, rfl,
    rfl, fun h => ?_, fun h => ?_, ?_⟩
  · simp only [NewModel]; rw [if_neg (by omega)]
  · simp only [NewModel]; rw [if_pos h]
  · simp only [NewModel]; split_ifs <;> omega

/-- C16 at concrete inputs: page size 25 is kept, page size 0 becomes 100. -/
theorem C16_NewModel_initial_state_witness :
    (NewModel (some sampleClient) "42" 25).pageSize = 25
    ∧ (NewModel (some sampleClient) "42" 0).pageSize = 100 :=
  ⟨(C16_NewModel_initial_state (some sampleClient) "42" 25).2.2.2.2.2.2.2.2.2.2.2.2.2.2.2.2.2.2.1
      (by decide),
    (C16_NewModel_initial_state (some sampleClient) "42" 0).2.2.2.2.2.2.2.2.2.2.2.2.2.2.2.2.2.2.2.1
      (by decide)⟩

/-! ### C17 -/

/-- C17: in every state with a recorded error `e`, `View` returns exactly the
error screen, the error style applied to `"Error: " e` followed by
`"Press q to quit"`, and nothing else: two states with the same recorded
error have the same view, whatever their other fields. -/
theorem C17_error_screen_only (m : Model) (e : GoError) (herr : m.err = some e) :
    m.View = some (errorScreen e)
    ∧ errorScreen e
        = Text.Render Style.ErrorStyle
            (Text.Sprintf "Error: %v\n\nPress q to quit" [Text.err e])
    ∧ (∀ n : Model, n.err = m.err → n.View = m.View) := by
  have h1 : m.View = some (errorScreen e) := by unfold Model.View; rw [herr]
  refine ⟨h1, rfl, fun n hn => ?_⟩
  rw [h1]
  unfold Model.View
  rw [hn, herr]

/-- C17 at a concrete input: the demo state with an error recorded shows the
error screen, not the dashboard. -/
theorem C17_error_screen_only_witness :
    ((NewDemoModel 2025).Update (Msg.errMsg { text := "boom" })).1.err = some { text := "boom" }
    ∧ ((NewDemoModel 2025).Update (Msg.errMsg { text := "boom" })).1.View
        = some (errorScreen { text := "boom" }) :=
  ⟨rfl, (C17_error_screen_only _ { text := "boom" } rfl).1⟩

end tui

namespace main

/-! ### C18 -/

theorem scanConfigFlag_skip (args : List String) (i : Nat)
    (hfirst : ∀ j, j < i → ∀ b, args[j]? = some b → ¬ isConfigFlag b) :
    ∀ d k, k + d = i → scanConfigFlag args k = scanConfigFlag args i := by
  intro d
  induction d with
  | zero => intro k hk; simp at hk; rw [hk]
  | succ d ih =>
    intro k hk
    have hki : k < i := by omega
    by_cases hlen : k < args.length
    · have hnot : ¬ (args[k] = "--config" ∨ args[k] = "-c") :=
        hfirst k hki args[k] (List.getElem?_eq_getElem hlen)
      rw [scanConfigFlag, dif_pos hlen, if_neg hnot]
      exact ih (k + 1) (by omega)
    · have hi : ¬ i < args.length := by omega
      rw [scanConfigFlag, dif_neg hlen, scanConfigFlag, dif_neg hi]

theorem scanConfigFlag_none (args : List String)
    (hnone : ∀ a ∈ args, ¬ isConfigFlag a) :
    scanConfigFlag args 0 = FlagResult.dispatch none args := by
  have h := scanConfigFlag_skip args args.length
    (fun j _ b hb => hnone b (List.getElem?_mem hb)) args.length 0 (by omega)
  rw [h, scanConfigFlag, dif_neg (by omega)]

/-- C18: when the first `--config` or `-c` of the argument list is at index
`i` and an argument follows it, the config path is set to `args[i+1]` and
command dispatch receives the list without the elements at `i` and `i+1`,
the others in order (so `-c path rev` dispatches `rev`); when that first
occurrence is the last argument the program writes an error and exits with
status 1; when there is no occurrence the arguments are unchanged and no
path is set. -/
theorem C18_config_flag_parsing :
    (∀ (args : List String) (i : Nat) (a v : String),
        args[i]? = some a → isConfigFlag a →
        (∀ j, j < i → ∀ b, args[j]? = some b → ¬ isConfigFlag b) →
        args[i + 1]? = some v →
        scanConfigFlag args 0
          = FlagResult.dispatch (some v) (args.take i ++ args.drop (i + 2)))
    ∧ (∀ (args : List String) (i : Nat) (a : String),
        args[i]? = some a → isConfigFlag a →
        (∀ j, j < i → ∀ b, args[j]? = some b → ¬ isConfigFlag b) →
        i + 1 = args.length →
        scanConfigFlag args 0
          = FlagResult.exit 1 "Error: --config requires a path argument\n")
    ∧ (∀ args : List String, (∀ a ∈ args, ¬ isConfigFlag a) →
        scanConfigFlag args 0 = FlagResult.dispatch none args)
    ∧ scanConfigFlag ["-c", "path", "rev"] 0 = FlagResult.dispatch (some "path") ["rev"] := by
  refine ⟨fun args i a v ha hflag hfirst hv => ?_, fun args i a ha hflag hfirst hlast => ?_,
    scanConfigFlag_none, ?_⟩
  · obtain ⟨hi, hai⟩ := List.getElem?_eq_some.1 ha
    obtain ⟨hi1, hvi⟩ := List.getElem?_eq_some.1 hv
    rw [scanConfigFlag_skip args i hfirst i 0 (by omega), scanConfigFlag, dif_pos hi,
      if_pos (by rw [hai]; exact hflag), dif_pos hi1, hvi]
  · obtain ⟨hi, hai⟩ := List.getElem?_eq_some.1 ha
    rw [scanConfigFlag_skip args i hfirst i 0 (by omega), scanConfigFlag, dif_pos hi,
      if_pos (by rw [hai]; exact hflag), dif_neg (by omega)]
  · simp [scanConfigFlag]

/-- C18 at concrete inputs: a flag in the middle of the list, and a flag in
last position. -/
theorem C18_config_flag_parsing_witness :
    scanConfigFlag ["queue", "--config", "my.json", "delete", "7"] 0
      = FlagResult.dispatch (some "my.json") ["queue", "delete", "7"]
    ∧ scanConfigFlag ["rev", "-c"] 0
      = FlagResult.exit 1 "Error: --config requires a path argument\n"
    ∧ scanConfigFlag ["summary", "2025"] 0 = FlagResult.dispatch none ["summary", "2025"] :=
  ⟨C18_config_flag_parsing.1 ["queue", "--config", "my.json", "delete", "7"] 1 "--config"
      "my.json" rfl (Or.inl rfl)
      (fun j hj b hb => by
        have hj0 : j = 0 := by omega
        subst hj0
        simp at hb
        subst hb
        simp [isConfigFlag])
      rfl,
    C18_config_flag_parsing.2.1 ["rev", "-c"] 1 "-c" rfl (Or.inr rfl)
      (fun j hj b hb => by
        have hj0 : j = 0 := by omega
        subst hj0
        simp at hb
        subst hb
        simp [isConfigFlag])
      rfl,
    C18_config_flag_parsing.2.2.1 ["summary", "2025"] (by simp [isConfigFlag])⟩

end main

namespace client

/-! ### C19 -/

theorem foldl_loadCookieStep (now : Int) (saved : List SavedCookie) :
    ∀ (acc : List HttpCookie) (b : Bool),
      saved.foldl (loadCookieStep now) (acc, b)
        = (acc ++ (saved.filter (SavedCookie.notExpired now)).map SavedCookie.toHttp,
            b || saved.any (fun sc => sc.notExpired now && decide (sc.Name = "solo_auth"))) := by
  induction saved with
  | nil => intro acc b; simp
  | cons sc l ih =>
    intro acc b
    rw [List.foldl_cons]
    by_cases hexp : sc.Expires ≠ 0 ∧ sc.Expires < now
    · have hne : sc.notExpired now = false := by
        simp only [SavedCookie.notExpired, decide_eq_false_iff_not]
        omega
      rw [show loadCookieStep now (acc, b) sc = (acc, b) by
        simp only [loadCookieStep]; rw [if_pos hexp]]
      rw [ih]
      simp [List.filter_cons, hne]
    · have hne : sc.notExpired now = true := by
        simp only [SavedCookie.notExpired, decide_eq_true_eq]
        omega
      rw [show loadCookieStep now (acc, b) sc
          = (acc ++ [sc.toHttp], if sc.Name = "solo_auth" then true else b) by
        simp only [loadCookieStep]; rw [if_neg hexp]; rfl]
      rw [ih]
      by_cases hname : sc.Name = "solo_auth" <;> simp [List.filter_cons, hne, hname]

theorem LoadCookies_saved (now : Int) (saved : List SavedCookie) :
    LoadCookies (CookieFile.saved saved) now
      = if saved.any (fun sc => sc.notExpired now && decide (sc.Name = "solo_auth")) then
          { ok := true, err := none
            setCookies := some ((saved.filter (SavedCookie.notExpired now)).map
              SavedCookie.toHttp) }
        else { ok := false, err := none, setCookies := none } := by
  cases saved with
  | nil => simp [LoadCookies]
  | cons sc l =>
    simp only [LoadCookies, List.length_cons, Nat.succ_ne_zero, if_false]
    rw [foldl_loadCookieStep]
    simp only [Bool.false_or, List.nil_append]
    split_ifs <;> simp_all

/-- C19: `LoadCookies` returns true exactly when the saved list has a cookie
named `solo_auth` that has not expired (expiry zero, or not before now);
when it returns true, the cookies given to the jar are the saved cookies that
have not expired, in saved order, with their five fields; when it returns
false (no path, no file, unreadable file, invalid JSON, empty list, no valid
auth cookie) the jar is not touched. -/
theorem C19_LoadCookies (now : Int) :
    (∀ saved : List SavedCookie,
        (LoadCookies (CookieFile.saved saved) now).ok = true
          ↔ ∃ sc ∈ saved, sc.Name = "solo_auth" ∧ (sc.Expires = 0 ∨ ¬ sc.Expires < now))
    ∧ (∀ file : CookieFile, (LoadCookies file now).ok = true →
        ∃ saved : List SavedCookie, file = CookieFile.saved saved
          ∧ (LoadCookies file now).setCookies
              = some ((saved.filter (fun sc => decide (sc.Expires = 0 ∨ ¬ sc.Expires < now))).map
                  (fun sc =>
                    { Name := sc.Name, Value := sc.Value, Domain := sc.Domain, Path := sc.Path,
                      Expires := sc.Expires })))
    ∧ (∀ file : CookieFile, (LoadCookies file now).ok = false →
        (LoadCookies file now).setCookies = none)
    ∧ (∀ err : GoError, (LoadCookies (CookieFile.noPath err) now).ok = false)
    ∧ (LoadCookies CookieFile.notExist now).ok = false
    ∧ (∀ err : GoError, (LoadCookies (CookieFile.unreadable err) now).ok = false)
    ∧ (LoadCookies CookieFile.invalidJSON now).ok = false
    ∧ (LoadCookies (CookieFile.saved []) now).ok = false := by
  refine ⟨fun saved => ?_, fun file hok => ?_, fun file hok => ?_, fun _ => rfl, rfl,
    fun _ => rfl, rfl, rfl⟩
  · rw [LoadCookies_saved]
    split_ifs with h
    · simp only [true_iff]
      obtain ⟨sc, hsc, hp⟩ := List.any_eq_true.1 h
      simp only [SavedCookie.notExpired, Bool.and_eq_true, decide_eq_true_eq] at hp
      exact ⟨sc, hsc, hp.2, hp.1⟩
    · simp only [Bool.false_eq_true, false_iff]
      rintro ⟨sc, hsc, hname, hexp⟩
      apply h
      refine List.any_eq_true.2 ⟨sc, hsc, ?_⟩
      simp only [SavedCookie.notExpired, Bool.and_eq_true, decide_eq_true_eq]
      exact ⟨hexp, hname⟩
  · cases file with
    | saved saved =>
      refine ⟨saved, rfl, ?_⟩
      rw [LoadCookies_saved] at hok ⊢
      split_ifs at hok ⊢ with h
      rfl
    | _ => simp [LoadCookies] at hok
  · cases file with
    | saved saved =>
      rw [LoadCookies_saved] at hok ⊢
      split_ifs at hok ⊢ with h
      rfl
    | _ => rfl

/-- C19 at a concrete input: an expired tracker cookie, a session cookie
without expiry and a valid auth cookie, at time 1000. -/
theorem C19_LoadCookies_witness :
    (LoadCookies (CookieFile.saved
        [ { Name := "tracker", Value := "t", Domain := "falcon.solo.ro", Path := "/",
            Expires := 500 },
          { Name := "lang", Value := "ro", Domain := "falcon.solo.ro", Path := "/",
            Expires := 0 },
          { Name := "solo_auth", Value := "abc", Domain := "falcon.solo.ro", Path := "/",
            Expires := 2000 } ]) 1000).ok = true
    ∧ (LoadCookies (CookieFile.saved
        [ { Name := "tracker", Value := "t", Domain := "falcon.solo.ro", Path := "/",
            Expires := 500 },
          { Name := "lang", Value := "ro", Domain := "falcon.solo.ro", Path := "/",
            Expires := 0 },
          { Name := "solo_auth", Value := "abc", Domain := "falcon.solo.ro", Path := "/",
            Expires := 2000 } ]) 1000).setCookies
      = some
        [ { Name := "lang", Value := "ro", Domain := "falcon.solo.ro", Path := "/",
            Expires := 0 },
          { Name := "solo_auth", Value := "abc", Domain := "falcon.solo.ro", Path := "/",
            Expires := 2000 } ] :=
  have hok := ((C19_LoadCookies 1000).1
      [ { Name := "tracker", Value := "t", Domain := "falcon.solo.ro", Path := "/",
          Expires := 500 },
        { Name := "lang", Value := "ro", Domain := "falcon.solo.ro", Path := "/",
          Expires := 0 },
        { Name := "solo_auth", Value := "abc", Domain := "falcon.solo.ro", Path := "/",
          Expires := 2000 } ]).2
      ⟨{ Name := "solo_auth", Value := "abc", Domain := "falcon.solo.ro", Path := "/",
          Expires := 2000 }, by decide, rfl, Or.inr (by decide)⟩
  ⟨hok, by decide⟩

end client

namespace tui

/-! ### C20 -/

theorem loading_false_step (m : Model) (x : Msg) (hx : x.keepsMandatory = true)
    (h : m.loading = false → m.err ≠ none ∨ m.mandatoryLoaded) :
    (m.Update x).1.loading = false → (m.Update x).1.err ≠ none ∨ (m.Update x).1.mandatoryLoaded := by
  cases x with
  | KeyMsg key =>
    obtain ⟨he, h1, h2, h3, h4, h5, _, _, hl⟩ := updateKey_frame m key
    intro hf
    change (m.updateKey key).1.loading = false at hf
    change (m.updateKey key).1.err ≠ none ∨ (m.updateKey key).1.mandatoryLoaded
    simp only [Model.mandatoryLoaded, he, h1, h2, h3, h4, h5]
    rcases hl with hl | hl
    · rw [hl] at hf; exact absurd hf (by simp)
    · rw [hl] at hf; exact h hf
  | errMsg e => intro _; left; simp [Model.Update]
  | deleteSuccessMsg => intro hf; simp [Model.Update] at hf
  | summaryMsg p =>
    cases p with
    | none => simp [Msg.keepsMandatory] at hx
    | some v =>
      simp only [Model.Update, checkLoadingDone_loading, checkLoadingDone_err]
      rw [checkLoadingDone_frame]
      simp only [Model.mandatoryLoaded] at h ⊢
      split_ifs with hc
      · simp_all
      · simp_all; tauto
  | revenuesMsg p =>
    cases p with
    | none => simp [Msg.keepsMandatory] at hx
    | some v =>
      simp only [Model.Update, checkLoadingDone_loading, checkLoadingDone_err]
      rw [checkLoadingDone_frame]
      simp only [Model.mandatoryLoaded] at h ⊢
      split_ifs with hc
      · simp_all
      · simp_all; tauto
  | expensesMsg p =>
    cases p with
    | none => simp [Msg.keepsMandatory] at hx
    | some v =>
      simp only [Model.Update, checkLoadingDone_loading, checkLoadingDone_err]
      rw [checkLoadingDone_frame]
      simp only [Model.mandatoryLoaded] at h ⊢
      split_ifs with hc
      · simp_all
      · simp_all; tauto
  | queueMsg p =>
    cases p with
    | none => simp [Msg.keepsMandatory] at hx
    | some v =>
      simp only [Model.Update, checkLoadingDone_loading, checkLoadingDone_err]
      rw [checkLoadingDone_frame]
      simp only [Model.mandatoryLoaded] at h ⊢
      split_ifs with hc
      · simp_all
      · simp_all; tauto
  | efacturaMsg p =>
    cases p with
    | none => simp [Msg.keepsMandatory] at hx
    | some v =>
      simp only [Model.Update, checkLoadingDone_loading, checkLoadingDone_err]
      rw [checkLoadingDone_frame]
      simp only [Model.mandatoryLoaded] at h ⊢
      split_ifs with hc
      · simp_all
      · simp_all; tauto
  | _ => exact h

/-- C20: in every state reached from `NewModel` by keys, resizes, ticks,
delete-success, error events and resource events whose mandatory payloads
are non-nil, `loading = false` implies that an error is recorded or that
the five mandatory slots are all non-nil. -/
theorem C20_loading_false_implies (c : Option client.Client) (companyID : String)
    (pageSize : Int) (msgs : List Msg) (hmsgs : ∀ x ∈ msgs, x.keepsMandatory = true) :
    (run (NewModel c companyID pageSize) msgs).loading = false →
      (run (NewModel c companyID pageSize) msgs).err ≠ none
      ∨ ((run (NewModel c companyID pageSize) msgs).summary ≠ none
        ∧ (run (NewModel c companyID pageSize) msgs).revenues ≠ none
        ∧ (run (NewModel c companyID pageSize) msgs).expenses ≠ none
        ∧ (run (NewModel c companyID pageSize) msgs).queue ≠ none
        ∧ (run (NewModel c companyID pageSize) msgs).efactura ≠ none) := by
  have key : ∀ (l : List Msg) (m : Model), (∀ x ∈ l, x.keepsMandatory = true) →
      (m.loading = false → m.err ≠ none ∨ m.mandatoryLoaded) →
      ((run m l).loading = false → (run m l).err ≠ none ∨ (run m l).mandatoryLoaded) := by
    intro l
    induction l with
    | nil => intro m _ h; exact h
    | cons x l ih =>
      intro m hall h
      exact ih _ (fun y hy => hall y (List.mem_cons_of_mem _ hy))
        (loading_false_step m x (hall x (List.mem_cons_self _ _)) h)
  exact key msgs _ hmsgs (by intro h; simp [NewModel] at h)

/-- C20 at a concrete input: a failed fetch, the refresh key and a queue
result leave `loading = true`; the check applies to the state after the
error alone, where `loading = false` and the error is recorded. -/
theorem C20_loading_false_implies_witness :
    (∀ x ∈ [Msg.errMsg { text := "boom" }], x.keepsMandatory = true)
    ∧ (run (NewModel (some sampleClient) "" 100) [Msg.errMsg { text := "boom" }]).loading = false
    ∧ ((run (NewModel (some sampleClient) "" 100) [Msg.errMsg { text := "boom" }]).err ≠ none
      ∨ ((run (NewModel (some sampleClient) "" 100) [Msg.errMsg { text := "boom" }]).summary ≠ none
        ∧ (run (NewModel (some sampleClient) "" 100) [Msg.errMsg { text := "boom" }]).revenues
            ≠ none
        ∧ (run (NewModel (some sampleClient) "" 100) [Msg.errMsg { text := "boom" }]).expenses
            ≠ none
        ∧ (run (NewModel (some sampleClient) "" 100) [Msg.errMsg { text := "boom" }]).queue ≠ none
        ∧ (run (NewModel (some sampleClient) "" 100) [Msg.errMsg { text := "boom" }]).efactura
            ≠ none)) :=
  ⟨by decide, by decide,
    C20_loading_false_implies (some sampleClient) "" 100 [Msg.errMsg { text := "boom" }]
      (by decide) (by decide)⟩

end tui

namespace tui

/-! ### C21 -/

/-- C21 (the code where the delete key is not meaningful): the key launches
no task; outside the Queue tab the state is unchanged, but on the Queue tab
(empty slot, empty list or cursor outside the list) `loading` is set to
`true` although no task is launched, so a state with `loading = false` is
changed. -/
theorem C21_delete_without_target_sets_loading (m : Model) (key : String)
    (hkey : key ∈ deleteKeys)
    (hno : m.activeTab ≠ TabQueue ∨ m.queue = none
      ∨ ∃ q, m.queue = some q
          ∧ (q.Items.length = 0 ∨ m.cursor < 0 ∨ m.cursor ≥ q.Items.length)) :
    (m.Update (Msg.KeyMsg key)).2 = none
    ∧ (m.activeTab ≠ TabQueue → (m.Update (Msg.KeyMsg key)).1 = m)
    ∧ (m.activeTab = TabQueue → (m.Update (Msg.KeyMsg key)).1 = { m with loading := true })
    ∧ (m.activeTab = TabQueue → m.loading = false → (m.Update (Msg.KeyMsg key)).1 ≠ m)
    ∧ (m.activeTab = TabQueue → m.err = none →
        (m.Update (Msg.KeyMsg key)).1.View = some (loadingScreen m)) := by
  simp only [deleteKeys, List.mem_cons, List.mem_singleton, List.not_mem_nil, or_false] at hkey
  have hk : m.updateKey key =
      (if m.activeTab = TabQueue then
        ({ m with loading := true }, Model.deleteSelectedExpense { m with loading := true })
      else (m, none)) := by
    rcases hkey with rfl | rfl | rfl <;> simp [Model.updateKey]
  have hdel : m.activeTab = TabQueue →
      Model.deleteSelectedExpense { m with loading := true } = none := by
    intro htab
    rcases hno with h | h | ⟨q, hq, h⟩
    · exact absurd htab h
    · simp [Model.deleteSelectedExpense, h]
    · unfold Model.deleteSelectedExpense
      simp only [hq]
      split_ifs <;> first | rfl | omega
  have hU : m.Update (Msg.KeyMsg key) = m.updateKey key := rfl
  rw [hU, hk]
  by_cases htab : m.activeTab = TabQueue
  · rw [if_pos htab]
    refine ⟨hdel htab, fun h => absurd htab h, fun _ => rfl, fun _ hl hcontra => ?_, fun _ he => ?_⟩
    · have := congrArg Model.loading hcontra
      simp [hl] at this
    · simp [Model.View, he, loadingScreen, Model.renderTabs]
  · rw [if_neg htab]
    exact ⟨rfl, fun _ => rfl, fun h => absurd h htab, fun h => absurd h htab,
      fun h => absurd h htab⟩

/-- C21 at the failing input: after a session start whose queue is empty, on
the Queue tab with `loading = false`, the key `d` returns no command and
sets `loading = true`. -/
theorem C21_delete_without_target_sets_loading_witness :
    (run (NewModel (some sampleClient) "42" 100) emptyQueueTrace).activeTab = TabQueue
    ∧ (run (NewModel (some sampleClient) "42" 100) emptyQueueTrace).queue = some emptyQueue
    ∧ (run (NewModel (some sampleClient) "42" 100) emptyQueueTrace).loading = false
    ∧ ((run (NewModel (some sampleClient) "42" 100) emptyQueueTrace).Update (Msg.KeyMsg "d")).2
        = none
    ∧ ((run (NewModel (some sampleClient) "42" 100) emptyQueueTrace).Update (Msg.KeyMsg "d")).1
        = { run (NewModel (some sampleClient) "42" 100) emptyQueueTrace with loading := true }
    ∧ ((run (NewModel (some sampleClient) "42" 100) emptyQueueTrace).Update (Msg.KeyMsg "d")).1
        ≠ run (NewModel (some sampleClient) "42" 100) emptyQueueTrace :=
  have h := C21_delete_without_target_sets_loading
    (run (NewModel (some sampleClient) "42" 100) emptyQueueTrace) "d" (by decide)
    (Or.inr (Or.inr ⟨emptyQueue, by decide, Or.inl (by decide)⟩))
  ⟨by decide, by decide, by decide, h.1, h.2.2.1 (by decide), h.2.2.2.1 (by decide) (by decide)⟩

/-! ### C22 -/

/-- C22: for every state and every resource event with payload `p`, `Update`
stores `p` in the slot of the event and changes nothing else except
`loading`; the same holds after any events reduced in between (refreshes
included): the result that arrives last is the one the slot holds. -/
theorem C22_last_write_wins (m : Model) :
    (∀ p, (m.Update (Msg.summaryMsg p)).1
        = { m with summary := p, loading := (m.Update (Msg.summaryMsg p)).1.loading })
    ∧ (∀ p, (m.Update (Msg.companyMsg p)).1 = { m with company := p })
    ∧ (∀ p, (m.Update (Msg.revenuesMsg p)).1
        = { m with revenues := p, loading := (m.Update (Msg.revenuesMsg p)).1.loading })
    ∧ (∀ p, (m.Update (Msg.expensesMsg p)).1
        = { m with expenses := p, loading := (m.Update (Msg.expensesMsg p)).1.loading })
    ∧ (∀ p, (m.Update (Msg.queueMsg p)).1
        = { m with queue := p, loading := (m.Update (Msg.queueMsg p)).1.loading })
    ∧ (∀ p, (m.Update (Msg.efacturaMsg p)).1
        = { m with efactura := p, loading := (m.Update (Msg.efacturaMsg p)).1.loading })
    ∧ (∀ (msgs : List Msg) p, (run m (msgs ++ [Msg.summaryMsg p])).summary = p)
    ∧ (∀ (msgs : List Msg) p, (run m (msgs ++ [Msg.companyMsg p])).company = p)
    ∧ (∀ (msgs : List Msg) p, (run m (msgs ++ [Msg.revenuesMsg p])).revenues = p)
    ∧ (∀ (msgs : List Msg) p, (run m (msgs ++ [Msg.expensesMsg p])).expenses = p)
    ∧ (∀ (msgs : List Msg) p, (run m (msgs ++ [Msg.queueMsg p])).queue = p)
    ∧ (∀ (msgs : List Msg) p, (run m (msgs ++ [Msg.efacturaMsg p])).efactura = p) := by
  have hs : ∀ (n : Model) p, (n.Update (Msg.summaryMsg p)).1
      = { n with summary := p, loading := (n.Update (Msg.summaryMsg p)).1.loading } := by
    intro n p
    show Model.checkLoadingDone { n with summary := p } = _
    rw [checkLoadingDone_frame]; rfl
  have hr : ∀ (n : Model) p, (n.Update (Msg.revenuesMsg p)).1
      = { n with revenues := p, loading := (n.Update (Msg.revenuesMsg p)).1.loading } := by
    intro n p
    show Model.checkLoadingDone { n with revenues := p } = _
    rw [checkLoadingDone_frame]; rfl
  have he : ∀ (n : Model) p, (n.Update (Msg.expensesMsg p)).1
      = { n with expenses := p, loading := (n.Update (Msg.expensesMsg p)).1.loading } := by
    intro n p
    show Model.checkLoadingDone { n with expenses := p } = _
    rw [checkLoadingDone_frame]; rfl
  have hq : ∀ (n : Model) p, (n.Update (Msg.queueMsg p)).1
      = { n with queue := p, loading := (n.Update (Msg.queueMsg p)).1.loading } := by
    intro n p
    show Model.checkLoadingDone { n with queue := p } = _
    rw [checkLoadingDone_frame]; rfl
  have hf : ∀ (n : Model) p, (n.Update (Msg.efacturaMsg p)).1
      = { n with efactura := p, loading := (n.Update (Msg.efacturaMsg p)).1.loading } := by
    intro n p
    show Model.checkLoadingDone { n with efactura := p } = _
    rw [checkLoadingDone_frame]; rfl
  refine ⟨hs m, fun p => rfl, hr m, he m, hq m, hf m, fun msgs p => ?_, fun msgs p => ?_,
    fun msgs p => ?_, fun msgs p => ?_, fun msgs p => ?_, fun msgs p => ?_⟩
  · rw [run_append, run_cons, run_nil, hs]
  · rw [run_append, run_cons, run_nil]; rfl
  · rw [run_append, run_cons, run_nil, hr]
  · rw [run_append, run_cons, run_nil, he]
  · rw [run_append, run_cons, run_nil, hq]
  · rw [run_append, run_cons, run_nil, hf]

/-! ### C23 -/

/-- C23: a cursor-up key that moves the cursor below `viewportOffset` sets
`viewportOffset` to the new cursor; a cursor-down key that moves the cursor
to `viewportOffset + viewportSize` or beyond sets `viewportOffset` to
`cursor - viewportSize + 1`, which makes the cursor the last visible row; in
every other case of the two keys `viewportOffset` is unchanged. -/
theorem C23_viewport_autoscroll (m : Model) (key : String) :
    (key ∈ upKeys →
      (0 < m.cursor → m.cursor - 1 < m.viewportOffset →
        (m.Update (Msg.KeyMsg key)).1.cursor = m.cursor - 1
        ∧ (m.Update (Msg.KeyMsg key)).1.viewportOffset = (m.Update (Msg.KeyMsg key)).1.cursor)
      ∧ (¬ (0 < m.cursor ∧ m.cursor - 1 < m.viewportOffset) →
        (m.Update (Msg.KeyMsg key)).1.viewportOffset = m.viewportOffset))
    ∧ (key ∈ downKeys →
      (m.cursor < m.getMaxCursor - 1 → m.cursor + 1 ≥ m.viewportOffset + m.viewportSize →
        (m.Update (Msg.KeyMsg key)).1.cursor = m.cursor + 1
        ∧ (m.Update (Msg.KeyMsg key)).1.viewportOffset
            = (m.Update (Msg.KeyMsg key)).1.cursor - m.viewportSize + 1
        ∧ (m.Update (Msg.KeyMsg key)).1.cursor
            = (m.Update (Msg.KeyMsg key)).1.viewportOffset + m.viewportSize - 1)
      ∧ (¬ (m.cursor < m.getMaxCursor - 1
            ∧ m.cursor + 1 ≥ m.viewportOffset + m.viewportSize) →
        (m.Update (Msg.KeyMsg key)).1.viewportOffset = m.viewportOffset))
    ∧ (key ∈ upKeys ∨ key ∈ downKeys →
        (m.Update (Msg.KeyMsg key)).1.viewportSize = m.viewportSize
        ∧ (m.Update (Msg.KeyMsg key)).2 = none) := by
  have hU : m.Update (Msg.KeyMsg key) = m.updateKey key := rfl
  rw [hU]
  refine ⟨fun hk => ?_, fun hk => ?_, fun hk => ?_⟩
  · simp only [upKeys, List.mem_cons, List.mem_singleton, List.not_mem_nil, or_false] at hk
    have hk2 : m.updateKey key =
        (if m.cursor > 0 then
          (if m.cursor - 1 < m.viewportOffset then
            { m with cursor := m.cursor - 1, viewportOffset := m.cursor - 1 }
          else { m with cursor := m.cursor - 1 }, none)
        else (m, none)) := by
      rcases hk with rfl | rfl <;> simp [Model.updateKey]
    rw [hk2]
    refine ⟨fun h1 h2 => ?_, fun h => ?_⟩
    · rw [if_pos h1, if_pos h2]
      exact ⟨rfl, rfl⟩
    · split_ifs with h1 h2
      · exact absurd ⟨h1, h2⟩ h
      · rfl
      · rfl
  · simp only [downKeys, List.mem_cons, List.mem_singleton, List.not_mem_nil, or_false] at hk
    have hk2 : m.updateKey key =
        (if m.cursor < m.getMaxCursor - 1 then
          (if m.cursor + 1 ≥ m.viewportOffset + m.viewportSize then
            { m with cursor := m.cursor + 1, viewportOffset := m.cursor + 1 - m.viewportSize + 1 }
          else { m with cursor := m.cursor + 1 }, none)
        else (m, none)) := by
      rcases hk with rfl | rfl <;> simp [Model.updateKey]
    rw [hk2]
    refine ⟨fun h1 h2 => ?_, fun h => ?_⟩
    · rw [if_pos h1, if_pos h2]
      refine ⟨rfl, rfl, ?_⟩
      show m.cursor + 1 = m.cursor + 1 - m.viewportSize + 1 + m.viewportSize - 1
      omega
    · split_ifs with h1 h2
      · exact absurd ⟨h1, h2⟩ h
      · rfl
      · rfl
  · have hkeys : key = "up" ∨ key = "k" ∨ key = "down" ∨ key = "j" := by
      simp only [upKeys, downKeys, List.mem_cons, List.mem_singleton, List.not_mem_nil,
        or_false] at hk
      tauto
    rcases hkeys with rfl | rfl | rfl | rfl <;>
      (simp only [Model.updateKey]; simp; split_ifs <;> exact ⟨rfl, rfl⟩)

/-- C23 at concrete inputs: with three visible rows and the cursor on the
last of them, the down key scrolls by one row; the up key that follows
leaves the viewport where it is. -/
theorem C23_viewport_autoscroll_witness :
    (smallViewport.Update (Msg.KeyMsg "down")).1.cursor = 3
    ∧ (smallViewport.Update (Msg.KeyMsg "down")).1.viewportOffset = 1
    ∧ ((smallViewport.Update (Msg.KeyMsg "down")).1.Update (Msg.KeyMsg "up")).1.viewportOffset
        = 1 :=
  have h := ((C23_viewport_autoscroll smallViewport "down").2.1 (by decide)).1
    (by decide) (by decide)
  have h2 := ((C23_viewport_autoscroll (smallViewport.Update (Msg.KeyMsg "down")).1 "up").1
    (by decide)).2 (by decide)
  ⟨h.1.trans (by decide), h.2.1.trans (by decide), h2.trans (by decide)⟩

/-! ### C24 -/

/-- C24: for every state, `Update` on a window-resize event changes only
`width` and `height` and returns no command; `Update` on a spinner tick
changes only the spinner and returns no command or the next spinner tick;
in both cases `activeTab`, `cursor`, `viewportOffset`, `loading`, `err` and
the six slots are unchanged and running the command calls no client
method. -/
theorem C24_resize_and_tick_frame (m : Model) :
    (∀ w h : Int, m.Update (Msg.WindowSizeMsg w h) = ({ m with width := w, height := h }, none))
    ∧ (∀ t : spinner.TickMsg,
        (m.Update (Msg.spinnerTickMsg t)).1 = { m with spinner := (m.spinner.Update t).1 }
        ∧ ((m.Update (Msg.spinnerTickMsg t)).2 = none
          ∨ ∃ id tag, (m.Update (Msg.spinnerTickMsg t)).2 = some (Cmd.spinnerTick id tag))
        ∧ (∀ P : Provider, cmdCalls P (m.Update (Msg.spinnerTickMsg t)).2 = []))
    ∧ (∀ x : Msg, ((∃ w h, x = Msg.WindowSizeMsg w h) ∨ ∃ t, x = Msg.spinnerTickMsg t) →
        (m.Update x).1.activeTab = m.activeTab
        ∧ (m.Update x).1.cursor = m.cursor
        ∧ (m.Update x).1.viewportOffset = m.viewportOffset
        ∧ (m.Update x).1.loading = m.loading
        ∧ (m.Update x).1.err = m.err
        ∧ (m.Update x).1.summary = m.summary
        ∧ (m.Update x).1.company = m.company
        ∧ (m.Update x).1.revenues = m.revenues
        ∧ (m.Update x).1.expenses = m.expenses
        ∧ (m.Update x).1.queue = m.queue
        ∧ (m.Update x).1.efactura = m.efactura
        ∧ (∀ P : Provider, cmdCalls P (m.Update x).2 = [])) := by
  have htick : ∀ t : spinner.TickMsg,
      (m.Update (Msg.spinnerTickMsg t)).1 = { m with spinner := (m.spinner.Update t).1 }
      ∧ ((m.Update (Msg.spinnerTickMsg t)).2 = none
        ∨ ∃ id tag, (m.Update (Msg.spinnerTickMsg t)).2 = some (Cmd.spinnerTick id tag))
      ∧ (∀ P : Provider, cmdCalls P (m.Update (Msg.spinnerTickMsg t)).2 = []) := by
    intro t
    rcases hsp : m.spinner.Update t with ⟨s, _ | ⟨id, tag⟩⟩
    · simp [Model.Update, hsp, cmdCalls]
    · simp [Model.Update, hsp, cmdCalls, Cmd.calls, Cmd.exec]
  refine ⟨fun w h => rfl, htick, fun x hx => ?_⟩
  rcases hx with ⟨w, h, rfl⟩ | ⟨t, rfl⟩
  · exact ⟨rfl, rfl, rfl, rfl, rfl, rfl, rfl, rfl, rfl, rfl, rfl, fun P => rfl⟩
  · obtain ⟨h1, _, h3⟩ := htick t
    rw [h1]
    exact ⟨rfl, rfl, rfl, rfl, rfl, rfl, rfl, rfl, rfl, rfl, rfl, h3⟩

/-- C24 at concrete inputs: a resize and a tick of its spinner in the initial
state leave `loading = true` and the Dashboard tab. -/
theorem C24_resize_and_tick_frame_witness :
    (((NewModel (some sampleClient) "42" 100).Update (Msg.WindowSizeMsg 80 24)).1.loading = true
      ∧ ((NewModel (some sampleClient) "42" 100).Update
          (Msg.WindowSizeMsg 80 24)).1.activeTab = TabDashboard)
    ∧ (((NewModel (some sampleClient) "42" 100).Update
          (Msg.spinnerTickMsg { ID := 1, tag := 0 })).1.loading = true
      ∧ ((NewModel (some sampleClient) "42" 100).Update
          (Msg.spinnerTickMsg { ID := 1, tag := 0 })).1.summary = none) :=
  have h1 := (C24_resize_and_tick_frame (NewModel (some sampleClient) "42" 100)).2.2
    (Msg.WindowSizeMsg 80 24) (Or.inl ⟨80, 24, rfl⟩)
  have h2 := (C24_resize_and_tick_frame (NewModel (some sampleClient) "42" 100)).2.2
    (Msg.spinnerTickMsg { ID := 1, tag := 0 }) (Or.inr ⟨{ ID := 1, tag := 0 }, rfl⟩)
  ⟨⟨h1.2.2.2.1, h1.1⟩, ⟨h2.2.2.2.1, h2.2.2.2.2.2.1⟩⟩

end tui

namespace main

/-! ### C25 -/

/-- C25 (the code at the failing input): the command switch has no case for
`setup-skills`: the word falls into the default branch, which reports an
unknown command and exits with status 1; no argument list makes the switch
call `runSetupSkills`. -/
theorem C25_setup_skills_is_unknown :
    (∀ cmdArgs : List String,
        commandSwitch ("setup-skills" :: cmdArgs) = Action.unknownCommand "setup-skills")
    ∧ (Action.unknownCommand "setup-skills").exitStatus = some 1
    ∧ mainAction ["setup-skills"] = Except.ok (Action.unknownCommand "setup-skills")
    ∧ (∀ args : List String, commandSwitch args ≠ Action.runSetupSkills) := by
  refine ⟨fun cmdArgs => by simp [commandSwitch], rfl, ?_, fun args => ?_⟩
  · simp [mainAction, scanConfigFlag, commandSwitch]
  · have key : ∀ (c : Prop) [Decidable c] (a b : Action), a ≠ Action.runSetupSkills →
        b ≠ Action.runSetupSkills → (if c then a else b) ≠ Action.runSetupSkills := by
      intro c _ a b ha hb
      split_ifs <;> assumption
    cases args with
    | nil => simp [commandSwitch]
    | cons cmd cmdArgs =>
      simp only [commandSwitch]
      repeat' apply key
      all_goals (intro h; cases h)

end main

namespace tui

/-! ### Lemmas on the render loops -/

theorem goBytes_dots_length : (goBytes "...").length = 3 := by decide

theorem truncate_of_three_le (s : List UInt8) (max : Int) (hmax : 3 ≤ max) :
    truncate s max
      = some (if (s.length : Int) ≤ max then s else s.take (max - 3).toNat ++ goBytes "...") := by
  unfold truncate
  split_ifs with h1 h2
  · rfl
  · omega
  · rfl

theorem indexAt_of_range {α : Type} (xs : List α) (i : Int) (h0 : 0 ≤ i)
    (h1 : i < xs.length) : ∃ x, indexAt xs i = some x := by
  unfold indexAt
  rw [if_neg (by omega)]
  have hlt : i.toNat < xs.length := by omega
  exact ⟨xs[i.toNat], List.getElem?_eq_getElem hlt⟩

theorem mapM_eq_some_map {α β : Type} (f : α → Option β) (g : α → β) (l : List α)
    (h : ∀ x ∈ l, f x = some (g x)) : l.mapM f = some (l.map g) := by
  induction l with
  | nil => rfl
  | cons a l ih =>
    rw [List.mapM_cons, h a (List.mem_cons_self _ _),
      ih (fun x hx => h x (List.mem_cons_of_mem _ hx))]
    rfl

theorem mapM_map_eq {α β γ : Type} (f : β → Option γ) (g : α → β) (l : List α) :
    (l.map g).mapM f = l.mapM (fun x => f (g x)) := by
  induction l with
  | nil => rfl
  | cons a l ih => rw [List.map_cons, List.mapM_cons, List.mapM_cons, ih]

theorem mem_loopIndices (m : Model) (total i : Int) :
    i ∈ loopIndices m total
      ↔ m.viewportOffset ≤ i ∧ i < min (m.viewportOffset + m.viewportSize) total := by
  rw [loopIndices]
  simp only [List.mem_map, List.mem_range]
  constructor
  · rintro ⟨k, hk, rfl⟩
    omega
  · rintro ⟨h1, h2⟩
    exact ⟨(i - m.viewportOffset).toNat, by omega, by omega⟩

theorem loopIndices_pairwise (m : Model) (total : Int) :
    (loopIndices m total).Pairwise (fun a b => a < b) := by
  rw [loopIndices, List.pairwise_map]
  exact (List.pairwise_lt_range _).imp (fun h => by omega)

theorem loopIndices_count (m : Model) (total i : Int) (h : i ∈ loopIndices m total) :
    (loopIndices m total).count i = 1 := by
  have hnd : (loopIndices m total).Nodup :=
    (loopIndices_pairwise m total).imp (fun h => ne_of_lt h)
  exact List.count_eq_one_of_mem hnd h

/-- The loop of a list render function runs its body at the indices
`loopIndices`, in order. -/
theorem forRange_eq_mapM (m : Model) (total : Int) (body : Int → Option (List Text)) :
    forRange m.viewportOffset (min (m.viewportOffset + m.viewportSize) total) body
      = ((loopIndices m total).mapM body).map List.flatten := by
  rw [forRange, loopIndices, mapM_map_eq]

theorem revenueRow_of_index (m : Model) (items : List client.Revenue) (i : Int)
    (r : client.Revenue) (hr : indexAt items i = some r) :
    m.revenueRow items i
      = some (writeRow m i (Text.Sprintf "%-4s %-18s %12.2f %-5s %s"
          [ Text.str (if ¬ r.IsPaid then "❌" else "✅"),
            Text.bytes (if ((goBytes r.SerialCode).length : Int) ≤ 18 then goBytes r.SerialCode
              else (goBytes r.SerialCode).take 15 ++ goBytes "..."),
            Text.float r.Total, Text.str r.Currency.ShortName,
            Text.bytes (if (goBytes r.ClientName).length > 30 then
                (goBytes r.ClientName).take 27 ++ goBytes "..."
              else goBytes r.ClientName) ])) := by
  simp only [Model.revenueRow, hr, truncate_of_three_le _ 18 (by decide)]
  rfl

/-- When the body writes one row at every index of the list, the loop writes
one row per index of `loopIndices`; `Q` records what is known of each row. -/
theorem renderLoop_explicit (m : Model) (total : Int) (body : Int → Option (List Text))
    (Q : Int → Text → Prop)
    (hbody : ∀ i, 0 ≤ i → i < total → ∃ row, Q i row ∧ body i = some (writeRow m i row))
    (h0 : 0 ≤ m.viewportOffset) :
    ∃ rowOf : Int → Text,
      (∀ i, 0 ≤ i → i < total → Q i (rowOf i))
      ∧ (loopIndices m total).mapM body
          = some ((loopIndices m total).map (fun i => writeRow m i (rowOf i))) := by
  have h : ∀ i, ∃ row, 0 ≤ i → i < total → (Q i row ∧ body i = some (writeRow m i row)) := by
    intro i
    by_cases hi : 0 ≤ i ∧ i < total
    · obtain ⟨row, hrow⟩ := hbody i hi.1 hi.2
      exact ⟨row, fun _ _ => hrow⟩
    · exact ⟨Text.str "", fun h1 h2 => absurd ⟨h1, h2⟩ hi⟩
  choose rowOf hrowOf using h
  refine ⟨rowOf, fun i hi0 hi1 => (hrowOf i hi0 hi1).1, mapM_eq_some_map _ _ _ (fun i hi => ?_)⟩
  have := (mem_loopIndices m total i).1 hi
  exact (hrowOf i (by omega) (by omega)).2

/-- The rows written for the indices of `loopIndices`, seen one by one. -/
theorem loopRows_forall₂ (m : Model) (total : Int) (rowOf : Int → Text)
    (R : Int → List Text → Prop)
    (h : ∀ i, 0 ≤ i → i < total → 0 ≤ m.viewportOffset → R i (writeRow m i (rowOf i)))
    (h0 : 0 ≤ m.viewportOffset) :
    List.Forall₂ R (loopIndices m total)
      ((loopIndices m total).map (fun i => writeRow m i (rowOf i))) := by
  rw [List.forall₂_map_right_iff, List.forall₂_same]
  intro i hi
  have := (mem_loopIndices m total i).1 hi
  exact h i (by omega) (by omega) h0

/-- Among the rows written for the indices of `loopIndices`, the row of the
cursor is the only one in the selected style, and it is at position
`cursor - viewportOffset`. -/
theorem loopRows_selected (m : Model) (total : Int) (rowOf : Int → Text)
    (hlo : m.viewportOffset ≤ m.cursor) (hhi : m.cursor < m.viewportOffset + m.viewportSize)
    (hc : m.cursor < total) :
    ((loopIndices m total).map (fun i => writeRow m i (rowOf i))).length
        = (loopIndices m total).length
    ∧ ((loopIndices m total).map (fun i => writeRow m i (rowOf i))).filter rowSelected
        = [[Text.Render Style.TableSelectedStyle (rowOf m.cursor), Text.str "\n"]]
    ∧ ((loopIndices m total).map
          (fun i => writeRow m i (rowOf i)))[(m.cursor - m.viewportOffset).toNat]?
        = some [Text.Render Style.TableSelectedStyle (rowOf m.cursor), Text.str "\n"] := by
  have hmem : m.cursor ∈ loopIndices m total :=
    (mem_loopIndices m total m.cursor).2 ⟨hlo, by omega⟩
  have hsel : (rowSelected ∘ fun i => writeRow m i (rowOf i))
      = fun i => decide (i = m.cursor) := by
    funext i
    by_cases hi : i = m.cursor <;> simp [writeRow, rowSelected, hi]
  refine ⟨List.length_map _ _, ?_, ?_⟩
  · rw [List.filter_map, hsel, List.filter_eq, loopIndices_count m total m.cursor hmem]
    simp [writeRow]
  · have hk : m.viewportOffset + ((m.cursor - m.viewportOffset).toNat : Int) = m.cursor := by
      omega
    rw [List.getElem?_map, loopIndices, List.getElem?_map, List.getElem?_range (by omega)]
    simp only [Option.map_some']
    rw [hk]
    simp [writeRow]

theorem expenseRow_of_index (m : Model) (items : List client.Expense) (i : Int)
    (e : client.Expense) (he : indexAt items i = some e) :
    ∃ category supplier : List UInt8,
      truncate (goBytes e.Category) 25 = some category
      ∧ truncate (goBytes e.SupplierName) 25 = some supplier
      ∧ m.expenseRow items i
          = some (writeRow m i (Text.Sprintf "%-3s %12.2f %-5s %-25s %s"
              [ Text.str (if stringsContains e.Category "Nedeductibilă" then "❌" else "✅"),
                Text.float e.Total, Text.str e.Currency.ShortName, Text.bytes category,
                Text.bytes supplier ])) := by
  refine ⟨_, _, truncate_of_three_le _ 25 (by decide), truncate_of_three_le _ 25 (by decide), ?_⟩
  simp only [Model.expenseRow, he, truncate_of_three_le _ 25 (by decide)]
  rfl

theorem queueRow_of_index (m : Model) (items : List client.QueuedExpense) (i : Int)
    (q : client.QueuedExpense) (hq : indexAt items i = some q) :
    ∃ name : List UInt8,
      truncate (goBytes q.DocumentName) 30 = some name
      ∧ m.queueRow items i
          = some (writeRow m i (Text.Sprintf "%-30s %8d %s"
              [ Text.bytes name, Text.int q.DaysPassed,
                Text.str (if q.IsOverdue then "OVERDUE" else "Pending") ])) := by
  refine ⟨_, truncate_of_three_le _ 30 (by decide), ?_⟩
  simp only [Model.queueRow, hq, truncate_of_three_le _ 30 (by decide)]
  rfl

theorem efacturaRow_of_index (m : Model) (items : List client.EFactura) (i : Int)
    (e : client.EFactura) (he : indexAt items i = some e) :
    ∃ serial party : List UInt8,
      truncate (goBytes e.SerialCode) 20 = some serial
      ∧ truncate (goBytes e.PartyName) 25 = some party
      ∧ m.efacturaRow items i
          = some (writeRow m i (Text.Sprintf "%-20s %12.2f %-5s %-12s %s"
              [ Text.bytes serial, Text.float e.TotalAmount, Text.str e.CurrencyCode,
                Text.str e.InvoiceDate, Text.bytes party ])) := by
  refine ⟨_, _, truncate_of_three_le _ 20 (by decide), truncate_of_three_le _ 25 (by decide), ?_⟩
  simp only [Model.efacturaRow, he, truncate_of_three_le _ 20 (by decide),
    truncate_of_three_le _ 25 (by decide)]
  rfl

theorem renderRevenues_explicit (m : Model) (h0 : 0 ≤ m.viewportOffset)
    (r : client.RevenueListResponse) (hr : m.revenues = some r) (hne : r.Items.length ≠ 0) :
    ∃ rowOf : Int → Text,
      (∀ i, 0 ≤ i → i < (r.Items.length : Int) →
        ∃ (x : client.Revenue) (serial : List UInt8),
          indexAt r.Items i = some x
          ∧ truncate (goBytes x.SerialCode) 18 = some serial
          ∧ rowOf i = Text.Sprintf "%-4s %-18s %12.2f %-5s %s"
              [ Text.str (if ¬ x.IsPaid then "❌" else "✅"), Text.bytes serial,
                Text.float x.Total, Text.str x.Currency.ShortName,
                Text.bytes (if (goBytes x.ClientName).length > 30 then
                    (goBytes x.ClientName).take 27 ++ goBytes "..."
                  else goBytes x.ClientName) ])
      ∧ m.renderRevenues
          = ((loopIndices m r.Items.length).mapM (m.revenueRow r.Items)).map
              (fun rows => Text.Concat (listHeader m r.Items.length
                (Text.Sprintf "%-4s %-18s %12s %-5s %s"
                  [Text.str "Paid", Text.str "Invoice", Text.str "Amount", Text.str "Curr",
                    Text.str "Client"]) ++ rows.flatten))
      ∧ m.renderRevenues
          = some (Text.Concat (listHeader m r.Items.length
              (Text.Sprintf "%-4s %-18s %12s %-5s %s"
                [Text.str "Paid", Text.str "Invoice", Text.str "Amount", Text.str "Curr",
                  Text.str "Client"])
              ++ ((loopIndices m r.Items.length).map
                    (fun i => writeRow m i (rowOf i))).flatten)) := by
  obtain ⟨rowOf, h1, h2⟩ := renderLoop_explicit m r.Items.length (m.revenueRow r.Items)
    (fun i text => ∃ (x : client.Revenue) (serial : List UInt8),
      indexAt r.Items i = some x
      ∧ truncate (goBytes x.SerialCode) 18 = some serial
      ∧ text = Text.Sprintf "%-4s %-18s %12.2f %-5s %s"
          [ Text.str (if ¬ x.IsPaid then "❌" else "✅"), Text.bytes serial,
            Text.float x.Total, Text.str x.Currency.ShortName,
            Text.bytes (if (goBytes x.ClientName).length > 30 then
                (goBytes x.ClientName).take 27 ++ goBytes "..."
              else goBytes x.ClientName) ])
    (fun i hi0 hi1 => by
      obtain ⟨x, hx⟩ := indexAt_of_range r.Items i hi0 hi1
      exact ⟨_, ⟨x, _, hx, truncate_of_three_le _ 18 (by decide), rfl⟩,
        revenueRow_of_index m r.Items i x hx⟩) h0
  have hrender : m.renderRevenues
      = ((loopIndices m r.Items.length).mapM (m.revenueRow r.Items)).map
          (fun rows => Text.Concat (listHeader m r.Items.length
            (Text.Sprintf "%-4s %-18s %12s %-5s %s"
              [Text.str "Paid", Text.str "Invoice", Text.str "Amount", Text.str "Curr",
                Text.str "Client"]) ++ rows.flatten)) := by
    simp only [Model.renderRevenues, hr, if_neg hne, forRange_eq_mapM, Option.map_map]
    rfl
  refine ⟨rowOf, h1, hrender, ?_⟩
  rw [hrender, h2]
  rfl

theorem renderExpenses_explicit (m : Model) (h0 : 0 ≤ m.viewportOffset)
    (r : client.ExpenseListResponse) (hr : m.expenses = some r) (hne : r.Items.length ≠ 0) :
    ∃ rowOf : Int → Text,
      (∀ i, 0 ≤ i → i < (r.Items.length : Int) →
        ∃ (x : client.Expense) (category supplier : List UInt8),
          indexAt r.Items i = some x
          ∧ truncate (goBytes x.Category) 25 = some category
          ∧ truncate (goBytes x.SupplierName) 25 = some supplier
          ∧ rowOf i = Text.Sprintf "%-3s %12.2f %-5s %-25s %s"
              [ Text.str (if stringsContains x.Category "Nedeductibilă" then "❌" else "✅"),
                Text.float x.Total, Text.str x.Currency.ShortName, Text.bytes category,
                Text.bytes supplier ])
      ∧ m.renderExpenses
          = ((loopIndices m r.Items.length).mapM (m.expenseRow r.Items)).map
              (fun rows => Text.Concat (listHeader m r.Items.length
                (Text.Sprintf "%-3s %12s %-5s %-25s %s"
                  [Text.str "Ded", Text.str "Amount", Text.str "Curr", Text.str "Category",
                    Text.str "Supplier"]) ++ rows.flatten))
      ∧ m.renderExpenses
          = some (Text.Concat (listHeader m r.Items.length
              (Text.Sprintf "%-3s %12s %-5s %-25s %s"
                [Text.str "Ded", Text.str "Amount", Text.str "Curr", Text.str "Category",
                  Text.str "Supplier"])
              ++ ((loopIndices m r.Items.length).map
                    (fun i => writeRow m i (rowOf i))).flatten)) := by
  obtain ⟨rowOf, h1, h2⟩ := renderLoop_explicit m r.Items.length (m.expenseRow r.Items)
    (fun i text => ∃ (x : client.Expense) (category supplier : List UInt8),
      indexAt r.Items i = some x
      ∧ truncate (goBytes x.Category) 25 = some category
      ∧ truncate (goBytes x.SupplierName) 25 = some supplier
      ∧ text = Text.Sprintf "%-3s %12.2f %-5s %-25s %s"
          [ Text.str (if stringsContains x.Category "Nedeductibilă" then "❌" else "✅"),
            Text.float x.Total, Text.str x.Currency.ShortName, Text.bytes category,
            Text.bytes supplier ])
    (fun i hi0 hi1 => by
      obtain ⟨x, hx⟩ := indexAt_of_range r.Items i hi0 hi1
      obtain ⟨category, supplier, hc, hs, hrow⟩ := expenseRow_of_index m r.Items i x hx
      exact ⟨_, ⟨x, category, supplier, hx, hc, hs, rfl⟩, hrow⟩) h0
  have hrender : m.renderExpenses
      = ((loopIndices m r.Items.length).mapM (m.expenseRow r.Items)).map
          (fun rows => Text.Concat (listHeader m r.Items.length
            (Text.Sprintf "%-3s %12s %-5s %-25s %s"
              [Text.str "Ded", Text.str "Amount", Text.str "Curr", Text.str "Category",
                Text.str "Supplier"]) ++ rows.flatten)) := by
    simp only [Model.renderExpenses, hr, if_neg hne, forRange_eq_mapM, Option.map_map]
    rfl
  refine ⟨rowOf, h1, hrender, ?_⟩
  rw [hrender, h2]
  rfl

theorem renderQueue_explicit (m : Model) (h0 : 0 ≤ m.viewportOffset)
    (r : client.QueuedExpenseResponse) (hr : m.queue = some r) (hne : r.Items.length ≠ 0) :
    ∃ rowOf : Int → Text,
      (∀ i, 0 ≤ i → i < (r.Items.length : Int) →
        ∃ (x : client.QueuedExpense) (name : List UInt8),
          indexAt r.Items i = some x
          ∧ truncate (goBytes x.DocumentName) 30 = some name
          ∧ rowOf i = Text.Sprintf "%-30s %8d %s"
              [ Text.bytes name, Text.int x.DaysPassed,
                Text.str (if x.IsOverdue then "OVERDUE" else "Pending") ])
      ∧ m.renderQueue
          = ((loopIndices m r.Items.length).mapM (m.queueRow r.Items)).map
              (fun rows => Text.Concat (listHeader m r.Items.length
                (Text.Sprintf "%-30s %8s %s"
                  [Text.str "Document", Text.str "Days", Text.str "Status"]) ++ rows.flatten))
      ∧ m.renderQueue
          = some (Text.Concat (listHeader m r.Items.length
              (Text.Sprintf "%-30s %8s %s"
                [Text.str "Document", Text.str "Days", Text.str "Status"])
              ++ ((loopIndices m r.Items.length).map
                    (fun i => writeRow m i (rowOf i))).flatten)) := by
  obtain ⟨rowOf, h1, h2⟩ := renderLoop_explicit m r.Items.length (m.queueRow r.Items)
    (fun i text => ∃ (x : client.QueuedExpense) (name : List UInt8),
      indexAt r.Items i = some x
      ∧ truncate (goBytes x.DocumentName) 30 = some name
      ∧ text = Text.Sprintf "%-30s %8d %s"
          [ Text.bytes name, Text.int x.DaysPassed,
            Text.str (if x.IsOverdue then "OVERDUE" else "Pending") ])
    (fun i hi0 hi1 => by
      obtain ⟨x, hx⟩ := indexAt_of_range r.Items i hi0 hi1
      obtain ⟨name, hn, hrow⟩ := queueRow_of_index m r.Items i x hx
      exact ⟨_, ⟨x, name, hx, hn, rfl⟩, hrow⟩) h0
  have hrender : m.renderQueue
      = ((loopIndices m r.Items.length).mapM (m.queueRow r.Items)).map
          (fun rows => Text.Concat (listHeader m r.Items.length
            (Text.Sprintf "%-30s %8s %s"
              [Text.str "Document", Text.str "Days", Text.str "Status"]) ++ rows.flatten)) := by
    simp only [Model.renderQueue, hr, if_neg hne, forRange_eq_mapM, Option.map_map]
    rfl
  refine ⟨rowOf, h1, hrender, ?_⟩
  rw [hrender, h2]
  rfl

theorem renderEFactura_explicit (m : Model) (h0 : 0 ≤ m.viewportOffset)
    (r : client.EFacturaListResponse) (hr : m.efactura = some r) (hne : r.Items.length ≠ 0) :
    ∃ rowOf : Int → Text,
      (∀ i, 0 ≤ i → i < (r.Items.length : Int) →
        ∃ (x : client.EFactura) (serial party : List UInt8),
          indexAt r.Items i = some x
          ∧ truncate (goBytes x.SerialCode) 20 = some serial
          ∧ truncate (goBytes x.PartyName) 25 = some party
          ∧ rowOf i = Text.Sprintf "%-20s %12.2f %-5s %-12s %s"
              [ Text.bytes serial, Text.float x.TotalAmount, Text.str x.CurrencyCode,
                Text.str x.InvoiceDate, Text.bytes party ])
      ∧ m.renderEFactura
          = ((loopIndices m r.Items.length).mapM (m.efacturaRow r.Items)).map
              (fun rows => Text.Concat (listHeader m r.Items.length
                (Text.Sprintf "%-20s %12s %-5s %-12s %s"
                  [Text.str "Serial", Text.str "Amount", Text.str "Curr", Text.str "Date",
                    Text.str "Party"]) ++ rows.flatten))
      ∧ m.renderEFactura
          = some (Text.Concat (listHeader m r.Items.length
              (Text.Sprintf "%-20s %12s %-5s %-12s %s"
                [Text.str "Serial", Text.str "Amount", Text.str "Curr", Text.str "Date",
                  Text.str "Party"])
              ++ ((loopIndices m r.Items.length).map
                    (fun i => writeRow m i (rowOf i))).flatten)) := by
  obtain ⟨rowOf, h1, h2⟩ := renderLoop_explicit m r.Items.length (m.efacturaRow r.Items)
    (fun i text => ∃ (x : client.EFactura) (serial party : List UInt8),
      indexAt r.Items i = some x
      ∧ truncate (goBytes x.SerialCode) 20 = some serial
      ∧ truncate (goBytes x.PartyName) 25 = some party
      ∧ text = Text.Sprintf "%-20s %12.2f %-5s %-12s %s"
          [ Text.bytes serial, Text.float x.TotalAmount, Text.str x.CurrencyCode,
            Text.str x.InvoiceDate, Text.bytes party ])
    (fun i hi0 hi1 => by
      obtain ⟨x, hx⟩ := indexAt_of_range r.Items i hi0 hi1
      obtain ⟨serial, party, hs, hp, hrow⟩ := efacturaRow_of_index m r.Items i x hx
      exact ⟨_, ⟨x, serial, party, hx, hs, hp, rfl⟩, hrow⟩) h0
  have hrender : m.renderEFactura
      = ((loopIndices m r.Items.length).mapM (m.efacturaRow r.Items)).map
          (fun rows => Text.Concat (listHeader m r.Items.length
            (Text.Sprintf "%-20s %12s %-5s %-12s %s"
              [Text.str "Serial", Text.str "Amount", Text.str "Curr", Text.str "Date",
                Text.str "Party"]) ++ rows.flatten)) := by
    simp only [Model.renderEFactura, hr, if_neg hne, forRange_eq_mapM, Option.map_map]
    rfl
  refine ⟨rowOf, h1, hrender, ?_⟩
  rw [hrender, h2]
  rfl

theorem run_ViewportInv (start : Model) (msgs : List Msg)
    (hstart : (∃ c companyID pageSize, start = NewModel c companyID pageSize)
      ∨ ∃ year, start = NewDemoModel year) :
    ViewportInv (run start msgs) := by
  refine run_induction ViewportInv ViewportInv_Update msgs start ?_
  rcases hstart with ⟨c, companyID, pageSize, rfl⟩ | ⟨year, rfl⟩
  · exact ViewportInv_NewModel c companyID pageSize
  · exact ViewportInv_NewDemoModel year

end tui

namespace tui

/-! ### C26 -/

/-- C26: in a state with `viewportOffset ≥ 0`, whatever the cursor, the
viewport size and the list length, each of the four list render functions
returns a text (no index panic): the loop body, the only place that indexes
`Items`, runs exactly at the indices `loopIndices`, which are the `i` with
`viewportOffset ≤ i < min(viewportOffset + viewportSize, len(Items))` in
increasing order, all inside `[0, len(Items))`; the text is the header
followed by the rows, one row per such index and in the same order, the row
of index `i` being the formatted fields of `Items[i]` in the selected style
when `i` is the cursor and in the plain row style otherwise, followed by a
newline. -/
theorem C26_render_in_bounds (m : Model) (h0 : 0 ≤ m.viewportOffset) :
    (∀ total : Int,
        (∀ i, i ∈ loopIndices m total
          ↔ m.viewportOffset ≤ i ∧ i < min (m.viewportOffset + m.viewportSize) total)
        ∧ (∀ i ∈ loopIndices m total, 0 ≤ i ∧ i < total)
        ∧ (loopIndices m total).Pairwise (fun a b => a < b))
    ∧ (m.renderRevenues ≠ none ∧ m.renderExpenses ≠ none ∧ m.renderQueue ≠ none
        ∧ m.renderEFactura ≠ none)
    ∧ (∀ r, m.revenues = some r → r.Items.length ≠ 0 →
        ∃ rows : List (List Text),
          m.renderRevenues
              = ((loopIndices m r.Items.length).mapM (m.revenueRow r.Items)).map
                  (fun written => Text.Concat (listHeader m r.Items.length
                    (Text.Sprintf "%-4s %-18s %12s %-5s %s"
                      [Text.str "Paid", Text.str "Invoice", Text.str "Amount", Text.str "Curr",
                        Text.str "Client"]) ++ written.flatten))
          ∧ m.renderRevenues
              = some (Text.Concat (listHeader m r.Items.length
                  (Text.Sprintf "%-4s %-18s %12s %-5s %s"
                    [Text.str "Paid", Text.str "Invoice", Text.str "Amount", Text.str "Curr",
                      Text.str "Client"]) ++ rows.flatten))
          ∧ List.Forall₂
              (fun i row => ∃ (x : client.Revenue) (serial : List UInt8) (text : Text),
                indexAt r.Items i = some x
                ∧ truncate (goBytes x.SerialCode) 18 = some serial
                ∧ text = Text.Sprintf "%-4s %-18s %12.2f %-5s %s"
                    [ Text.str (if ¬ x.IsPaid then "❌" else "✅"), Text.bytes serial,
                      Text.float x.Total, Text.str x.Currency.ShortName,
                      Text.bytes (if (goBytes x.ClientName).length > 30 then
                          (goBytes x.ClientName).take 27 ++ goBytes "..."
                        else goBytes x.ClientName) ]
                ∧ row = [ if i = m.cursor then Text.Render Style.TableSelectedStyle text
                          else Text.Render Style.TableRowStyle text,
                          Text.str "\n" ])
              (loopIndices m r.Items.length) rows)
    ∧ (∀ r, m.expenses = some r → r.Items.length ≠ 0 →
        ∃ rows : List (List Text),
          m.renderExpenses
              = ((loopIndices m r.Items.length).mapM (m.expenseRow r.Items)).map
                  (fun written => Text.Concat (listHeader m r.Items.length
                    (Text.Sprintf "%-3s %12s %-5s %-25s %s"
                      [Text.str "Ded", Text.str "Amount", Text.str "Curr", Text.str "Category",
                        Text.str "Supplier"]) ++ written.flatten))
          ∧ m.renderExpenses
              = some (Text.Concat (listHeader m r.Items.length
                  (Text.Sprintf "%-3s %12s %-5s %-25s %s"
                    [Text.str "Ded", Text.str "Amount", Text.str "Curr", Text.str "Category",
                      Text.str "Supplier"]) ++ rows.flatten))
          ∧ List.Forall₂
              (fun i row => ∃ (x : client.Expense) (category supplier : List UInt8)
                  (text : Text),
                indexAt r.Items i = some x
                ∧ truncate (goBytes x.Category) 25 = some category
                ∧ truncate (goBytes x.SupplierName) 25 = some supplier
                ∧ text = Text.Sprintf "%-3s %12.2f %-5s %-25s %s"
                    [ Text.str (if stringsContains x.Category "Nedeductibilă" then "❌"
                        else "✅"),
                      Text.float x.Total, Text.str x.Currency.ShortName, Text.bytes category,
                      Text.bytes supplier ]
                ∧ row = [ if i = m.cursor then Text.Render Style.TableSelectedStyle text
                          else Text.Render Style.TableRowStyle text,
                          Text.str "\n" ])
              (loopIndices m r.Items.length) rows)
    ∧ (∀ r, m.queue = some r → r.Items.length ≠ 0 →
        ∃ rows : List (List Text),
          m.renderQueue
              = ((loopIndices m r.Items.length).mapM (m.queueRow r.Items)).map
                  (fun written => Text.Concat (listHeader m r.Items.length
                    (Text.Sprintf "%-30s %8s %s"
                      [Text.str "Document", Text.str "Days", Text.str "Status"])
                    ++ written.flatten))
          ∧ m.renderQueue
              = some (Text.Concat (listHeader m r.Items.length
                  (Text.Sprintf "%-30s %8s %s"
                    [Text.str "Document", Text.str "Days", Text.str "Status"])
                  ++ rows.flatten))
          ∧ List.Forall₂
              (fun i row => ∃ (x : client.QueuedExpense) (name : List UInt8) (text : Text),
                indexAt r.Items i = some x
                ∧ truncate (goBytes x.DocumentName) 30 = some name
                ∧ text = Text.Sprintf "%-30s %8d %s"
                    [ Text.bytes name, Text.int x.DaysPassed,
                      Text.str (if x.IsOverdue then "OVERDUE" else "Pending") ]
                ∧ row = [ if i = m.cursor then Text.Render Style.TableSelectedStyle text
                          else Text.Render Style.TableRowStyle text,
                          Text.str "\n" ])
              (loopIndices m r.Items.length) rows)
    ∧ (∀ r, m.efactura = some r → r.Items.length ≠ 0 →
        ∃ rows : List (List Text),
          m.renderEFactura
              = ((loopIndices m r.Items.length).mapM (m.efacturaRow r.Items)).map
                  (fun written => Text.Concat (listHeader m r.Items.length
                    (Text.Sprintf "%-20s %12s %-5s %-12s %s"
                      [Text.str "Serial", Text.str "Amount", Text.str "Curr", Text.str "Date",
                        Text.str "Party"]) ++ written.flatten))
          ∧ m.renderEFactura
              = some (Text.Concat (listHeader m r.Items.length
                  (Text.Sprintf "%-20s %12s %-5s %-12s %s"
                    [Text.str "Serial", Text.str "Amount", Text.str "Curr", Text.str "Date",
                      Text.str "Party"]) ++ rows.flatten))
          ∧ List.Forall₂
              (fun i row => ∃ (x : client.EFactura) (serial party : List UInt8) (text : Text),
                indexAt r.Items i = some x
                ∧ truncate (goBytes x.SerialCode) 20 = some serial
                ∧ truncate (goBytes x.PartyName) 25 = some party
                ∧ text = Text.Sprintf "%-20s %12.2f %-5s %-12s %s"
                    [ Text.bytes serial, Text.float x.TotalAmount, Text.str x.CurrencyCode,
                      Text.str x.InvoiceDate, Text.bytes party ]
                ∧ row = [ if i = m.cursor then Text.Render Style.TableSelectedStyle text
                          else Text.Render Style.TableRowStyle text,
                          Text.str "\n" ])
              (loopIndices m r.Items.length) rows)
    ∧ (∀ (total : Int) (header : Text),
        listHeader m total header
          = [ Text.Render Style.SummaryLabelStyle
                (Text.Sprintf "Showing %d-%d of %d"
                  [ Text.int (m.viewportOffset + 1),
                    Text.int (min (m.viewportOffset + m.viewportSize) total),
                    Text.int total ]),
              Text.str "\n\n",
              Text.Render Style.TableHeaderStyle header,
              Text.str "\n" ]) := by
  have hrange : ∀ (total i : Int), i ∈ loopIndices m total → 0 ≤ i ∧ i < total := by
    intro total i hi
    have := (mem_loopIndices m total i).1 hi
    omega
  refine ⟨fun total => ⟨mem_loopIndices m total, hrange total, loopIndices_pairwise m total⟩,
    ⟨?_, ?_, ?_, ?_⟩, fun r hr hne => ?_, fun r hr hne => ?_, fun r hr hne => ?_,
    fun r hr hne => ?_, fun total header => rfl⟩
  · cases hr : m.revenues with
    | none => simp [Model.renderRevenues, hr]
    | some r =>
      by_cases hne : r.Items.length = 0
      · simp [Model.renderRevenues, hr, hne]
      · obtain ⟨rowOf, _, _, h3⟩ := renderRevenues_explicit m h0 r hr hne
        rw [h3]; simp
  · cases hr : m.expenses with
    | none => simp [Model.renderExpenses, hr]
    | some r =>
      by_cases hne : r.Items.length = 0
      · simp [Model.renderExpenses, hr, hne]
      · obtain ⟨rowOf, _, _, h3⟩ := renderExpenses_explicit m h0 r hr hne
        rw [h3]; simp
  · cases hr : m.queue with
    | none => simp [Model.renderQueue, hr]
    | some r =>
      by_cases hne : r.Items.length = 0
      · simp [Model.renderQueue, hr, hne]
      · obtain ⟨rowOf, _, _, h3⟩ := renderQueue_explicit m h0 r hr hne
        rw [h3]; simp
  · cases hr : m.efactura with
    | none => simp [Model.renderEFactura, hr]
    | some r =>
      by_cases hne : r.Items.length = 0
      · simp [Model.renderEFactura, hr, hne]
      · obtain ⟨rowOf, _, _, h3⟩ := renderEFactura_explicit m h0 r hr hne
        rw [h3]; simp
  · obtain ⟨rowOf, h1, h2, h3⟩ := renderRevenues_explicit m h0 r hr hne
    refine ⟨_, h2, h3, loopRows_forall₂ m r.Items.length rowOf _ (fun i hi0 hi1 _ => ?_) h0⟩
    obtain ⟨x, serial, hx, hs, ht⟩ := h1 i hi0 hi1
    exact ⟨x, serial, rowOf i, hx, hs, ht, rfl⟩
  · obtain ⟨rowOf, h1, h2, h3⟩ := renderExpenses_explicit m h0 r hr hne
    refine ⟨_, h2, h3, loopRows_forall₂ m r.Items.length rowOf _ (fun i hi0 hi1 _ => ?_) h0⟩
    obtain ⟨x, category, supplier, hx, hc, hs, ht⟩ := h1 i hi0 hi1
    exact ⟨x, category, supplier, rowOf i, hx, hc, hs, ht, rfl⟩
  · obtain ⟨rowOf, h1, h2, h3⟩ := renderQueue_explicit m h0 r hr hne
    refine ⟨_, h2, h3, loopRows_forall₂ m r.Items.length rowOf _ (fun i hi0 hi1 _ => ?_) h0⟩
    obtain ⟨x, name, hx, hn, ht⟩ := h1 i hi0 hi1
    exact ⟨x, name, rowOf i, hx, hn, ht, rfl⟩
  · obtain ⟨rowOf, h1, h2, h3⟩ := renderEFactura_explicit m h0 r hr hne
    refine ⟨_, h2, h3, loopRows_forall₂ m r.Items.length rowOf _ (fun i hi0 hi1 _ => ?_) h0⟩
    obtain ⟨x, serial, party, hx, hs, hp, ht⟩ := h1 i hi0 hi1
    exact ⟨x, serial, party, rowOf i, hx, hs, hp, ht, rfl⟩

/-- C26 at a concrete input: after the last of three queue items has been
deleted with the cursor on it, the queue view of the two remaining items
reads the indices 0 and 1 and writes two rows. -/
theorem C26_render_in_bounds_witness :
    0 ≤ (run (NewDemoModel 2025) deleteLastTrace).viewportOffset
    ∧ (run (NewDemoModel 2025) deleteLastTrace).queue = some shorterQueue
    ∧ loopIndices (run (NewDemoModel 2025) deleteLastTrace) 2 = [0, 1]
    ∧ (run (NewDemoModel 2025) deleteLastTrace).renderQueue ≠ none
    ∧ ∃ rows : List (List Text),
        rows.length = 2
        ∧ (run (NewDemoModel 2025) deleteLastTrace).renderQueue
            = some (Text.Concat (listHeader (run (NewDemoModel 2025) deleteLastTrace) 2
                (Text.Sprintf "%-30s %8s %s"
                  [Text.str "Document", Text.str "Days", Text.str "Status"])
                ++ rows.flatten)) := by
  have h := C26_render_in_bounds (run (NewDemoModel 2025) deleteLastTrace) (by decide)
  obtain ⟨rows, _, h3, h4⟩ := h.2.2.2.2.1 shorterQueue (by decide) (by decide)
  exact ⟨by decide, by decide, by decide, h.2.1.2.2.1, rows,
    h4.length_eq.symm.trans (by decide), h3⟩

/-! ### C27 -/

/-- C27: in every state reached from `NewModel` or `NewDemoModel` by a
finite sequence of `Update` events, `0 ≤ viewportOffset ≤ cursor <
viewportOffset + viewportSize` holds; when moreover `cursor < len(Items)`
for the list of a list tab, the render function of that list returns the
header followed by one row per visible index, exactly one of these rows is
drawn in the selected style, and it is the row of item index `cursor` (the
formatted fields of `Items[cursor]`), at position `cursor - viewportOffset`
among the rows. -/
theorem C27_selected_row_visible (start m : Model) (msgs : List Msg)
    (hstart : (∃ c companyID pageSize, start = NewModel c companyID pageSize)
      ∨ ∃ year, start = NewDemoModel year)
    (hm : m = run start msgs) :
    (0 ≤ m.viewportOffset ∧ m.viewportOffset ≤ m.cursor
      ∧ m.cursor < m.viewportOffset + m.viewportSize)
    ∧ (∀ r, m.revenues = some r → m.cursor < (r.Items.length : Int) →
        ∃ (rows : List (List Text)) (x : client.Revenue) (serial : List UInt8) (text : Text),
          m.renderRevenues
              = some (Text.Concat (listHeader m r.Items.length
                  (Text.Sprintf "%-4s %-18s %12s %-5s %s"
                    [Text.str "Paid", Text.str "Invoice", Text.str "Amount", Text.str "Curr",
                      Text.str "Client"]) ++ rows.flatten))
          ∧ rows.length = (loopIndices m r.Items.length).length
          ∧ indexAt r.Items m.cursor = some x
          ∧ truncate (goBytes x.SerialCode) 18 = some serial
          ∧ text = Text.Sprintf "%-4s %-18s %12.2f %-5s %s"
              [ Text.str (if ¬ x.IsPaid then "❌" else "✅"), Text.bytes serial,
                Text.float x.Total, Text.str x.Currency.ShortName,
                Text.bytes (if (goBytes x.ClientName).length > 30 then
                    (goBytes x.ClientName).take 27 ++ goBytes "..."
                  else goBytes x.ClientName) ]
          ∧ rows.filter rowSelected
              = [[Text.Render Style.TableSelectedStyle text, Text.str "\n"]]
          ∧ rows[(m.cursor - m.viewportOffset).toNat]?
              = some [Text.Render Style.TableSelectedStyle text, Text.str "\n"])
    ∧ (∀ r, m.expenses = some r → m.cursor < (r.Items.length : Int) →
        ∃ (rows : List (List Text)) (x : client.Expense) (category supplier : List UInt8)
            (text : Text),
          m.renderExpenses
              = some (Text.Concat (listHeader m r.Items.length
                  (Text.Sprintf "%-3s %12s %-5s %-25s %s"
                    [Text.str "Ded", Text.str "Amount", Text.str "Curr", Text.str "Category",
                      Text.str "Supplier"]) ++ rows.flatten))
          ∧ rows.length = (loopIndices m r.Items.length).length
          ∧ indexAt r.Items m.cursor = some x
          ∧ truncate (goBytes x.Category) 25 = some category
          ∧ truncate (goBytes x.SupplierName) 25 = some supplier
          ∧ text = Text.Sprintf "%-3s %12.2f %-5s %-25s %s"
              [ Text.str (if stringsContains x.Category "Nedeductibilă" then "❌" else "✅"),
                Text.float x.Total, Text.str x.Currency.ShortName, Text.bytes category,
                Text.bytes supplier ]
          ∧ rows.filter rowSelected
              = [[Text.Render Style.TableSelectedStyle text, Text.str "\n"]]
          ∧ rows[(m.cursor - m.viewportOffset).toNat]?
              = some [Text.Render Style.TableSelectedStyle text, Text.str "\n"])
    ∧ (∀ r, m.queue = some r → m.cursor < (r.Items.length : Int) →
        ∃ (rows : List (List Text)) (x : client.QueuedExpense) (name : List UInt8)
            (text : Text),
          m.renderQueue
              = some (Text.Concat (listHeader m r.Items.length
                  (Text.Sprintf "%-30s %8s %s"
                    [Text.str "Document", Text.str "Days", Text.str "Status"])
                  ++ rows.flatten))
          ∧ rows.length = (loopIndices m r.Items.length).length
          ∧ indexAt r.Items m.cursor = some x
          ∧ truncate (goBytes x.DocumentName) 30 = some name
          ∧ text = Text.Sprintf "%-30s %8d %s"
              [ Text.bytes name, Text.int x.DaysPassed,
                Text.str (if x.IsOverdue then "OVERDUE" else "Pending") ]
          ∧ rows.filter rowSelected
              = [[Text.Render Style.TableSelectedStyle text, Text.str "\n"]]
          ∧ rows[(m.cursor - m.viewportOffset).toNat]?
              = some [Text.Render Style.TableSelectedStyle text, Text.str "\n"])
    ∧ (∀ r, m.efactura = some r → m.cursor < (r.Items.length : Int) →
        ∃ (rows : List (List Text)) (x : client.EFactura) (serial party : List UInt8)
            (text : Text),
          m.renderEFactura
              = some (Text.Concat (listHeader m r.Items.length
                  (Text.Sprintf "%-20s %12s %-5s %-12s %s"
                    [Text.str "Serial", Text.str "Amount", Text.str "Curr", Text.str "Date",
                      Text.str "Party"]) ++ rows.flatten))
          ∧ rows.length = (loopIndices m r.Items.length).length
          ∧ indexAt r.Items m.cursor = some x
          ∧ truncate (goBytes x.SerialCode) 20 = some serial
          ∧ truncate (goBytes x.PartyName) 25 = some party
          ∧ text = Text.Sprintf "%-20s %12.2f %-5s %-12s %s"
              [ Text.bytes serial, Text.float x.TotalAmount, Text.str x.CurrencyCode,
                Text.str x.InvoiceDate, Text.bytes party ]
          ∧ rows.filter rowSelected
              = [[Text.Render Style.TableSelectedStyle text, Text.str "\n"]]
          ∧ rows[(m.cursor - m.viewportOffset).toNat]?
              = some [Text.Render Style.TableSelectedStyle text, Text.str "\n"]) := by
  have hinv := run_ViewportInv start msgs hstart
  rw [← hm] at hinv
  obtain ⟨_, h0, hlo, hhi⟩ := hinv
  have hc0 : 0 ≤ m.cursor := by omega
  have hlen : ∀ {α : Type} (l : List α), m.cursor < (l.length : Int) → l.length ≠ 0 := by
    intro α l h hz
    rw [hz] at h
    simp at h
    omega
  refine ⟨⟨h0, hlo, hhi⟩, fun r hr hc => ?_, fun r hr hc => ?_, fun r hr hc => ?_,
    fun r hr hc => ?_⟩
  · obtain ⟨rowOf, h1, _, h3⟩ := renderRevenues_explicit m h0 r hr (hlen _ hc)
    obtain ⟨x, serial, hx, hs, ht⟩ := h1 m.cursor hc0 hc
    obtain ⟨hl, hf, hp⟩ := loopRows_selected m r.Items.length rowOf hlo hhi hc
    exact ⟨_, x, serial, rowOf m.cursor, h3, hl, hx, hs, ht, hf, hp⟩
  · obtain ⟨rowOf, h1, _, h3⟩ := renderExpenses_explicit m h0 r hr (hlen _ hc)
    obtain ⟨x, category, supplier, hx, hcat, hs, ht⟩ := h1 m.cursor hc0 hc
    obtain ⟨hl, hf, hp⟩ := loopRows_selected m r.Items.length rowOf hlo hhi hc
    exact ⟨_, x, category, supplier, rowOf m.cursor, h3, hl, hx, hcat, hs, ht, hf, hp⟩
  · obtain ⟨rowOf, h1, _, h3⟩ := renderQueue_explicit m h0 r hr (hlen _ hc)
    obtain ⟨x, name, hx, hn, ht⟩ := h1 m.cursor hc0 hc
    obtain ⟨hl, hf, hp⟩ := loopRows_selected m r.Items.length rowOf hlo hhi hc
    exact ⟨_, x, name, rowOf m.cursor, h3, hl, hx, hn, ht, hf, hp⟩
  · obtain ⟨rowOf, h1, _, h3⟩ := renderEFactura_explicit m h0 r hr (hlen _ hc)
    obtain ⟨x, serial, party, hx, hs, hpa, ht⟩ := h1 m.cursor hc0 hc
    obtain ⟨hl, hf, hp⟩ := loopRows_selected m r.Items.length rowOf hlo hhi hc
    exact ⟨_, x, serial, party, rowOf m.cursor, h3, hl, hx, hs, hpa, ht, hf, hp⟩

/-- C27 at a concrete input: in the demo session, after the next-tab key and
two down keys the cursor is on the third of the 8 revenues; the revenue view
has 8 rows, one of them in the selected style, the third. -/
theorem C27_selected_row_visible_witness :
    (run (NewDemoModel 2025)
        [Msg.KeyMsg "l", Msg.KeyMsg "down", Msg.KeyMsg "down"]).activeTab = TabRevenues
    ∧ (run (NewDemoModel 2025)
        [Msg.KeyMsg "l", Msg.KeyMsg "down", Msg.KeyMsg "down"]).cursor = 2
    ∧ ∃ (rows : List (List Text)) (text : Text),
        rows.length = 8
        ∧ (run (NewDemoModel 2025)
            [Msg.KeyMsg "l", Msg.KeyMsg "down", Msg.KeyMsg "down"]).renderRevenues
            = some (Text.Concat (listHeader
                (run (NewDemoModel 2025) [Msg.KeyMsg "l", Msg.KeyMsg "down", Msg.KeyMsg "down"])
                8
                (Text.Sprintf "%-4s %-18s %12s %-5s %s"
                  [Text.str "Paid", Text.str "Invoice", Text.str "Amount", Text.str "Curr",
                    Text.str "Client"]) ++ rows.flatten))
        ∧ rows.filter rowSelected
            = [[Text.Render Style.TableSelectedStyle text, Text.str "\n"]]
        ∧ rows[2]? = some [Text.Render Style.TableSelectedStyle text, Text.str "\n"] := by
  obtain ⟨rows, x, serial, text, h1, h2, _, _, _, h6, h7⟩ :=
    (C27_selected_row_visible (NewDemoModel 2025)
      (run (NewDemoModel 2025) [Msg.KeyMsg "l", Msg.KeyMsg "down", Msg.KeyMsg "down"])
      [Msg.KeyMsg "l", Msg.KeyMsg "down", Msg.KeyMsg "down"]
      (Or.inr ⟨2025, rfl⟩) rfl).2.1 client.GetDemoRevenues rfl (by decide)
  exact ⟨by decide, by decide, rows, text, h2.trans (by decide), h1, h6, h7⟩

end tui

namespace tui

/-! ### C28 -/

/-- C28: in a state whose five mandatory slots are non-nil, the refresh key
sets `loading = true`, and the first mandatory success event that follows
sets `loading = false` again: the state is then the pre-refresh state with
the slot of that event replaced, so the other four mandatory slots still
hold the pre-refresh payloads although their refetches have not delivered;
a company event alone leaves `loading = true`. -/
theorem C28_refresh_does_not_wait (m : Model) (hm : m.mandatoryLoaded) :
    (m.Update (Msg.KeyMsg "r")).1 = { m with loading := true }
    ∧ (∀ v, ((m.Update (Msg.KeyMsg "r")).1.Update (Msg.summaryMsg (some v))).1
        = { m with summary := some v, loading := false })
    ∧ (∀ v, ((m.Update (Msg.KeyMsg "r")).1.Update (Msg.revenuesMsg (some v))).1
        = { m with revenues := some v, loading := false })
    ∧ (∀ v, ((m.Update (Msg.KeyMsg "r")).1.Update (Msg.expensesMsg (some v))).1
        = { m with expenses := some v, loading := false })
    ∧ (∀ v, ((m.Update (Msg.KeyMsg "r")).1.Update (Msg.queueMsg (some v))).1
        = { m with queue := some v, loading := false })
    ∧ (∀ v, ((m.Update (Msg.KeyMsg "r")).1.Update (Msg.efacturaMsg (some v))).1
        = { m with efactura := some v, loading := false })
    ∧ (∀ p, ((m.Update (Msg.KeyMsg "r")).1.Update (Msg.companyMsg p)).1
        = { m with company := p, loading := true }) := by
  have hr : (m.Update (Msg.KeyMsg "r")).1 = { m with loading := true } := by
    simp [Model.Update, Model.updateKey]
  obtain ⟨h1, h2, h3, h4, h5⟩ := hm
  rw [hr]
  refine ⟨rfl, fun v => ?_, fun v => ?_, fun v => ?_, fun v => ?_, fun v => ?_, fun p => rfl⟩
  · simp only [Model.Update, Model.checkLoadingDone]
    rw [if_pos ⟨by simp, h2, h3, h4, h5⟩]
  · simp only [Model.Update, Model.checkLoadingDone]
    rw [if_pos ⟨h1, by simp, h3, h4, h5⟩]
  · simp only [Model.Update, Model.checkLoadingDone]
    rw [if_pos ⟨h1, h2, by simp, h4, h5⟩]
  · simp only [Model.Update, Model.checkLoadingDone]
    rw [if_pos ⟨h1, h2, h3, by simp, h5⟩]
  · simp only [Model.Update, Model.checkLoadingDone]
    rw [if_pos ⟨h1, h2, h3, h4, by simp⟩]

/-- C28 at a concrete input: in the demo state, refresh followed by the
shorter queue alone ends loading; the revenues are still the demo ones. -/
theorem C28_refresh_does_not_wait_witness :
    (NewDemoModel 2025).mandatoryLoaded
    ∧ (((NewDemoModel 2025).Update (Msg.KeyMsg "r")).1.Update
        (Msg.queueMsg (some shorterQueue))).1
        = { NewDemoModel 2025 with queue := some shorterQueue, loading := false } :=
  ⟨by decide, (C28_refresh_does_not_wait (NewDemoModel 2025) (by decide)).2.2.2.2.1 shorterQueue⟩

/-! ### C29 -/

theorem Update_nextTab (m : Model) (key : String) (hk : key ∈ nextTabKeys)
    (h : 0 ≤ m.activeTab ∧ m.activeTab ≤ 4) :
    (m.Update (Msg.KeyMsg key)).1.activeTab = (m.activeTab + 1) % 5 := by
  have e1 : Int.tmod (m.activeTab + 1) 5 = (m.activeTab + 1) % 5 :=
    Int.tmod_eq_emod (by omega) (by omega)
  simp only [nextTabKeys, List.mem_cons, List.mem_singleton, List.not_mem_nil, or_false] at hk
  rcases hk with rfl | rfl | rfl <;> simp [Model.Update, Model.updateKey, e1]

theorem Update_prevTab (m : Model) (key : String) (hk : key ∈ prevTabKeys)
    (h : 0 ≤ m.activeTab ∧ m.activeTab ≤ 4) :
    (m.Update (Msg.KeyMsg key)).1.activeTab = (m.activeTab + 4) % 5 := by
  have e2 : Int.tmod (m.activeTab - 1 + 5) 5 = (m.activeTab + 4) % 5 := by
    rw [Int.tmod_eq_emod (by omega) (by omega)]; omega
  simp only [prevTabKeys, List.mem_cons, List.mem_singleton, List.not_mem_nil, or_false] at hk
  rcases hk with rfl | rfl | rfl <;> simp [Model.Update, Model.updateKey, e2]

theorem run_nextTabs (keys : List String) :
    ∀ m : Model, (∀ k ∈ keys, k ∈ nextTabKeys) → 0 ≤ m.activeTab ∧ m.activeTab ≤ 4 →
      (run m (keys.map Msg.KeyMsg)).activeTab = (m.activeTab + keys.length) % 5 := by
  induction keys with
  | nil => intro m _ h; simp only [List.map_nil, run_nil, List.length_nil]; omega
  | cons k l ih =>
    intro m hall h
    have hstep := Update_nextTab m k (hall k (List.mem_cons_self _ _)) h
    have hrange := Update_activeTab_range m (Msg.KeyMsg k) h
    rw [List.map_cons, run_cons, ih _ (fun x hx => hall x (List.mem_cons_of_mem _ hx)) hrange,
      hstep, List.length_cons]
    push_cast
    omega

theorem run_prevTabs (keys : List String) :
    ∀ m : Model, (∀ k ∈ keys, k ∈ prevTabKeys) → 0 ≤ m.activeTab ∧ m.activeTab ≤ 4 →
      (run m (keys.map Msg.KeyMsg)).activeTab = (m.activeTab + 4 * keys.length) % 5 := by
  induction keys with
  | nil => intro m _ h; simp only [List.map_nil, run_nil, List.length_nil]; omega
  | cons k l ih =>
    intro m hall h
    have hstep := Update_prevTab m k (hall k (List.mem_cons_self _ _)) h
    have hrange := Update_activeTab_range m (Msg.KeyMsg k) h
    rw [List.map_cons, run_cons, ih _ (fun x hx => hall x (List.mem_cons_of_mem _ hx)) hrange,
      hstep, List.length_cons]
    push_cast
    omega

/-- C29: in a state whose `activeTab` is one of the five tabs, a next-tab
key followed by a prev-tab key, and a prev-tab key followed by a next-tab
key, restore `activeTab`; five next-tab keys in a row, and five prev-tab
keys in a row, restore it too, and the five tabs shown on the way are the
five tabs, each once. -/
theorem C29_tab_cycle_inverse (m : Model) (h0 : 0 ≤ m.activeTab) (h4 : m.activeTab ≤ 4) :
    (∀ kn kp : String, kn ∈ nextTabKeys → kp ∈ prevTabKeys →
        ((m.Update (Msg.KeyMsg kn)).1.Update (Msg.KeyMsg kp)).1.activeTab = m.activeTab
        ∧ ((m.Update (Msg.KeyMsg kp)).1.Update (Msg.KeyMsg kn)).1.activeTab = m.activeTab)
    ∧ (∀ k1 k2 k3 k4 k5 : String,
        (∀ k ∈ [k1, k2, k3, k4, k5], k ∈ nextTabKeys) →
        (run m [Msg.KeyMsg k1, Msg.KeyMsg k2, Msg.KeyMsg k3, Msg.KeyMsg k4,
          Msg.KeyMsg k5]).activeTab = m.activeTab
        ∧ [ (run m [Msg.KeyMsg k1]).activeTab,
            (run m [Msg.KeyMsg k1, Msg.KeyMsg k2]).activeTab,
            (run m [Msg.KeyMsg k1, Msg.KeyMsg k2, Msg.KeyMsg k3]).activeTab,
            (run m [Msg.KeyMsg k1, Msg.KeyMsg k2, Msg.KeyMsg k3, Msg.KeyMsg k4]).activeTab,
            (run m [Msg.KeyMsg k1, Msg.KeyMsg k2, Msg.KeyMsg k3, Msg.KeyMsg k4,
              Msg.KeyMsg k5]).activeTab ].Perm
            [TabDashboard, TabRevenues, TabExpenses, TabEFactura, TabQueue])
    ∧ (∀ k1 k2 k3 k4 k5 : String,
        (∀ k ∈ [k1, k2, k3, k4, k5], k ∈ prevTabKeys) →
        (run m [Msg.KeyMsg k1, Msg.KeyMsg k2, Msg.KeyMsg k3, Msg.KeyMsg k4,
          Msg.KeyMsg k5]).activeTab = m.activeTab
        ∧ [ (run m [Msg.KeyMsg k1]).activeTab,
            (run m [Msg.KeyMsg k1, Msg.KeyMsg k2]).activeTab,
            (run m [Msg.KeyMsg k1, Msg.KeyMsg k2, Msg.KeyMsg k3]).activeTab,
            (run m [Msg.KeyMsg k1, Msg.KeyMsg k2, Msg.KeyMsg k3, Msg.KeyMsg k4]).activeTab,
            (run m [Msg.KeyMsg k1, Msg.KeyMsg k2, Msg.KeyMsg k3, Msg.KeyMsg k4,
              Msg.KeyMsg k5]).activeTab ].Perm
            [TabDashboard, TabRevenues, TabExpenses, TabEFactura, TabQueue]) := by
  have hperm : ∀ t : Int, 0 ≤ t → t ≤ 4 →
      [ (t + 1) % 5, (t + 2) % 5, (t + 3) % 5, (t + 4) % 5, (t + 5) % 5 ].Perm
        [TabDashboard, TabRevenues, TabExpenses, TabEFactura, TabQueue]
      ∧ [ (t + 4) % 5, (t + 8) % 5, (t + 12) % 5, (t + 16) % 5, (t + 20) % 5 ].Perm
        [TabDashboard, TabRevenues, TabExpenses, TabEFactura, TabQueue] := by
    intro t ht0 ht4
    have hcases : t = 0 ∨ t = 1 ∨ t = 2 ∨ t = 3 ∨ t = 4 := by omega
    rcases hcases with rfl | rfl | rfl | rfl | rfl <;> exact ⟨by decide, by decide⟩
  refine ⟨fun kn kp hn hp => ⟨?_, ?_⟩, fun k1 k2 k3 k4 k5 hall => ?_,
    fun k1 k2 k3 k4 k5 hall => ?_⟩
  · rw [Update_prevTab _ kp hp (Update_activeTab_range m _ ⟨h0, h4⟩),
      Update_nextTab m kn hn ⟨h0, h4⟩]
    omega
  · rw [Update_nextTab _ kn hn (Update_activeTab_range m _ ⟨h0, h4⟩),
      Update_prevTab m kp hp ⟨h0, h4⟩]
    omega
  · have hsub : ∀ l : List String, (∀ k ∈ l, k ∈ [k1, k2, k3, k4, k5]) →
        (run m (l.map Msg.KeyMsg)).activeTab = (m.activeTab + l.length) % 5 :=
      fun l hl => run_nextTabs l m (fun k hk => hall k (hl k hk)) ⟨h0, h4⟩
    have e1 := hsub [k1] (by simp)
    have e2 := hsub [k1, k2] (by simp)
    have e3 := hsub [k1, k2, k3] (by simp)
    have e4 := hsub [k1, k2, k3, k4] (by simp)
    have e5 := hsub [k1, k2, k3, k4, k5] (by simp)
    simp only [List.map_cons, List.map_nil, List.length_cons, List.length_nil] at e1 e2 e3 e4 e5
    rw [e1, e2, e3, e4, e5]
    refine ⟨by omega, ?_⟩
    exact (hperm m.activeTab h0 h4).1
  · have hsub : ∀ l : List String, (∀ k ∈ l, k ∈ [k1, k2, k3, k4, k5]) →
        (run m (l.map Msg.KeyMsg)).activeTab = (m.activeTab + 4 * l.length) % 5 :=
      fun l hl => run_prevTabs l m (fun k hk => hall k (hl k hk)) ⟨h0, h4⟩
    have e1 := hsub [k1] (by simp)
    have e2 := hsub [k1, k2] (by simp)
    have e3 := hsub [k1, k2, k3] (by simp)
    have e4 := hsub [k1, k2, k3, k4] (by simp)
    have e5 := hsub [k1, k2, k3, k4, k5] (by simp)
    simp only [List.map_cons, List.map_nil, List.length_cons, List.length_nil] at e1 e2 e3 e4 e5
    rw [e1, e2, e3, e4, e5]
    refine ⟨by omega, ?_⟩
    exact (hperm m.activeTab h0 h4).2

/-- C29 at a concrete input: from the Dashboard tab of the demo state, `l`
then `h` comes back to the Dashboard, and so do five presses of `tab`. -/
theorem C29_tab_cycle_inverse_witness :
    ((NewDemoModel 2025).Update (Msg.KeyMsg "l")).1.activeTab = TabRevenues
    ∧ (((NewDemoModel 2025).Update (Msg.KeyMsg "l")).1.Update (Msg.KeyMsg "h")).1.activeTab
        = TabDashboard
    ∧ (run (NewDemoModel 2025) [Msg.KeyMsg "tab", Msg.KeyMsg "tab", Msg.KeyMsg "tab",
        Msg.KeyMsg "tab", Msg.KeyMsg "tab"]).activeTab = TabDashboard :=
  have h := C29_tab_cycle_inverse (NewDemoModel 2025) (by decide) (by decide)
  ⟨by decide, (h.1 "l" "h" (by decide) (by decide)).1,
    (h.2.1 "tab" "tab" "tab" "tab" "tab" (by decide)).1⟩

end tui

namespace tui

/-! ### C30 -/

/-- C30: for every byte string `s` and every `max ≥ 3`, `truncate` returns a
string `t` of at most `max` bytes: `s` itself when `len(s) ≤ max`, otherwise
the first `max - 3` bytes of `s` followed by `"..."`, of length exactly
`max`; truncating `t` again gives `t`; and the inline shortening of the
client name in `renderRevenues` is `truncate(name, 30)`. -/
theorem C30_truncate (s : List UInt8) (max : Int) (hmax : 3 ≤ max) :
    ∃ t : List UInt8,
      truncate s max = some t
      ∧ (t.length : Int) ≤ max
      ∧ ((s.length : Int) ≤ max → t = s)
      ∧ (max < (s.length : Int) →
          t = s.take (max - 3).toNat ++ goBytes "..." ∧ (t.length : Int) = max)
      ∧ truncate t max = some t
      ∧ (∀ name : List UInt8,
          truncate name 30
            = some (if name.length > 30 then name.take 27 ++ goBytes "..." else name))
      ∧ (∀ (m : Model) (items : List client.Revenue) (i : Int) (r : client.Revenue),
          indexAt items i = some r →
          ∃ serial clientName : List UInt8,
            truncate (goBytes r.SerialCode) 18 = some serial
            ∧ truncate (goBytes r.ClientName) 30 = some clientName
            ∧ m.revenueRow items i
                = some (writeRow m i (Text.Sprintf "%-4s %-18s %12.2f %-5s %s"
                    [ Text.str (if ¬ r.IsPaid then "❌" else "✅"), Text.bytes serial,
                      Text.float r.Total, Text.str r.Currency.ShortName,
                      Text.bytes clientName ]))) := by
  have h30 : ∀ name : List UInt8,
      truncate name 30
        = some (if name.length > 30 then name.take 27 ++ goBytes "..." else name) := by
    intro name
    rw [truncate_of_three_le name 30 (by decide)]
    by_cases h : name.length > 30
    · rw [if_neg (by omega), if_pos h]; rfl
    · rw [if_pos (by omega), if_neg h]
  have hlen : max < (s.length : Int) →
      ((s.take (max - 3).toNat ++ goBytes "...").length : Int) = max := by
    intro h
    rw [List.length_append, List.length_take, goBytes_dots_length]
    omega
  by_cases hs : (s.length : Int) ≤ max
  · refine ⟨s, ?_, hs, fun _ => rfl, fun h => absurd hs (by omega), ?_, h30, ?_⟩
    · rw [truncate_of_three_le s max hmax, if_pos hs]
    · rw [truncate_of_three_le s max hmax, if_pos hs]
    · intro m items i r hr
      refine ⟨_, _, truncate_of_three_le _ 18 (by decide), h30 _, ?_⟩
      exact revenueRow_of_index m items i r hr
  · have hgt : max < (s.length : Int) := by omega
    refine ⟨s.take (max - 3).toNat ++ goBytes "...", ?_, le_of_eq (hlen hgt),
      fun h => absurd h hs, fun _ => ⟨rfl, hlen hgt⟩, ?_, h30, ?_⟩
    · rw [truncate_of_three_le s max hmax, if_neg hs]
    · rw [truncate_of_three_le _ max hmax, if_pos (le_of_eq (hlen hgt))]
    · intro m items i r hr
      refine ⟨_, _, truncate_of_three_le _ 18 (by decide), h30 _, ?_⟩
      exact revenueRow_of_index m items i r hr

/-- C30 at a concrete input: a name of 12 bytes truncated to 8 bytes keeps
its first 5 bytes and ends in three dots, and truncating it again changes
nothing. -/
theorem C30_truncate_witness :
    (3 : Int) ≤ 8
    ∧ ∃ t : List UInt8,
        truncate (goBytes "factura.pdf!") 8 = some t
        ∧ (t.length : Int) ≤ 8
        ∧ truncate t 8 = some t
        ∧ t = goBytes "factu..." :=
  ⟨by decide,
    (C30_truncate (goBytes "factura.pdf!") 8 (by decide)).elim
      (fun t ht => ⟨t, ht.1, ht.2.1, ht.2.2.2.2.1, (ht.2.2.2.1 (by decide)).1.trans (by decide)⟩)⟩

end tui
